import Mathlib

/-! The dimension / scale algebra of `units::PhysicalUnit` (phys_units).

A shallow embedding of `src/inc/phys_units.hpp`, of the angle class of
`src/inc/phys_angle.hpp` and of the root tables of `src/inc/phys_math.hpp`.

* The template arguments of a quantity type (a `std::ratio` scale factor and eight
  `std::ratio` dimension exponents) are data: `Ratio`, `Dims`.
* The primary class template `PhysicalUnit` and its partial specialization for the
  all-`std::ratio<0>` dimension pack are two classes in the source and two structures
  here: `PhysicalUnit` and `Dimensionless`.
* An operation the compiler rejects (template argument deduction fails, a
  `static_assert` of `<ratio>` fires, a body is ill-formed) returns `none`.
* The affine class `AbsolutePhysicalUnit` and the periodic class `AbsoluteAngle` are
  structures of their own; `AbsoluteAngle.setValue` is the normalisation.
* Raw value types are instances of `ValType`; `Int` stands for the C++ integer types
  (division truncates toward zero, overflow is outside the model) and `ℚ` for exact
  arithmetic.
-/

namespace units

/-! ## `std::ratio` -/

/-- The type `std::ratio<N, D>`: its two template arguments as written. A zero `D` is
rejected by the `static_assert` of `<ratio>`, so no such type exists. -/
structure Ratio where
  N : Int
  D : Int := 1
  nonzero : D ≠ 0 := by decide
deriving DecidableEq

namespace Ratio

/-- Member `ratio::num`, that is `sign(N) * sign(D) * abs(N) / gcd(N, D)`. -/
def num (r : Ratio) : Int :=
  Int.sign r.N * Int.sign r.D * ((r.N.natAbs / Nat.gcd r.N.natAbs r.D.natAbs : Nat) : Int)

/-- Member `ratio::den`, that is `abs(D) / gcd(N, D)`. -/
def den (r : Ratio) : Int :=
  ((r.D.natAbs / Nat.gcd r.N.natAbs r.D.natAbs : Nat) : Int)

/-- The denominator member is positive. -/
theorem den_pos (r : Ratio) : 0 < r.den := by
  unfold den
  have hD : 0 < r.D.natAbs := Int.natAbs_pos.mpr r.nonzero
  have hg : 0 < Nat.gcd r.N.natAbs r.D.natAbs := Nat.gcd_pos_of_pos_right _ hD
  have hle : Nat.gcd r.N.natAbs r.D.natAbs ≤ r.D.natAbs :=
    Nat.le_of_dvd hD (Nat.gcd_dvd_right _ _)
  exact_mod_cast Nat.div_pos hle hg

/-- Member `ratio::type`, the type `std::ratio<num, den>`. -/
def type (r : Ratio) : Ratio := ⟨r.num, r.den, ne_of_gt r.den_pos⟩

/-- The rational number a ratio type denotes. -/
def toRat (r : Ratio) : ℚ := (r.N : ℚ) / (r.D : ℚ)

end Ratio

/-- The type `std::ratio<0>`, the default of every dimension parameter. -/
def ratio0 : Ratio := Ratio.mk 0 1

/-- The type `std::ratio<1>`, the default scale factor. -/
def ratio1 : Ratio := Ratio.mk 1 1

/-- Alias `std::ratio_add<R1, R2>`. -/
def ratio_add (R1 R2 : Ratio) : Ratio :=
  Ratio.type ⟨R1.num * R2.den + R2.num * R1.den, R1.den * R2.den,
    mul_ne_zero (ne_of_gt R1.den_pos) (ne_of_gt R2.den_pos)⟩

/-- Alias `std::ratio_subtract<R1, R2>`. -/
def ratio_subtract (R1 R2 : Ratio) : Ratio :=
  Ratio.type ⟨R1.num * R2.den - R2.num * R1.den, R1.den * R2.den,
    mul_ne_zero (ne_of_gt R1.den_pos) (ne_of_gt R2.den_pos)⟩

/-- Alias `std::ratio_multiply<R1, R2>`. -/
def ratio_multiply (R1 R2 : Ratio) : Ratio :=
  Ratio.type ⟨R1.num * R2.num, R1.den * R2.den,
    mul_ne_zero (ne_of_gt R1.den_pos) (ne_of_gt R2.den_pos)⟩

/-- Alias `std::ratio_divide<R1, R2>`; ill-formed (`none`) when `R2::num` is zero. -/
def ratio_divide (R1 R2 : Ratio) : Option Ratio :=
  if h : R2.num = 0 then none
  else some (Ratio.type ⟨R1.num * R2.den, R1.den * R2.num,
    mul_ne_zero (ne_of_gt R1.den_pos) h⟩)

/-- The alias `ratio_divide` is well-formed for a divisor with a non-zero numerator. -/
theorem ratio_divide_isSome (R1 R2 : Ratio) (h : R2.num ≠ 0) :
    (ratio_divide R1 R2).isSome = true := by
  unfold ratio_divide
  rw [dif_neg h]
  rfl

/-! ## Raw value types -/

/-- The arithmetic of a raw value type `ValType` as the operators of the header use it.
`ofIntmax` is the conversion of a `std::intmax_t` (`ratio::num`, `ratio::den`) or of an
integer literal to the type in which the expression is evaluated, `fmod` is
`std::fmod` on two values of the type, and `floating` is
`std::is_floating_point<ValType>::value`. -/
class ValType (V : Type) where
  floating : Bool
  add : V → V → V
  sub : V → V → V
  mul : V → V → V
  div : V → V → V
  fmod : V → V → V
  ofIntmax : Int → V
  eq : V → V → Bool
  ne : V → V → Bool
  le : V → V → Bool
  ge : V → V → Bool
  lt : V → V → Bool
  gt : V → V → Bool

/-- The C++ integer types: `/` truncates toward zero, and `std::fmod` on two integers is
the overload of `phys_units.hpp` (lines 364-367), `a % b`, the remainder of that
division. -/
instance : ValType Int where
  floating := false
  add := Int.add
  sub := Int.sub
  mul := Int.mul
  div := Int.tdiv
  fmod := Int.tmod
  ofIntmax := id
  eq := fun a b => decide (a = b)
  ne := fun a b => decide (a ≠ b)
  le := fun a b => decide (a ≤ b)
  ge := fun a b => decide (a ≥ b)
  lt := fun a b => decide (a < b)
  gt := fun a b => decide (a > b)

/-- Exact rational arithmetic, the idealisation of the floating-point types. -/
instance : ValType ℚ where
  floating := true
  add := fun a b => a + b
  sub := fun a b => a - b
  mul := fun a b => a * b
  div := fun a b => a / b
  fmod := fun a b => a - b * (((a / b).num.tdiv (a / b).den : Int) : ℚ)
  ofIntmax := fun z => (z : ℚ)
  eq := fun a b => decide (a = b)
  ne := fun a b => decide (a ≠ b)
  le := fun a b => decide (a ≤ b)
  ge := fun a b => decide (a ≥ b)
  lt := fun a b => decide (a < b)
  gt := fun a b => decide (a > b)

/-! ## Quantity types -/

/-- The eight dimension parameters of `PhysicalUnit`, in declaration order. -/
structure Dims where
  LenDim : Ratio
  MassDim : Ratio
  TimeDim : Ratio
  ElcurDim : Ratio
  TempDim : Ratio
  AmmDim : Ratio
  LumDim : Ratio
  AngleDim : Ratio
deriving DecidableEq

namespace Dims

/-- The dimension pack matched by the partial specialization: eight `std::ratio<0>`. -/
def zero : Dims := ⟨ratio0, ratio0, ratio0, ratio0, ratio0, ratio0, ratio0, ratio0⟩

/-- The i-th dimension parameter. -/
def get (d : Dims) (i : Fin 8) : Ratio :=
  match i with
  | 0 => d.LenDim
  | 1 => d.MassDim
  | 2 => d.TimeDim
  | 3 => d.ElcurDim
  | 4 => d.TempDim
  | 5 => d.AmmDim
  | 6 => d.LumDim
  | 7 => d.AngleDim

/-- Pack expansion `Op<Args1, Args2>...` over two dimension packs. -/
def zipWith (f : Ratio → Ratio → Ratio) (a b : Dims) : Dims :=
  ⟨f a.LenDim b.LenDim, f a.MassDim b.MassDim, f a.TimeDim b.TimeDim,
   f a.ElcurDim b.ElcurDim, f a.TempDim b.TempDim, f a.AmmDim b.AmmDim,
   f a.LumDim b.LumDim, f a.AngleDim b.AngleDim⟩

/-- Pack expansion `Op<Args>...` over one dimension pack. -/
def map (f : Ratio → Ratio) (a : Dims) : Dims :=
  ⟨f a.LenDim, f a.MassDim, f a.TimeDim, f a.ElcurDim, f a.TempDim, f a.AmmDim,
   f a.LumDim, f a.AngleDim⟩

end Dims

/-- An object of the primary class template `PhysicalUnit<ValType, Factor, Dims...>`
(lines 29-96). The dimension pack is not the one of the partial specialization, which is
another class. -/
structure PhysicalUnit (V : Type) where
  Factor : Ratio
  dims : Dims
  m_value : V
  general : dims ≠ Dims.zero
deriving DecidableEq

/-- An object of the partial specialization `PhysicalUnit<ValType, Factor>` for the
all-`std::ratio<0>` dimension pack (lines 98-112): it has no `value()` and no operators of
its own, only the conversion to `ValType`. -/
structure Dimensionless (V : Type) where
  Factor : Ratio
  m_value : V
deriving DecidableEq

/-- An object of some instantiation of `PhysicalUnit`, of either class. -/
inductive Instantiation (V : Type) where
  | general (q : PhysicalUnit V)
  | scalar (q : Dimensionless V)
deriving DecidableEq

/-- Expression `PhysicalUnit<V, F, Dims...>(v)`: the explicit constructor from a raw value,
of the class that the compiler selects for the argument list. -/
def construct {V : Type} (F : Ratio) (d : Dims) (v : V) : Instantiation V :=
  if h : d = Dims.zero then Instantiation.scalar ⟨F, v⟩
  else Instantiation.general ⟨F, d, v, h⟩

namespace Instantiation

/-- The scale factor argument of the object's type. -/
def Factor {V : Type} : Instantiation V → Ratio
  | general q => q.Factor
  | scalar q => q.Factor

/-- The dimension pack of the object's type. -/
def dims {V : Type} : Instantiation V → Dims
  | general q => q.dims
  | scalar _ => Dims.zero

/-- The stored raw value. -/
def m_value {V : Type} : Instantiation V → V
  | general q => q.m_value
  | scalar q => q.m_value

end Instantiation

namespace PhysicalUnit

/-- Member `value()` of the primary template. -/
def value {V : Type} (q : PhysicalUnit V) : V := q.m_value

/-- The converting constructor (lines 41-49) of the type with scale `Factor` and the
dimension pack of `val`, which the signature makes the same for both types. -/
def convert {V : Type} [ValType V] (Factor : Ratio) (val : PhysicalUnit V) :
    Option (PhysicalUnit V) :=
  match ratio_divide val.Factor Factor with
  | none => none
  | some outRatio =>
    some ⟨Factor, val.dims,
      ValType.div (ValType.mul val.value (ValType.ofIntmax outRatio.num))
        (ValType.ofIntmax outRatio.den),
      val.general⟩

end PhysicalUnit

/-- Function `unit_cast<ToType>(fromType)` (lines 228-231), `ToType(fromType)`, for a
`ToType` of the primary template with scale `ToFactor` and dimension pack `ToDims`: the
implicit copy constructor when `ToType` is the type of the argument, the converting
constructor when only the scale differs, and no constructor at all when the packs differ. -/
def unit_cast {V : Type} [ValType V] (ToFactor : Ratio) (ToDims : Dims)
    (fromType : PhysicalUnit V) : Option (PhysicalUnit V) :=
  if ToDims = fromType.dims then
    if ToFactor = fromType.Factor then some fromType
    else PhysicalUnit.convert ToFactor fromType
  else none

/-! ## Operators of the primary template -/

/-- The six comparison operators (lines 114-148) share one shape: both parameters name the
same pack `Ts...`, so deduction succeeds only for operands of one scale and one dimension
pack, and the raw values are compared with the built-in operator `op`. -/
def compareWith {V : Type} (op : V → V → Bool) (lhs rhs : PhysicalUnit V) : Option Bool :=
  if lhs.Factor = rhs.Factor ∧ lhs.dims = rhs.dims then some (op lhs.value rhs.value)
  else none

/-- Function `operator==` (lines 114-118). -/
def operator_eq {V : Type} [ValType V] (lhs rhs : PhysicalUnit V) : Option Bool :=
  compareWith ValType.eq lhs rhs

/-- Function `operator!=` (lines 120-124). -/
def operator_ne {V : Type} [ValType V] (lhs rhs : PhysicalUnit V) : Option Bool :=
  compareWith ValType.ne lhs rhs

/-- Function `operator<=` (lines 126-130). -/
def operator_le {V : Type} [ValType V] (lhs rhs : PhysicalUnit V) : Option Bool :=
  compareWith ValType.le lhs rhs

/-- Function `operator>=` (lines 132-136). -/
def operator_ge {V : Type} [ValType V] (lhs rhs : PhysicalUnit V) : Option Bool :=
  compareWith ValType.ge lhs rhs

/-- Function `operator<` (lines 138-142). -/
def operator_lt {V : Type} [ValType V] (lhs rhs : PhysicalUnit V) : Option Bool :=
  compareWith ValType.lt lhs rhs

/-- Function `operator>` (lines 144-148). -/
def operator_gt {V : Type} [ValType V] (lhs rhs : PhysicalUnit V) : Option Bool :=
  compareWith ValType.gt lhs rhs

/-- Function `operator+` of two quantities (lines 150-156): one pack `Ts...` for both
operands, the result of the same type with the sum of the raw values. -/
def operator_plus {V : Type} [ValType V] (lhs rhs : PhysicalUnit V) :
    Option (PhysicalUnit V) :=
  if lhs.Factor = rhs.Factor ∧ lhs.dims = rhs.dims then
    some ⟨lhs.Factor, lhs.dims, ValType.add lhs.value rhs.value, lhs.general⟩
  else none

/-- Function `operator-` of two quantities (lines 158-164). -/
def operator_minus {V : Type} [ValType V] (lhs rhs : PhysicalUnit V) :
    Option (PhysicalUnit V) :=
  if lhs.Factor = rhs.Factor ∧ lhs.dims = rhs.dims then
    some ⟨lhs.Factor, lhs.dims, ValType.sub lhs.value rhs.value, lhs.general⟩
  else none

/-- Function `operator*` of two quantities (lines 166-177). -/
def operator_mul {V : Type} [ValType V] (lhs rhs : PhysicalUnit V) : Instantiation V :=
  construct (ratio_multiply lhs.Factor rhs.Factor) (Dims.zipWith ratio_add lhs.dims rhs.dims)
    (ValType.mul lhs.value rhs.value)

/-- Function `operator/` of two quantities (lines 191-202); ill-formed when
`std::ratio_divide<F1, F2>` is. -/
def operator_div {V : Type} [ValType V] (lhs rhs : PhysicalUnit V) :
    Option (Instantiation V) :=
  match ratio_divide lhs.Factor rhs.Factor with
  | none => none
  | some F =>
    some (construct F (Dims.zipWith ratio_subtract lhs.dims rhs.dims)
      (ValType.div lhs.value rhs.value))

/-- Function `operator/` of a bare number and a quantity (lines 204-213). -/
def operator_div_number {V : Type} [ValType V] (lhs : V) (rhs : PhysicalUnit V) :
    Option (Instantiation V) :=
  match ratio_divide ratio1 rhs.Factor with
  | none => none
  | some F =>
    some (construct F (Dims.map (ratio_subtract ratio0) rhs.dims)
      (ValType.div lhs rhs.value))

/-! ## The dimensionless specialization -/

namespace Dimensionless

/-- The explicit constructor `PhysicalUnit(ValType initialValue)` of the specialization
(lines 103-104). -/
def ofValType {V : Type} (Factor : Ratio) (initialValue : V) : Dimensionless V :=
  ⟨Factor, initialValue⟩

/-- The conversion `operator ValType()` (lines 106-108). -/
def toValType {V : Type} [ValType V] (q : Dimensionless V) : V :=
  ValType.div (ValType.mul q.m_value (ValType.ofIntmax q.Factor.num))
    (ValType.ofIntmax q.Factor.den)

end Dimensionless

/-! ## Overload resolution on objects of either class

An object of the primary template has `value()` and no conversion to a number; an object
of the specialization has the implicit conversion to `ValType` and no `value()`. An
operator template whose return type names `value()` of a specialization object is
discarded (substitution failure), and the built-in operator on the converted operands is
the remaining candidate. -/

/-- Expression `lhs + rhs` on two objects of instantiations of `PhysicalUnit`: the
quantity from `operator+` (left) or the number from the built-in `+` (right). -/
def plusExpr {V : Type} [ValType V] (lhs rhs : Instantiation V) :
    Option (PhysicalUnit V ⊕ V) :=
  match lhs, rhs with
  | Instantiation.general a, Instantiation.general b => (operator_plus a b).map Sum.inl
  | Instantiation.scalar a, Instantiation.scalar b =>
    some (Sum.inr (ValType.add a.toValType b.toValType))
  | _, _ => none

/-- Expression `lhs - rhs` on two objects of instantiations of `PhysicalUnit`. -/
def minusExpr {V : Type} [ValType V] (lhs rhs : Instantiation V) :
    Option (PhysicalUnit V ⊕ V) :=
  match lhs, rhs with
  | Instantiation.general a, Instantiation.general b => (operator_minus a b).map Sum.inl
  | Instantiation.scalar a, Instantiation.scalar b =>
    some (Sum.inr (ValType.sub a.toValType b.toValType))
  | _, _ => none

/-- A comparison expression on two objects of instantiations of `PhysicalUnit`. The
comparison templates return `bool`, so for two specialization objects of one type the
template is selected and its body, which calls `value()`, does not compile; for two
specialization objects of different types only the built-in operator is viable. -/
def compareExpr {V : Type} [ValType V] (op : V → V → Bool) (lhs rhs : Instantiation V) :
    Option Bool :=
  match lhs, rhs with
  | Instantiation.general a, Instantiation.general b => compareWith op a b
  | Instantiation.scalar a, Instantiation.scalar b =>
    if a.Factor = b.Factor then none else some (op a.toValType b.toValType)
  | _, _ => none

/-- Expression `lhs / rhs` for a left operand of either class and a quantity `rhs`: for a
specialization object only the overload of lines 204-213 is viable, with the object itself
as the bare operand, converted where the body divides. -/
def divExpr {V : Type} [ValType V] (lhs : Instantiation V) (rhs : PhysicalUnit V) :
    Option (Instantiation V) :=
  match lhs with
  | Instantiation.general a => operator_div a rhs
  | Instantiation.scalar a => operator_div_number a.toValType rhs

/-! ## Affine quantities -/

/-- The seven dimension parameters of `AbsolutePhysicalUnit` (lines 235-238), in declaration
order; the class has no angle parameter. -/
structure AbsDims where
  LenDim : Ratio
  MassDim : Ratio
  TimeDim : Ratio
  ElcurDim : Ratio
  TempDim : Ratio
  AmmDim : Ratio
  LumDim : Ratio
deriving DecidableEq

/-- The dimension pack of `DiffPhysicalUnit` (lines 242-244): the seven parameters, and the
default `std::ratio<0>` of `PhysicalUnit` for `AngleDim`. -/
def AbsDims.diffDims (d : AbsDims) : Dims :=
  ⟨d.LenDim, d.MassDim, d.TimeDim, d.ElcurDim, d.TempDim, d.AmmDim, d.LumDim, ratio0⟩

/-- An object of `AbsolutePhysicalUnit<ValType, Factor, DiffType, Offset, Dims...>`
(lines 233-311), with `DiffType` the raw type itself. -/
structure AbsolutePhysicalUnit (V : Type) where
  Factor : Ratio
  Offset : Ratio
  dims : AbsDims
  m_value : V
deriving DecidableEq

namespace AbsolutePhysicalUnit

/-- Member `value()` (line 304). -/
def value {V : Type} (q : AbsolutePhysicalUnit V) : V := q.m_value

/-- The converting constructor (lines 252-261) of the type with scale `Factor`, offset
`Offset` and the dimension parameters of `val`. -/
def convert {V : Type} [ValType V] (Factor Offset : Ratio) (val : AbsolutePhysicalUnit V) :
    Option (AbsolutePhysicalUnit V) :=
  match ratio_divide val.Factor Factor,
      ratio_divide (ratio_subtract val.Offset Offset) Factor with
  | some outRatio, some outOffset =>
    some ⟨Factor, Offset, val.dims,
      ValType.add
        (ValType.div (ValType.mul val.value (ValType.ofIntmax outRatio.num))
          (ValType.ofIntmax outRatio.den))
        (ValType.div (ValType.ofIntmax outOffset.num) (ValType.ofIntmax outOffset.den))⟩
  | _, _ => none

/-- The six comparison operators (lines 318-352) share one shape: both parameters are
`AbsolutePhysicalUnit<Ts...>` for one pack, so the operands are of one type, and the raw
values are compared with the built-in operator `op`. -/
def compareWith {V : Type} (op : V → V → Bool) (lhs rhs : AbsolutePhysicalUnit V) :
    Option Bool :=
  if lhs.Factor = rhs.Factor ∧ lhs.Offset = rhs.Offset ∧ lhs.dims = rhs.dims then
    some (op lhs.value rhs.value)
  else none

/-- Function `operator==` (lines 318-322). -/
def operator_eq {V : Type} [ValType V] (lhs rhs : AbsolutePhysicalUnit V) : Option Bool :=
  compareWith ValType.eq lhs rhs

/-- Function `operator!=` (lines 324-328). -/
def operator_ne {V : Type} [ValType V] (lhs rhs : AbsolutePhysicalUnit V) : Option Bool :=
  compareWith ValType.ne lhs rhs

/-- Function `operator<=` (lines 330-334). -/
def operator_le {V : Type} [ValType V] (lhs rhs : AbsolutePhysicalUnit V) : Option Bool :=
  compareWith ValType.le lhs rhs

/-- Function `operator>=` (lines 336-340). -/
def operator_ge {V : Type} [ValType V] (lhs rhs : AbsolutePhysicalUnit V) : Option Bool :=
  compareWith ValType.ge lhs rhs

/-- Function `operator<` (lines 342-346). -/
def operator_lt {V : Type} [ValType V] (lhs rhs : AbsolutePhysicalUnit V) : Option Bool :=
  compareWith ValType.lt lhs rhs

/-- Function `operator>` (lines 348-352). -/
def operator_gt {V : Type} [ValType V] (lhs rhs : AbsolutePhysicalUnit V) : Option Bool :=
  compareWith ValType.gt lhs rhs

/-- Member `operator-(const AbsolutePhysicalUnit &)` (lines 292-294): the operand is of the
type of the object, and the result is `DiffPhysicalUnit(value() - rhs.value())`. -/
def operator_minus {V : Type} [ValType V] (lhs rhs : AbsolutePhysicalUnit V) :
    Option (Instantiation V) :=
  if lhs.Factor = rhs.Factor ∧ lhs.Offset = rhs.Offset ∧ lhs.dims = rhs.dims then
    some (construct lhs.Factor lhs.dims.diffDims (ValType.sub lhs.value rhs.value))
  else none

/-- Member `operator-(const DiffPhysicalUnit &)` (lines 296-298). The operand is of the
type `DiffPhysicalUnit`, and the body reads `rhs.value()`, which an object of the
dimensionless specialization does not have. -/
def operator_minus_diff {V : Type} [ValType V] (lhs : AbsolutePhysicalUnit V)
    (rhs : Instantiation V) : Option (AbsolutePhysicalUnit V) :=
  match rhs with
  | Instantiation.general d =>
    if d.Factor = lhs.Factor ∧ d.dims = lhs.dims.diffDims then
      some ⟨lhs.Factor, lhs.Offset, lhs.dims, ValType.sub lhs.value d.value⟩
    else none
  | Instantiation.scalar _ => none

/-- Member `operator+(const DiffPhysicalUnit &)` (lines 300-302). -/
def operator_plus {V : Type} [ValType V] (lhs : AbsolutePhysicalUnit V)
    (rhs : Instantiation V) : Option (AbsolutePhysicalUnit V) :=
  match rhs with
  | Instantiation.general d =>
    if d.Factor = lhs.Factor ∧ d.dims = lhs.dims.diffDims then
      some ⟨lhs.Factor, lhs.Offset, lhs.dims, ValType.add lhs.value d.value⟩
    else none
  | Instantiation.scalar _ => none

end AbsolutePhysicalUnit

/-! ## Angles -/

/-- The dimension pack of `PhysicalUnitAngle` (`phys_angle.hpp`, lines 34-38). -/
def angleDims : Dims := ⟨ratio0, ratio0, ratio0, ratio0, ratio0, ratio0, ratio0, ratio1⟩

/-- The template arguments `Factor` and `HalfInterval` of an instantiation of
`AbsoluteAngle` (`phys_angle.hpp`, lines 40-42). Every constructor but the default one calls
`setValue`, whose body forms `std::ratio_divide<std::ratio<1>, Factor>`, so a type with a
scale of numerator zero has no objects. -/
structure AngleType where
  Factor : Ratio
  HalfInterval : Bool
  scaled : Factor.num ≠ 0
deriving DecidableEq

/-- The alias `fullCircle` of `setValue` (lines 91-93). -/
def AngleType.fullCircle (T : AngleType) : Ratio :=
  ratio_multiply (Ratio.mk 360 1)
    ((ratio_divide ratio1 T.Factor).get (ratio_divide_isSome ratio1 T.Factor T.scaled))

/-- An object of `AbsoluteAngle<ValType, Factor, HalfInterval>` (lines 40-107). -/
structure AbsoluteAngle (V : Type) where
  type : AngleType
  m_value : V
deriving DecidableEq

namespace AbsoluteAngle

/-- Member `value()` (line 87). -/
def value {V : Type} (q : AbsoluteAngle V) : V := q.m_value

/-- Member `setValue` (lines 90-103): the value it assigns to `m_value`. -/
def setValue {V : Type} [ValType V] (T : AngleType) (value : V) : V :=
  let factor : V :=
    ValType.div (ValType.ofIntmax T.fullCircle.num) (ValType.ofIntmax T.fullCircle.den)
  let result : V := ValType.fmod value factor
  if T.HalfInterval && ValType.ge result (ValType.div factor (ValType.ofIntmax 2)) then
    ValType.sub result factor
  else if !T.HalfInterval && ValType.lt result (ValType.ofIntmax 0) then
    ValType.add result factor
  else
    result

/-- Constructor `AbsoluteAngle(ValType initialValue)` (lines 48-50). -/
def ofValue {V : Type} [ValType V] (T : AngleType) (initialValue : V) : AbsoluteAngle V :=
  ⟨T, setValue T initialValue⟩

/-- The default constructor (line 51). -/
def zero {V : Type} [ValType V] (T : AngleType) : AbsoluteAngle V :=
  ⟨T, ValType.ofIntmax 0⟩

/-- The copy constructor (line 52). -/
def copy {V : Type} [ValType V] (val : AbsoluteAngle V) : AbsoluteAngle V :=
  ⟨val.type, setValue val.type val.value⟩

/-- The converting constructor (lines 53-58) of the angle type `T`. -/
def convert {V : Type} [ValType V] (T : AngleType) (val : AbsoluteAngle V) :
    AbsoluteAngle V :=
  ⟨T, setValue T
    (ValType.div
      (ValType.mul val.value (ValType.ofIntmax
        ((ratio_divide val.type.Factor T.Factor).get
          (ratio_divide_isSome val.type.Factor T.Factor T.scaled)).num))
      (ValType.ofIntmax
        ((ratio_divide val.type.Factor T.Factor).get
          (ratio_divide_isSome val.type.Factor T.Factor T.scaled)).den))⟩

/-- Expression `T(val)` for an angle `val`: the copy constructor when `val` is of the type
`T`, the converting constructor otherwise. -/
def ofAngle {V : Type} [ValType V] (T : AngleType) (val : AbsoluteAngle V) :
    AbsoluteAngle V :=
  if val.type = T then copy val else convert T val

/-- Expression `self = val` for two angles. For one type it is the implicit copy assignment,
which copies `m_value`; for one scale and two interval kinds it is the template
`operator=` (lines 59-63), which calls `setValue`; for two scales there is no assignment. -/
def assign {V : Type} [ValType V] (self val : AbsoluteAngle V) : Option (AbsoluteAngle V) :=
  if val.type = self.type then some ⟨self.type, val.m_value⟩
  else if val.type.Factor = self.type.Factor then
    some ⟨self.type, setValue self.type val.value⟩
  else none

/-- Member `operator+=` (lines 65-68); the operand is a `DiffAngleUnit`, the quantity type
`PhysicalUnitAngle<ValType, Factor>`. -/
def plus_assign {V : Type} [ValType V] (self : AbsoluteAngle V) (rhs : PhysicalUnit V) :
    Option (AbsoluteAngle V) :=
  if rhs.Factor = self.type.Factor ∧ rhs.dims = angleDims then
    some ⟨self.type, setValue self.type (ValType.add self.m_value rhs.value)⟩
  else none

/-- Member `operator-=` (lines 70-73). -/
def minus_assign {V : Type} [ValType V] (self : AbsoluteAngle V) (rhs : PhysicalUnit V) :
    Option (AbsoluteAngle V) :=
  if rhs.Factor = self.type.Factor ∧ rhs.dims = angleDims then
    some ⟨self.type, setValue self.type (ValType.sub self.m_value rhs.value)⟩
  else none

/-- Member `operator+(const DiffAngleUnit &)` (lines 83-85). The body is
`AbsoluteAngle(value + rhs.value())`, in which `value` names the member function of line 87
and is not called; a member function is not an operand of `+`, so the body is ill-formed
for every instantiation and the operator yields no angle. -/
def operator_plus {V : Type} [ValType V] (_self : AbsoluteAngle V) (_rhs : PhysicalUnit V) :
    Option (AbsoluteAngle V) :=
  none

/-- Member `operator-(const DiffAngleUnit &)` (lines 79-81), whose body
`AbsoluteAngle(value - rhs.value())` is ill-formed in the same way. -/
def operator_minus_diff {V : Type} [ValType V] (_self : AbsoluteAngle V)
    (_rhs : PhysicalUnit V) : Option (AbsoluteAngle V) :=
  none

/-- Member `operator-(const AbsoluteAngle &)` (lines 75-77), whose body
`DiffAngleUnit(value - rhs.value())` is ill-formed in the same way. -/
def operator_minus {V : Type} [ValType V] (_self _rhs : AbsoluteAngle V) :
    Option (PhysicalUnit V) :=
  none

end AbsoluteAngle

/-! ## Roots of scale factors -/

/-- The specializations of `std::num_sqrt` (`phys_math.hpp`, lines 27-55): the member
`value` of the specialization for the key, and `none` for the primary template, which has
no member. -/
def num_sqrt (Number : Int) : Option Int :=
  if Number = 0 then some 0
  else if Number = 1 then some 1
  else if Number = 100 then some 10
  else if Number = 360 then some 60
  else if Number = 10000 then some 100
  else if Number = 1000000 then some 1000
  else if Number = 100000000 then some 1000
  else none

/-- Alias `std::ratio_sqrt<R>` (lines 57-58), the type
`ratio<num_sqrt<R::num>::value, num_sqrt<R::den>::value>`. -/
def ratio_sqrt (R : Ratio) : Option Ratio :=
  match num_sqrt R.num, num_sqrt R.den with
  | some n, some d => if h : d = 0 then none else some ⟨n, d, h⟩
  | _, _ => none

/-- The specializations of `std::num_cbrt` (`phys_math.hpp`, lines 69-93): the member
`value` of the specialization for the key, and `none` for the primary template, which has
no member. -/
def num_cbrt (Number : Int) : Option Int :=
  if Number = 0 then some 0
  else if Number = 1 then some 1
  else if Number = 8 then some 2
  else if Number = 27 then some 3
  else if Number = 1000 then some 10
  else if Number = 1000000 then some 100
  else none

/-- Alias `std::ratio_cbrt<R>` (lines 95-96), the type
`ratio<num_cbrt<R::num>::value, num_cbrt<R::den>::value>`. -/
def ratio_cbrt (R : Ratio) : Option Ratio :=
  match num_cbrt R.num, num_cbrt R.den with
  | some n, some d => if h : d = 0 then none else some ⟨n, d, h⟩
  | _, _ => none

/-! ## Roots of quantities -/

/-- The result of `std::sqrt` or `std::cbrt` on a number `x` of type `V`. It is a
`double` holding a real root, which the raw types of this development cannot hold, so it
is kept as the expression. -/
inductive Rooted (V : Type) where
  | sqrt (x : V)
  | cbrt (x : V)
deriving DecidableEq

/-- The type `std::ratio<2>`. -/
def ratio2 : Ratio := Ratio.mk 2 1

/-- The type `std::ratio<3>`. -/
def ratio3 : Ratio := Ratio.mk 3 1

/-- The alias `ratio_divide<Dim, ratio<2>>` of one element of the pack (line 63). -/
def halfDim (Dim : Ratio) : Ratio :=
  (ratio_divide Dim ratio2).get (ratio_divide_isSome Dim ratio2 (by decide))

/-- The alias `ratio_divide<Dim, ratio<3>>` of one element of the pack (line 101). -/
def thirdDim (Dim : Ratio) : Ratio :=
  (ratio_divide Dim ratio3).get (ratio_divide_isSome Dim ratio3 (by decide))

/-- Function `std::sqrt(const units::PhysicalUnit<V, F, Dims...> &)` (lines 60-67). The
return type names `ratio_sqrt<F>`, so the template takes part in overload resolution only
when `num_sqrt` has a member `value` for `F::num` and for `F::den`; the result is
`PhysicalUnit<double, ratio_sqrt<F>, ratio_divide<Dims, ratio<2>>...>(sqrt(val.value()))`. -/
def PhysicalUnit.sqrt {V : Type} (val : PhysicalUnit V) : Option (Instantiation (Rooted V)) :=
  match ratio_sqrt val.Factor with
  | none => none
  | some F => some (construct F (Dims.map halfDim val.dims) (Rooted.sqrt val.value))

/-- Function `std::cbrt(const units::PhysicalUnit<V, F, Dims...> &)` (lines 98-105), the
same with `ratio_cbrt<F>` and `ratio_divide<Dims, ratio<3>>...`. -/
def PhysicalUnit.cbrt {V : Type} (val : PhysicalUnit V) : Option (Instantiation (Rooted V)) :=
  match ratio_cbrt val.Factor with
  | none => none
  | some F => some (construct F (Dims.map thirdDim val.dims) (Rooted.cbrt val.value))

/-- Expression `std::sqrt(q)` on an object of either class. The template of
`phys_math.hpp` names `val.value()` in its return type, so for an object of the
specialization it is discarded whatever the scale, and the overloads of `<cmath>` remain:
the object converts through `operator ValType()`, which selects `sqrt(double)` when
`ValType` is a floating-point type and is ambiguous between the `float`, `double` and
`long double` overloads when it is an integer type. For an object of the primary template
only the template of `phys_math.hpp` is viable. -/
def sqrtExpr {V : Type} [ValType V] (q : Instantiation V) :
    Option (Instantiation (Rooted V) ⊕ Rooted V) :=
  match q with
  | .general a => a.sqrt.map Sum.inl
  | .scalar s =>
    if ValType.floating V then some (Sum.inr (Rooted.sqrt s.toValType)) else none

/-- Expression `std::cbrt(q)` on an object of either class, resolved as `std::sqrt(q)`
is. -/
def cbrtExpr {V : Type} [ValType V] (q : Instantiation V) :
    Option (Instantiation (Rooted V) ⊕ Rooted V) :=
  match q with
  | .general a => a.cbrt.map Sum.inl
  | .scalar s =>
    if ValType.floating V then some (Sum.inr (Rooted.cbrt s.toValType)) else none

/-! ## The quantity types of the tests -/

/-- The dimension pack of a length: `LenDim = std::ratio<1>`, the rest defaulted. -/
def lengthDims : Dims := ⟨ratio1, ratio0, ratio0, ratio0, ratio0, ratio0, ratio0, ratio0⟩

/-- The dimension pack of an area: `LenDim = std::ratio<2>`. -/
def areaDims : Dims :=
  ⟨Ratio.mk 2 1, ratio0, ratio0, ratio0, ratio0, ratio0, ratio0, ratio0⟩

/-- The dimension pack of a time: `TimeDim = std::ratio<1>`. -/
def timeDims : Dims := ⟨ratio0, ratio0, ratio1, ratio0, ratio0, ratio0, ratio0, ratio0⟩

/-- The type `std::centi`, `std::ratio<1, 100>`. -/
def centi : Ratio := Ratio.mk 1 100

/-- Type `Meter` of `basic_test.cpp`: `PhysicalUnit<int, std::ratio<1>, std::ratio<1>>`. -/
def Meter (v : Int) : PhysicalUnit Int := ⟨ratio1, lengthDims, v, by decide⟩

/-- Type `CentiMeter` of `basic_test.cpp`: `PhysicalUnit<int, std::centi, std::ratio<1>>`. -/
def CentiMeter (v : Int) : PhysicalUnit Int := ⟨centi, lengthDims, v, by decide⟩

/-- Type `MeterSquared` of `basic_test.cpp`. -/
def MeterSquared (v : Int) : PhysicalUnit Int := ⟨ratio1, areaDims, v, by decide⟩

/-- Type `Seconds` of `basic_test.cpp`, with raw type `V`. -/
def Seconds {V : Type} (v : V) : PhysicalUnit V := ⟨ratio1, timeDims, v, by decide⟩

/-- The dimension pack of an inverse length: `LenDim = std::ratio<-1>`. -/
def perLengthDims : Dims :=
  ⟨Ratio.mk (-1) 1, ratio0, ratio0, ratio0, ratio0, ratio0, ratio0, ratio0⟩

/-- The dimension pack of a frequency: `TimeDim = std::ratio<-1>`, as in `Herz` of
`basic_test.cpp`. -/
def perTimeDims : Dims :=
  ⟨ratio0, ratio0, Ratio.mk (-1) 1, ratio0, ratio0, ratio0, ratio0, ratio0⟩

/-- Type `Herz` of `basic_test.cpp`, with raw type `V`. -/
def Herz {V : Type} (v : V) : PhysicalUnit V := ⟨ratio1, perTimeDims, v, by decide⟩

/-- A count per centimetre: `PhysicalUnit<int, std::ratio<100>, std::ratio<-1>>`. -/
def PerCentiMeter (v : Int) : PhysicalUnit Int := ⟨Ratio.mk 100 1, perLengthDims, v, by decide⟩

/-- A count per metre: `PhysicalUnit<int, std::ratio<1>, std::ratio<-1>>`. -/
def PerMeter (v : Int) : PhysicalUnit Int := ⟨ratio1, perLengthDims, v, by decide⟩

/-- The dimension pack of a volume: `LenDim = std::ratio<3>`. -/
def volumeDims : Dims :=
  ⟨Ratio.mk 3 1, ratio0, ratio0, ratio0, ratio0, ratio0, ratio0, ratio0⟩

/-- Type `MeterCubed` of `math_test.cpp`. -/
def MeterCubed (v : Int) : PhysicalUnit Int := ⟨ratio1, volumeDims, v, by decide⟩

/-- Type `DeciMeter` of `math_test.cpp`:
`PhysicalUnit<int, std::ratio<1, 10>, std::ratio<1>>`. -/
def DeciMeter (v : Int) : PhysicalUnit Int := ⟨Ratio.mk 1 10, lengthDims, v, by decide⟩

/-- Type `DeciMeterSquared` of `math_test.cpp`. -/
def DeciMeterSquared (v : Int) : PhysicalUnit Int := ⟨Ratio.mk 1 100, areaDims, v, by decide⟩

/-- Type `DeciMeterCubed` of `math_test.cpp`. -/
def DeciMeterCubed (v : Int) : PhysicalUnit Int :=
  ⟨Ratio.mk 1 1000, volumeDims, v, by decide⟩

/-- Type `AngleInMinutes` of `angle_test.cpp`:
`PhysicalUnitAngle<int, std::ratio<1, 60>>`. -/
def AngleInMinutes (v : Int) : PhysicalUnit Int := ⟨Ratio.mk 1 60, angleDims, v, by decide⟩

/-- Type `AngleInSeconds` of `angle_test.cpp`:
`PhysicalUnitAngle<int, std::ratio<1, 3600>>`. -/
def AngleInSeconds (v : Int) : PhysicalUnit Int := ⟨Ratio.mk 1 3600, angleDims, v, by decide⟩

/-- A length in a unit of negative scale:
`PhysicalUnit<int, std::ratio<-10>, std::ratio<1>>`. -/
def NegScaleLength (v : Int) : PhysicalUnit Int :=
  ⟨Ratio.mk (-10) 1, lengthDims, v, by decide⟩

/-- A length in a unit of scale zero: `PhysicalUnit<int, std::ratio<0>, std::ratio<1>>`. -/
def ZeroScaleLength (v : Int) : PhysicalUnit Int := ⟨ratio0, lengthDims, v, by decide⟩

/-- The dimension parameters of a point in time: `TimeDim = std::ratio<1>`. -/
def absTimeDims : AbsDims := ⟨ratio0, ratio0, ratio1, ratio0, ratio0, ratio0, ratio0⟩

/-- The dimension parameters of a temperature: `TempDim = std::ratio<1>`. -/
def absTempDims : AbsDims := ⟨ratio0, ratio0, ratio0, ratio0, ratio1, ratio0, ratio0⟩

/-- The dimension parameters that `AbsolutePhysicalUnit` takes by default: seven
`std::ratio<0>`. -/
def absNoDims : AbsDims := ⟨ratio0, ratio0, ratio0, ratio0, ratio0, ratio0, ratio0⟩

/-- Type `TimeStampSeconds` of `basic_test.cpp` (lines 64-66). -/
def TimeStampSeconds (v : Int) : AbsolutePhysicalUnit Int := ⟨ratio1, ratio0, absTimeDims, v⟩

/-- Type `TimeStampMilliSeconds` of `basic_test.cpp` (lines 67-69); `std::milli` is
`std::ratio<1, 1000>`. -/
def TimeStampMilliSeconds (v : Int) : AbsolutePhysicalUnit Int :=
  ⟨Ratio.mk 1 1000, ratio0, absTimeDims, v⟩

/-- Type `TempKelvin` of `basic_test.cpp` (lines 87-90), over exact rationals. -/
def TempKelvin (v : ℚ) : AbsolutePhysicalUnit ℚ := ⟨ratio1, ratio0, absTempDims, v⟩

/-- Type `TempCelsius` of `basic_test.cpp` (lines 91-93), over exact rationals. -/
def TempCelsius (v : ℚ) : AbsolutePhysicalUnit ℚ :=
  ⟨ratio1, Ratio.mk 27315 100, absTempDims, v⟩

/-- Type `TempFahrenheit` of `basic_test.cpp` (lines 94-96), over exact rationals. -/
def TempFahrenheit (v : ℚ) : AbsolutePhysicalUnit ℚ :=
  ⟨Ratio.mk 5 9, Ratio.mk 229835 900, absTempDims, v⟩

/-- An affine type with every argument but the raw type defaulted:
`AbsolutePhysicalUnit<int>`. -/
def PlainPoint (v : Int) : AbsolutePhysicalUnit Int := ⟨ratio1, ratio0, absNoDims, v⟩

/-- Type `AngleInDegrees` of `angle_test.cpp`: `PhysicalUnitAngle<int, std::ratio<1>>`. -/
def AngleInDegrees (v : Int) : PhysicalUnit Int := ⟨ratio1, angleDims, v, by decide⟩

/-- The angle type `AbsoluteAngle<int>`: degrees, full interval. -/
def degreesFull : AngleType := ⟨ratio1, false, by decide⟩

/-- The angle type `AbsoluteAngle<int, std::ratio<1>, true>`: degrees, half interval. -/
def degreesHalf : AngleType := ⟨ratio1, true, by decide⟩

/-- The angle type `AbsoluteAngle<int, std::ratio<1, 60>>`: arc-minutes, full interval. -/
def minutesFull : AngleType := ⟨Ratio.mk 1 60, false, by decide⟩

/-- The angle type `AbsoluteAngle<int, std::ratio<1, 60>, true>`: arc-minutes, half
interval. -/
def minutesHalf : AngleType := ⟨Ratio.mk 1 60, true, by decide⟩

/-- The angle type `AbsoluteAngle<int, std::ratio<360>, true>`: whole turns, half
interval. -/
def turnsHalf : AngleType := ⟨Ratio.mk 360 1, true, by decide⟩

/-- A time in milliseconds: `PhysicalUnit<int, std::milli, std::ratio<0>, std::ratio<0>,
std::ratio<1>>`. -/
def MilliSeconds (v : Int) : PhysicalUnit Int := ⟨Ratio.mk 1 1000, timeDims, v, by decide⟩

/-- A quantity of length 1 and mass 1:
`PhysicalUnit<int, std::ratio<1>, std::ratio<1>, std::ratio<1>>`. -/
def MeterKilogram (v : Int) : PhysicalUnit Int :=
  ⟨ratio1, ⟨ratio1, ratio1, ratio0, ratio0, ratio0, ratio0, ratio0, ratio0⟩, v, by decide⟩

/-! ## Formatting -/

/-- The array `si_unit_names` (`phys_string.hpp`, lines 26-27). -/
def si_unit_names : List String := ["m", "kg", "s", "A", "K", "mol", "cd", "deg"]

/-- Function template `unit_prefix<Factor>()` (lines 29-68): the explicit specializations
for `std::atto` ... `std::exa`, which are selected by the type as written, and the primary
template. -/
def unit_prefix (Factor : Ratio) : String :=
  if Factor = Ratio.mk 1 1000000000000000000 then "a"
  else if Factor = Ratio.mk 1 1000000000000000 then "f"
  else if Factor = Ratio.mk 1 1000000000000 then "p"
  else if Factor = Ratio.mk 1 1000000000 then "n"
  else if Factor = Ratio.mk 1 1000000 then "u"
  else if Factor = Ratio.mk 1 1000 then "m"
  else if Factor = Ratio.mk 1 100 then "c"
  else if Factor = Ratio.mk 1 10 then "d"
  else if Factor = Ratio.mk 10 1 then "da"
  else if Factor = Ratio.mk 100 1 then "h"
  else if Factor = Ratio.mk 1000 1 then "k"
  else if Factor = Ratio.mk 1000000 1 then "M"
  else if Factor = Ratio.mk 1000000000 1 then "G"
  else if Factor = Ratio.mk 1000000000000 1 then "T"
  else if Factor = Ratio.mk 1000000000000000 1 then "P"
  else if Factor = Ratio.mk 1000000000000000000 1 then "E"
  else if Factor.num = 1 ∧ Factor.den = 1 then ""
  else toString Factor.num ++ "/" ++ toString Factor.den

/-- The template argument list of the explicit specialization of `dim_to_string`
(lines 88-95, "Volts"), after the index 0. -/
def voltDims : List Ratio :=
  [Ratio.mk 2 1, Ratio.mk 1 1, Ratio.mk (-3) 1, Ratio.mk (-1) 1, ratio0, ratio0, ratio0,
    ratio0]

/-- Function templates `dim_to_string<Index>(bool)` and
`dim_to_string<Index, Dim, Dims...>(bool tail)` (lines 70-86), with the explicit
specialization of lines 88-95. The assignment `tail = true` of line 82 is inside the block
of `if (Dim::num != 1 || Dim::den != 1)`. In line 81 `"/" + Dim::den` adds an integer to
the pointer to a string literal of two characters; for `Dim::den >= 2` the pointer is past
the literal and there is no defined result, which is `none`. -/
def dim_to_string (Index : Nat) (tail : Bool) (pack : List Ratio) : Option String :=
  if Index = 0 ∧ pack = voltDims then some "V"
  else
    match pack with
    | [] => some ""
    | Dim :: Dims =>
      if Dim.num = 0 then
        (dim_to_string (Index + 1) tail Dims).map (fun rest => "" ++ rest)
      else
        if Dim.num ≠ 1 ∨ Dim.den ≠ 1 then
          if Dim.den = 1 then
            (dim_to_string (Index + 1) true Dims).map (fun rest =>
              ((if tail then " " else "") ++ si_unit_names.getD Index "" ++
                ("^" ++ toString Dim.num ++ "")) ++ rest)
          else none
        else
          (dim_to_string (Index + 1) tail Dims).map (fun rest =>
            ((if tail then " " else "") ++ si_unit_names.getD Index "") ++ rest)

/-- The pack `Dims...` of a `PhysicalUnit` type as a list. -/
def Dims.toList (d : Dims) : List Ratio :=
  [d.LenDim, d.MassDim, d.TimeDim, d.ElcurDim, d.TempDim, d.AmmDim, d.LumDim, d.AngleDim]

/-- The pack `Dims...` of an `AbsolutePhysicalUnit` type as a list. -/
def AbsDims.toList (d : AbsDims) : List Ratio :=
  [d.LenDim, d.MassDim, d.TimeDim, d.ElcurDim, d.TempDim, d.AmmDim, d.LumDim]

/-- Function `std::to_string(const units::PhysicalUnit<V, Factor, Dims...> &)`
(lines 99-103), for the raw type `int`. -/
def PhysicalUnit.to_string (val : PhysicalUnit Int) : Option String :=
  (dim_to_string 0 false val.dims.toList).map (fun suffix =>
    toString val.value ++ unit_prefix val.Factor ++ suffix)

/-- Function `std::to_string(const units::AbsolutePhysicalUnit<V, DV, Offset, Factor,
Dims...> &)` (lines 105-111), for the raw type `int`. The parameters of this template are
deduced by position from `AbsolutePhysicalUnit<ValType, Factor, DiffType, Offset,
LenDim, ...>` (`phys_units.hpp`, lines 233-239): the parameter that the template calls
`Factor`, the fourth, is the offset of the class, and `unit_prefix<Factor>()` is called
with it. -/
def AbsolutePhysicalUnit.to_string (val : AbsolutePhysicalUnit Int) : Option String :=
  (dim_to_string 0 false val.dims.toList).map (fun suffix =>
    toString val.value ++ unit_prefix val.Offset ++ suffix)

/-! ## The duration bridge -/

/-- Modelled from the spec: the external duration `std::chrono::duration<Rep, Period>`, a
count and a period (section "Duration Bridge"); the class itself is part of `<chrono>`. -/
structure duration (Rep : Type) where
  Period : Ratio
  count : Rep
deriving DecidableEq

/-- Function `std::chrono::duration_cast(const units::PhysicalUnit<Rep, Period,
std::ratio<0>, std::ratio<0>, std::ratio<1>> &)` (`phys_chrono.hpp`, lines 29-34): the
parameter type is deduced only from a quantity with exactly this pack. -/
def duration_cast {Rep : Type} (val : PhysicalUnit Rep) : Option (duration Rep) :=
  if val.dims = timeDims then some ⟨val.Factor, val.value⟩ else none

/-- Function `units::unit_cast(const std::chrono::duration<V, F> &)` (lines 39-44). -/
def duration.unit_cast {V : Type} (val : duration V) : PhysicalUnit V :=
  ⟨val.Period, timeDims, val.count, by decide⟩

/-! ## Facts about `std::ratio` -/

namespace Ratio

theorem num_mul_D (r : Ratio) : r.num * r.D = r.N * r.den := by
  unfold num den
  obtain ⟨n, hn⟩ := Nat.gcd_dvd_left r.N.natAbs r.D.natAbs
  obtain ⟨d, hd⟩ := Nat.gcd_dvd_right r.N.natAbs r.D.natAbs
  have hD0 : 0 < r.D.natAbs := Int.natAbs_pos.mpr r.nonzero
  have hg : 0 < Nat.gcd r.N.natAbs r.D.natAbs := Nat.gcd_pos_of_pos_right _ hD0
  have h1 : r.N.natAbs / Nat.gcd r.N.natAbs r.D.natAbs = n :=
    Nat.div_eq_of_eq_mul_right hg hn
  have h2 : r.D.natAbs / Nat.gcd r.N.natAbs r.D.natAbs = d :=
    Nat.div_eq_of_eq_mul_right hg hd
  rw [h1, h2]
  have hN : r.N = Int.sign r.N * ((Nat.gcd r.N.natAbs r.D.natAbs * n : Nat) : Int) := by
    rw [← hn]; exact (Int.sign_mul_natAbs _).symm
  have hD : r.D = Int.sign r.D * ((Nat.gcd r.N.natAbs r.D.natAbs * d : Nat) : Int) := by
    rw [← hd]; exact (Int.sign_mul_natAbs _).symm
  have hs : Int.sign r.D * Int.sign r.D = 1 := by
    rcases lt_trichotomy r.D 0 with h | h | h
    · rw [Int.sign_eq_neg_one_of_neg h]; rfl
    · exact absurd h r.nonzero
    · rw [Int.sign_eq_one_of_pos h]; rfl
  generalize Int.sign r.N = sN at *
  generalize Int.sign r.D = sD at *
  generalize Nat.gcd r.N.natAbs r.D.natAbs = g at *
  rw [hD, hN]
  push_cast
  linear_combination (sN * (n : Int) * (g : Int) * (d : Int)) * hs

theorem natAbs_num (r : Ratio) :
    r.num.natAbs = r.N.natAbs / Nat.gcd r.N.natAbs r.D.natAbs := by
  unfold num
  rcases eq_or_ne r.N 0 with h | h
  · simp [h]
  · have hD := r.nonzero
    rw [Int.natAbs_mul, Int.natAbs_mul, Int.natAbs_sign_of_nonzero h,
      Int.natAbs_sign_of_nonzero hD, Int.natAbs_ofNat]
    simp

theorem natAbs_den (r : Ratio) :
    r.den.natAbs = r.D.natAbs / Nat.gcd r.N.natAbs r.D.natAbs := by
  unfold den
  exact Int.natAbs_ofNat _

/-- The members `num` and `den` have no common factor. -/
theorem coprime (r : Ratio) : Nat.Coprime r.num.natAbs r.den.natAbs := by
  rw [natAbs_num, natAbs_den]
  have hD0 : 0 < r.D.natAbs := Int.natAbs_pos.mpr r.nonzero
  exact Nat.coprime_div_gcd_div_gcd (Nat.gcd_pos_of_pos_right _ hD0)

/-- The members `num` and `den` denote the same rational as the template arguments. -/
theorem num_div_den (r : Ratio) : (r.num : ℚ) / (r.den : ℚ) = r.toRat := by
  unfold toRat
  have hd : (r.den : ℚ) ≠ 0 := by exact_mod_cast ne_of_gt r.den_pos
  have hD : (r.D : ℚ) ≠ 0 := by exact_mod_cast r.nonzero
  rw [div_eq_div_iff hd hD]
  exact_mod_cast r.num_mul_D

theorem num_eq (r : Ratio) : r.num = r.toRat.num := by
  rw [← num_div_den]
  exact (Rat.num_div_eq_of_coprime r.den_pos r.coprime).symm

theorem den_eq (r : Ratio) : r.den = (r.toRat.den : Int) := by
  rw [← num_div_den]
  exact (Rat.den_div_eq_of_coprime r.den_pos r.coprime).symm

theorem toRat_type (r : Ratio) : r.type.toRat = r.toRat := by
  rw [← num_div_den r]
  rfl

theorem ext_ND {a b : Ratio} (hN : a.N = b.N) (hD : a.D = b.D) : a = b := by
  cases a; cases b; simp only at hN hD; subst hN; subst hD; rfl

/-- Two reduced ratio types that denote the same rational are the same type. -/
theorem type_eq_of_toRat_eq {a b : Ratio} (h : a.toRat = b.toRat) : a.type = b.type := by
  apply ext_ND
  · show a.num = b.num
    rw [num_eq, num_eq, h]
  · show a.den = b.den
    rw [den_eq, den_eq, h]

theorem num_eq_zero_iff (r : Ratio) : r.num = 0 ↔ r.toRat = 0 := by
  rw [num_eq]; exact Rat.num_eq_zero

end Ratio

theorem toRat_ratio_add (a b : Ratio) : (ratio_add a b).toRat = a.toRat + b.toRat := by
  unfold ratio_add
  rw [Ratio.toRat_type, ← a.num_div_den, ← b.num_div_den]
  have ha : (a.den : ℚ) ≠ 0 := by exact_mod_cast ne_of_gt a.den_pos
  have hb : (b.den : ℚ) ≠ 0 := by exact_mod_cast ne_of_gt b.den_pos
  simp only [Ratio.toRat]
  push_cast
  field_simp

theorem toRat_ratio_subtract (a b : Ratio) :
    (ratio_subtract a b).toRat = a.toRat - b.toRat := by
  unfold ratio_subtract
  rw [Ratio.toRat_type, ← a.num_div_den, ← b.num_div_den]
  have ha : (a.den : ℚ) ≠ 0 := by exact_mod_cast ne_of_gt a.den_pos
  have hb : (b.den : ℚ) ≠ 0 := by exact_mod_cast ne_of_gt b.den_pos
  simp only [Ratio.toRat]
  push_cast
  field_simp
  ring

theorem toRat_ratio_multiply (a b : Ratio) :
    (ratio_multiply a b).toRat = a.toRat * b.toRat := by
  unfold ratio_multiply
  rw [Ratio.toRat_type, ← a.num_div_den, ← b.num_div_den]
  have ha : (a.den : ℚ) ≠ 0 := by exact_mod_cast ne_of_gt a.den_pos
  have hb : (b.den : ℚ) ≠ 0 := by exact_mod_cast ne_of_gt b.den_pos
  simp only [Ratio.toRat]
  push_cast
  field_simp

/-- The alias `ratio_divide` is well-formed exactly for a non-zero divisor, and then it
denotes the quotient. -/
theorem ratio_divide_eq_some (a b : Ratio) (hb : b.num ≠ 0) :
    ∃ q, ratio_divide a b = some q ∧ q.toRat = a.toRat / b.toRat ∧ q.type = q := by
  unfold ratio_divide
  rw [dif_neg hb]
  refine ⟨_, rfl, ?_, ?_⟩
  · rw [Ratio.toRat_type, ← a.num_div_den, ← b.num_div_den]
    have ha : (a.den : ℚ) ≠ 0 := by exact_mod_cast ne_of_gt a.den_pos
    have hb1 : (b.den : ℚ) ≠ 0 := by exact_mod_cast ne_of_gt b.den_pos
    have hb2 : (b.num : ℚ) ≠ 0 := by exact_mod_cast hb
    simp only [Ratio.toRat]
    push_cast
    field_simp
  · apply Ratio.type_eq_of_toRat_eq
    rw [Ratio.toRat_type]

/-! ## Facts about truncating division -/

/-- The quotient of `Int.tdiv` by a positive divisor is the one rounded toward zero: its
multiple is no larger in magnitude than the dividend and misses it by less than the
divisor. -/
theorem tdiv_toward_zero (x d : Int) (hd : 0 < d) :
    |Int.tdiv x d * d| ≤ |x| ∧ |x - Int.tdiv x d * d| < d := by
  have key : ∀ y : Int, 0 ≤ y →
      0 ≤ Int.tdiv y d * d ∧ Int.tdiv y d * d ≤ y ∧ y < Int.tdiv y d * d + d := by
    intro y hy
    rw [Int.tdiv_eq_ediv hy (le_of_lt hd)]
    refine ⟨mul_nonneg (Int.ediv_nonneg hy (le_of_lt hd)) (le_of_lt hd),
      Int.ediv_mul_le y (ne_of_gt hd), ?_⟩
    have := Int.lt_ediv_add_one_mul_self y hd
    linarith
  rcases le_or_lt 0 x with hx | hx
  · obtain ⟨h1, h2, h3⟩ := key x hx
    generalize Int.tdiv x d * d = t at *
    rw [abs_le, abs_lt, abs_of_nonneg hx]
    omega
  · obtain ⟨h1, h2, h3⟩ := key (-x) (by omega)
    have hq : Int.tdiv x d * d = -(Int.tdiv (-x) d * d) := by
      rw [Int.neg_tdiv]; ring
    rw [hq]
    generalize Int.tdiv (-x) d * d = t at *
    rw [abs_le, abs_lt, abs_of_neg hx]
    omega

/-! ## The converting constructor -/

/-- The ratio `F / F` is `1 / 1`. -/
theorem ratio_divide_self (F : Ratio) (hF : F.num ≠ 0) :
    ∃ q, ratio_divide F F = some q ∧ q.num = 1 ∧ q.den = 1 := by
  obtain ⟨q, hq, hrat, -⟩ := ratio_divide_eq_some F F hF
  have hF0 : F.toRat ≠ 0 := fun h => hF ((Ratio.num_eq_zero_iff F).mpr h)
  have h1 : q.toRat = 1 := by rw [hrat, div_self hF0]
  refine ⟨q, hq, ?_, ?_⟩
  · rw [Ratio.num_eq, h1]; rfl
  · rw [Ratio.den_eq, h1]; rfl

/-- C1. For an integer quantity `val` of scale `F` and a non-zero target scale `G` of the
same dimension pack, the converting constructor, and `unit_cast` with it, stores
`(val.raw * n) / d`, where `n / d` is `F / G` in lowest terms with `d > 0`; the product is
formed first and the quotient is the one rounded toward zero, for either sign. -/
theorem convert_raw (val : PhysicalUnit Int) (G : Ratio) (hG : G.num ≠ 0) :
    ∃ n d : Int, 0 < d ∧ Int.gcd n d = 1 ∧
      (n : ℚ) / (d : ℚ) = val.Factor.toRat / G.toRat ∧
      PhysicalUnit.convert G val =
        some ⟨G, val.dims, Int.tdiv (val.m_value * n) d, val.general⟩ ∧
      unit_cast G val.dims val =
        some ⟨G, val.dims, Int.tdiv (val.m_value * n) d, val.general⟩ ∧
      |Int.tdiv (val.m_value * n) d * d| ≤ |val.m_value * n| ∧
      |val.m_value * n - Int.tdiv (val.m_value * n) d * d| < d := by
  obtain ⟨q, hq, hrat, -⟩ := ratio_divide_eq_some val.Factor G hG
  have hconv : PhysicalUnit.convert G val =
      some ⟨G, val.dims, Int.tdiv (val.m_value * q.num) q.den, val.general⟩ := by
    unfold PhysicalUnit.convert
    rw [hq]
    rfl
  refine ⟨q.num, q.den, q.den_pos, q.coprime, ?_, hconv, ?_,
    tdiv_toward_zero _ _ q.den_pos⟩
  · rw [Ratio.num_div_den, hrat]
  · unfold unit_cast
    rw [if_pos rfl]
    split_ifs with hsame
    · -- the copy constructor: source and target are one type, and `F / F` is `1 / 1`
      obtain ⟨q1, hq1, hn, hd⟩ := ratio_divide_self G hG
      rw [← hsame, hq1] at hq
      cases hq
      rw [hn, hd]
      cases val with
      | mk F ds v g =>
        simp only at hsame
        subst hsame
        simp
    · exact hconv

/-- C1, at the inputs of the tests: 4 m is 400 cm, 1300 cm is 13 m and -1350 cm is
-13 m. -/
theorem convert_raw_witness :
    centi.num ≠ 0 ∧
    (∃ n d : Int, 0 < d ∧ Int.gcd n d = 1 ∧
      (n : ℚ) / (d : ℚ) = (Meter 4).Factor.toRat / centi.toRat ∧
      PhysicalUnit.convert centi (Meter 4) =
        some ⟨centi, (Meter 4).dims, Int.tdiv ((Meter 4).m_value * n) d, (Meter 4).general⟩ ∧
      unit_cast centi (Meter 4).dims (Meter 4) =
        some ⟨centi, (Meter 4).dims, Int.tdiv ((Meter 4).m_value * n) d, (Meter 4).general⟩ ∧
      |Int.tdiv ((Meter 4).m_value * n) d * d| ≤ |(Meter 4).m_value * n| ∧
      |(Meter 4).m_value * n - Int.tdiv ((Meter 4).m_value * n) d * d| < d) ∧
    PhysicalUnit.convert centi (Meter 4) = some (CentiMeter 400) ∧
    unit_cast ratio1 lengthDims (CentiMeter 1300) = some (Meter 13) ∧
    unit_cast ratio1 lengthDims (CentiMeter (-1350)) = some (Meter (-13)) :=
  ⟨by decide, convert_raw (Meter 4) centi (by decide), by decide, by decide, by decide⟩

/-! ## Multiplication and division of quantities -/

theorem construct_Factor {V : Type} (F : Ratio) (d : Dims) (v : V) :
    (construct F d v).Factor = F := by
  unfold construct; split_ifs <;> rfl

theorem construct_dims {V : Type} (F : Ratio) (d : Dims) (v : V) :
    (construct F d v).dims = d := by
  unfold construct
  split_ifs with h
  · exact h.symm
  · rfl

theorem construct_m_value {V : Type} (F : Ratio) (d : Dims) (v : V) :
    (construct F d v).m_value = v := by
  unfold construct; split_ifs <;> rfl

theorem get_zipWith (f : Ratio → Ratio → Ratio) (a b : Dims) (i : Fin 8) :
    (Dims.zipWith f a b).get i = f (a.get i) (b.get i) := by
  fin_cases i <;> rfl

theorem get_map (f : Ratio → Ratio) (a : Dims) (i : Fin 8) :
    (Dims.map f a).get i = f (a.get i) := by
  fin_cases i <;> rfl

/-- C2. The product of two quantities has the scale `ratio_multiply<F1, F2>`, which denotes
`F1 * F2`, in each of the eight positions the exponent `ratio_add<D1, D2>`, which denotes
the sum, and the product of the raw values; `Meter(3) * Meter(6)` is `MeterSquared(18)`. -/
theorem operator_mul_spec {V : Type} [ValType V] (a b : PhysicalUnit V) :
    (operator_mul a b).Factor = ratio_multiply a.Factor b.Factor ∧
    (operator_mul a b).Factor.toRat = a.Factor.toRat * b.Factor.toRat ∧
    (∀ i : Fin 8, (operator_mul a b).dims.get i = ratio_add (a.dims.get i) (b.dims.get i) ∧
      ((operator_mul a b).dims.get i).toRat = (a.dims.get i).toRat + (b.dims.get i).toRat) ∧
    (operator_mul a b).m_value = ValType.mul a.m_value b.m_value ∧
    (∀ x y : Int, (ValType.mul x y : Int) = x * y) ∧
    operator_mul (Meter 3) (Meter 6) = Instantiation.general (MeterSquared 18) := by
  refine ⟨construct_Factor _ _ _, ?_, ?_, construct_m_value _ _ _, fun _ _ => rfl, by decide⟩
  · unfold operator_mul
    rw [construct_Factor, toRat_ratio_multiply]
  · intro i
    unfold operator_mul
    rw [construct_dims, get_zipWith, toRat_ratio_add]
    exact ⟨rfl, rfl⟩

/-- The quotient of `Int.tdiv` by a non-zero divisor of either sign is rounded toward
zero. -/
theorem tdiv_toward_zero_abs (x d : Int) (hd : d ≠ 0) :
    |Int.tdiv x d * d| ≤ |x| ∧ |x - Int.tdiv x d * d| < |d| := by
  rcases lt_or_gt_of_ne hd with h | h
  · have h1 := tdiv_toward_zero x (-d) (by omega)
    have e : Int.tdiv x (-d) * (-d) = Int.tdiv x d * d := by
      rw [Int.tdiv_neg]; ring
    rw [e] at h1
    rw [abs_of_neg h]
    exact h1
  · rw [abs_of_pos h]
    exact tdiv_toward_zero x d h

/-- The division operator on a divisor of non-zero scale, unfolded. -/
theorem operator_div_eq {V : Type} [ValType V] (a b : PhysicalUnit V)
    (hb : b.Factor.num ≠ 0) :
    ∃ F, ratio_divide a.Factor b.Factor = some F ∧
      F.toRat = a.Factor.toRat / b.Factor.toRat ∧
      operator_div a b = some (construct F (Dims.zipWith ratio_subtract a.dims b.dims)
        (ValType.div a.m_value b.m_value)) := by
  obtain ⟨F, hF, hrat, -⟩ := ratio_divide_eq_some a.Factor b.Factor hb
  refine ⟨F, hF, hrat, ?_⟩
  unfold operator_div
  rw [hF]
  rfl

/-- C3. For a divisor of non-zero scale, the quotient of two quantities has the scale
`ratio_divide<F1, F2>`, which denotes `F1 / F2`, in each of the eight positions the
exponent `ratio_subtract<D1, D2>`, which denotes the difference, and the quotient of the
raw values in the arithmetic of the raw type, which on integers rounds toward zero. -/
theorem operator_div_spec {V : Type} [ValType V] (a b : PhysicalUnit V)
    (hb : b.Factor.num ≠ 0) :
    (∃ r F, operator_div a b = some r ∧ ratio_divide a.Factor b.Factor = some F ∧
      r.Factor = F ∧ r.Factor.toRat = a.Factor.toRat / b.Factor.toRat ∧
      (∀ i : Fin 8, r.dims.get i = ratio_subtract (a.dims.get i) (b.dims.get i) ∧
        (r.dims.get i).toRat = (a.dims.get i).toRat - (b.dims.get i).toRat) ∧
      r.m_value = ValType.div a.m_value b.m_value) ∧
    (∀ x y : Int, (ValType.div x y : Int) = Int.tdiv x y ∧
      (y ≠ 0 → |Int.tdiv x y * y| ≤ |x| ∧ |x - Int.tdiv x y * y| < |y|)) := by
  refine ⟨?_, fun x y => ⟨rfl, tdiv_toward_zero_abs x y⟩⟩
  obtain ⟨F, hF, hrat, hdiv⟩ := operator_div_eq a b hb
  refine ⟨_, F, hdiv, hF, construct_Factor _ _ _, ?_, ?_, construct_m_value _ _ _⟩
  · rw [construct_Factor, hrat]
  · intro i
    rw [construct_dims, get_zipWith, toRat_ratio_subtract]
    exact ⟨rfl, rfl⟩

/-- C3, at `MeterSquared(18) / Meter(3)` and at `Meter(-7) / Meter(2)`, whose raw value
is -3. -/
theorem operator_div_spec_witness :
    (Meter 3).Factor.num ≠ 0 ∧
    ((∃ r F, operator_div (MeterSquared 18) (Meter 3) = some r ∧
      ratio_divide (MeterSquared 18).Factor (Meter 3).Factor = some F ∧
      r.Factor = F ∧
      r.Factor.toRat = (MeterSquared 18).Factor.toRat / (Meter 3).Factor.toRat ∧
      (∀ i : Fin 8,
        r.dims.get i = ratio_subtract ((MeterSquared 18).dims.get i) ((Meter 3).dims.get i) ∧
        (r.dims.get i).toRat =
          ((MeterSquared 18).dims.get i).toRat - ((Meter 3).dims.get i).toRat) ∧
      r.m_value = ValType.div (MeterSquared 18).m_value (Meter 3).m_value) ∧
    (∀ x y : Int, (ValType.div x y : Int) = Int.tdiv x y ∧
      (y ≠ 0 → |Int.tdiv x y * y| ≤ |x| ∧ |x - Int.tdiv x y * y| < |y|))) ∧
    operator_div (MeterSquared 18) (Meter 3) = some (Instantiation.general (Meter 6)) ∧
    (operator_div (Meter (-7)) (Meter 2)).map Instantiation.m_value = some (-3) :=
  ⟨by decide, operator_div_spec (MeterSquared 18) (Meter 3) (by decide), by decide,
    by decide⟩

/-! ## Addition and subtraction -/

/-- C4. For integer quantities `a` and `b` of one scale and one dimension pack, `a + b`,
`(a + b) - b` and `b + a` are quantities of that same type, `(a + b) - b == a` and
`a + b == b + a` hold, and the raw values are equal. -/
theorem plus_minus_cancel (a b : PhysicalUnit Int) (hF : a.Factor = b.Factor)
    (hd : a.dims = b.dims) :
    ∃ s d t, operator_plus a b = some s ∧ operator_minus s b = some d ∧
      operator_plus b a = some t ∧
      operator_eq d a = some true ∧ operator_eq s t = some true ∧
      d.m_value = a.m_value ∧ s.m_value = t.m_value ∧
      s.m_value = a.m_value + b.m_value ∧ d.m_value = s.m_value - b.m_value ∧
      s.Factor = a.Factor ∧ s.dims = a.dims ∧ d.Factor = a.Factor ∧ d.dims = a.dims ∧
      t.Factor = a.Factor ∧ t.dims = a.dims := by
  refine ⟨⟨a.Factor, a.dims, a.m_value + b.m_value, a.general⟩,
    ⟨a.Factor, a.dims, a.m_value + b.m_value - b.m_value, a.general⟩,
    ⟨b.Factor, b.dims, b.m_value + a.m_value, b.general⟩, ?_, ?_, ?_, ?_, ?_, ?_, ?_,
    rfl, rfl, rfl, rfl, rfl, rfl, hF.symm, hd.symm⟩
  · unfold operator_plus
    rw [if_pos ⟨hF, hd⟩]
    rfl
  · unfold operator_minus
    rw [if_pos ⟨hF, hd⟩]
    rfl
  · unfold operator_plus
    rw [if_pos ⟨hF.symm, hd.symm⟩]
    rfl
  · unfold operator_eq compareWith
    rw [if_pos ⟨rfl, rfl⟩]
    simp [PhysicalUnit.value, ValType.eq]
  · unfold operator_eq compareWith
    rw [if_pos ⟨hF, hd⟩]
    simp [PhysicalUnit.value, ValType.eq, add_comm]
  · simp
  · exact add_comm _ _

/-- C4, at `Meter(3)` and `Meter(7)`, whose sum is `Meter(10)`. -/
theorem plus_minus_cancel_witness :
    (Meter 3).Factor = (Meter 7).Factor ∧ (Meter 3).dims = (Meter 7).dims ∧
    (∃ s d t, operator_plus (Meter 3) (Meter 7) = some s ∧
      operator_minus s (Meter 7) = some d ∧
      operator_plus (Meter 7) (Meter 3) = some t ∧
      operator_eq d (Meter 3) = some true ∧ operator_eq s t = some true ∧
      d.m_value = (Meter 3).m_value ∧ s.m_value = t.m_value ∧
      s.m_value = (Meter 3).m_value + (Meter 7).m_value ∧
      d.m_value = s.m_value - (Meter 7).m_value ∧
      s.Factor = (Meter 3).Factor ∧ s.dims = (Meter 3).dims ∧
      d.Factor = (Meter 3).Factor ∧ d.dims = (Meter 3).dims ∧
      t.Factor = (Meter 3).Factor ∧ t.dims = (Meter 3).dims) ∧
    operator_plus (Meter 3) (Meter 7) = some (Meter 10) ∧
    operator_minus (Meter 3) (Meter 7) = some (Meter (-4)) :=
  ⟨by decide, by decide, plus_minus_cancel (Meter 3) (Meter 7) (by decide) (by decide),
    by decide, by decide⟩

/-! ## Multiplying and dividing back -/

theorem toRat_ratio0 : ratio0.toRat = 0 := by
  simp [ratio0, Ratio.toRat]

theorem toRat_ratio1 : ratio1.toRat = 1 := by
  simp [ratio1, Ratio.toRat]

/-- The division of a bare number by a quantity of non-zero scale, unfolded. -/
theorem operator_div_number_eq {V : Type} [ValType V] (k : V) (b : PhysicalUnit V)
    (hb : b.Factor.num ≠ 0) :
    ∃ F, ratio_divide ratio1 b.Factor = some F ∧ F.toRat = 1 / b.Factor.toRat ∧
      operator_div_number k b = some (construct F (Dims.map (ratio_subtract ratio0) b.dims)
        (ValType.div k b.m_value)) := by
  obtain ⟨F, hF, hrat, -⟩ := ratio_divide_eq_some ratio1 b.Factor hb
  refine ⟨F, hF, by rw [hrat, toRat_ratio1], ?_⟩
  unfold operator_div_number
  rw [hF]
  rfl

/-- A reduced ratio that denotes one has the members `num = 1` and `den = 1`. -/
theorem num_den_of_toRat_one (r : Ratio) (h : r.toRat = 1) : r.num = 1 ∧ r.den = 1 := by
  constructor
  · rw [Ratio.num_eq, h]; rfl
  · rw [Ratio.den_eq, h]; rfl

/-- C5, as amended. For integer quantities `a` and `b` with `a.raw != 0` and a non-zero
scale of `a`, whose product is not a dimensionless quantity of a scale other than 1,
`(a * b) / a` has the exponents of `b`, the scale of `b` (as rationals) and the raw value
of `b`. -/
theorem mul_div_cancel (a b : PhysicalUnit Int) (ha : a.m_value ≠ 0)
    (hF : a.Factor.num ≠ 0)
    (hprod : Dims.zipWith ratio_add a.dims b.dims ≠ Dims.zero ∨
      a.Factor.toRat * b.Factor.toRat = 1) :
    ∃ r, divExpr (operator_mul a b) a = some r ∧
      (∀ i : Fin 8, (r.dims.get i).toRat = (b.dims.get i).toRat) ∧
      r.Factor.toRat = b.Factor.toRat ∧ r.m_value = b.m_value := by
  have hF0 : a.Factor.toRat ≠ 0 := fun h => hF ((Ratio.num_eq_zero_iff _).mpr h)
  have hraw : Int.tdiv (a.m_value * b.m_value) a.m_value = b.m_value :=
    Int.mul_tdiv_cancel_left _ ha
  by_cases h : Dims.zipWith ratio_add a.dims b.dims = Dims.zero
  · -- the product is an object of the specialization, of scale 1
    have hone : a.Factor.toRat * b.Factor.toRat = 1 := hprod.resolve_left (not_not.mpr h)
    have hm : operator_mul a b = Instantiation.scalar
        ⟨ratio_multiply a.Factor b.Factor, a.m_value * b.m_value⟩ := by
      unfold operator_mul construct
      rw [dif_pos h]
      rfl
    obtain ⟨hn, hd⟩ := num_den_of_toRat_one (ratio_multiply a.Factor b.Factor)
      (by rw [toRat_ratio_multiply, hone])
    have hv : Dimensionless.toValType
        (⟨ratio_multiply a.Factor b.Factor, a.m_value * b.m_value⟩ : Dimensionless Int) =
        a.m_value * b.m_value := by
      show Int.tdiv (a.m_value * b.m_value * (ratio_multiply a.Factor b.Factor).num)
        (ratio_multiply a.Factor b.Factor).den = _
      rw [hn, hd]
      simp
    obtain ⟨F, -, hrat, hdiv⟩ := operator_div_number_eq (a.m_value * b.m_value) a hF
    refine ⟨construct F (Dims.map (ratio_subtract ratio0) a.dims)
      (ValType.div (a.m_value * b.m_value) a.m_value), ?_, ?_, ?_, ?_⟩
    · rw [hm]
      show operator_div_number _ a = _
      rw [hv]
      exact hdiv
    · intro i
      rw [construct_dims, get_map, toRat_ratio_subtract, toRat_ratio0]
      have hi : (Dims.zipWith ratio_add a.dims b.dims).get i = Dims.zero.get i := by rw [h]
      rw [get_zipWith] at hi
      have hz : (Dims.zero.get i).toRat = 0 := by
        fin_cases i <;> exact toRat_ratio0
      have := congrArg Ratio.toRat hi
      rw [toRat_ratio_add, hz] at this
      linarith
    · rw [construct_Factor, hrat]
      field_simp
      linarith
    · rw [construct_m_value]
      exact hraw
  · -- the product is a quantity of the primary template
    have hm : operator_mul a b = Instantiation.general
        ⟨ratio_multiply a.Factor b.Factor, Dims.zipWith ratio_add a.dims b.dims,
          a.m_value * b.m_value, h⟩ := by
      unfold operator_mul construct
      rw [dif_neg h]
      rfl
    obtain ⟨F, -, hrat, hdiv⟩ := operator_div_eq
      (⟨ratio_multiply a.Factor b.Factor, Dims.zipWith ratio_add a.dims b.dims,
        a.m_value * b.m_value, h⟩ : PhysicalUnit Int) a hF
    refine ⟨construct F
      (Dims.zipWith ratio_subtract (Dims.zipWith ratio_add a.dims b.dims) a.dims)
      (ValType.div (a.m_value * b.m_value) a.m_value), ?_, ?_, ?_, ?_⟩
    · rw [hm]
      exact hdiv
    · intro i
      rw [construct_dims, get_zipWith, toRat_ratio_subtract, get_zipWith, toRat_ratio_add]
      ring
    · rw [construct_Factor, hrat]
      show (ratio_multiply a.Factor b.Factor).toRat / a.Factor.toRat = _
      rw [toRat_ratio_multiply]
      field_simp
    · rw [construct_m_value]
      exact hraw

/-- C5 as amended, at `MeterSquared(18) / Meter(3) == Meter(6)` of the tests. -/
theorem mul_div_cancel_witness :
    (Meter 3).m_value ≠ 0 ∧ (Meter 3).Factor.num ≠ 0 ∧
    (Dims.zipWith ratio_add (Meter 3).dims (Meter 6).dims ≠ Dims.zero ∨
      (Meter 3).Factor.toRat * (Meter 6).Factor.toRat = 1) ∧
    (∃ r, divExpr (operator_mul (Meter 3) (Meter 6)) (Meter 3) = some r ∧
      (∀ i : Fin 8, (r.dims.get i).toRat = ((Meter 6).dims.get i).toRat) ∧
      r.Factor.toRat = (Meter 6).Factor.toRat ∧ r.m_value = (Meter 6).m_value) ∧
    divExpr (operator_mul (Meter 3) (Meter 6)) (Meter 3) =
      some (Instantiation.general (Meter 6)) :=
  ⟨by decide, by decide, Or.inl (by decide),
    mul_div_cancel (Meter 3) (Meter 6) (by decide) (by decide) (Or.inl (by decide)),
    by decide⟩

/-- C5 as stated fails at `a = Meter(3)` and `b` two per centimetre (scale 100, length
exponent -1): `a * b` is an object of the dimensionless specialization of scale 100 with
raw value 6, which has no `value()`, so the division is the one of a bare number by a
quantity, on the converted value 600, and yields scale 1 and raw value 200 where `b` has
scale 100 and raw value 2. -/
theorem mul_div_cancel_counterexample :
    (Meter 3).m_value ≠ 0 ∧ (Meter 3).Factor.num ≠ 0 ∧
    operator_mul (Meter 3) (PerCentiMeter 2) =
      Instantiation.scalar ⟨Ratio.mk 100 1, 6⟩ ∧
    divExpr (operator_mul (Meter 3) (PerCentiMeter 2)) (Meter 3) =
      some (Instantiation.general (PerMeter 200)) ∧
    ¬ ∃ r, divExpr (operator_mul (Meter 3) (PerCentiMeter 2)) (Meter 3) = some r ∧
      (∀ i : Fin 8, (r.dims.get i).toRat = ((PerCentiMeter 2).dims.get i).toRat) ∧
      r.Factor.toRat = (PerCentiMeter 2).Factor.toRat ∧
      r.m_value = (PerCentiMeter 2).m_value := by
  have hdiv : divExpr (operator_mul (Meter 3) (PerCentiMeter 2)) (Meter 3) =
      some (Instantiation.general (PerMeter 200)) := by decide
  refine ⟨by decide, by decide, by decide, hdiv, ?_⟩
  rintro ⟨r, hr, -, -, hraw⟩
  rw [hdiv] at hr
  cases hr
  exact absurd hraw (by decide)

/-! ## Converting there and back -/

/-- Two successive truncating conversions by reciprocal ratios `n / d` and `n1 / d1` lose
less than `d / |n| + 1`. -/
theorem round_trip_bound (a n d n1 d1 : Int) (hd : 0 < d) (hd1 : 0 < d1)
    (hcross : n1 * n = d1 * d) :
    |a - Int.tdiv (Int.tdiv (a * n) d * n1) d1| * |n| < d + |n| := by
  obtain ⟨-, h1⟩ := tdiv_toward_zero (a * n) d hd
  obtain ⟨-, h2⟩ := tdiv_toward_zero (Int.tdiv (a * n) d * n1) d1 hd1
  generalize Int.tdiv (Int.tdiv (a * n) d * n1) d1 = y at *
  generalize Int.tdiv (a * n) d = x at *
  have e : d1 * n * (a - y) = d1 * (a * n - x * d) + (x * n1 - y * d1) * n := by
    linear_combination (-x) * hcross
  have habs : d1 * (|a - y| * |n|) = |d1 * (a * n - x * d) + (x * n1 - y * d1) * n| := by
    rw [← e, abs_mul, abs_mul, abs_of_pos hd1]
    ring
  have hle : |d1 * (a * n - x * d) + (x * n1 - y * d1) * n| ≤
      d1 * |a * n - x * d| + |x * n1 - y * d1| * |n| := by
    calc |d1 * (a * n - x * d) + (x * n1 - y * d1) * n|
        ≤ |d1 * (a * n - x * d)| + |(x * n1 - y * d1) * n| := abs_add _ _
      _ = d1 * |a * n - x * d| + |x * n1 - y * d1| * |n| := by
          rw [abs_mul, abs_mul, abs_of_pos hd1]
  have h1le : d1 * |a * n - x * d| ≤ d1 * (d - 1) :=
    mul_le_mul_of_nonneg_left (Int.le_sub_one_of_lt h1) (le_of_lt hd1)
  have h2le : |x * n1 - y * d1| * |n| ≤ (d1 - 1) * |n| :=
    mul_le_mul_of_nonneg_right (Int.le_sub_one_of_lt h2) (abs_nonneg n)
  have hn : 0 ≤ |n| := abs_nonneg n
  have hfin : d1 * (|a - y| * |n|) < d1 * (d + |n|) := by
    rw [habs]
    calc |d1 * (a * n - x * d) + (x * n1 - y * d1) * n|
        ≤ d1 * (d - 1) + (d1 - 1) * |n| := by linarith
      _ < d1 * (d + |n|) := by nlinarith
  exact lt_of_mul_lt_mul_left hfin (le_of_lt hd1)

/-- The converting constructor on a target of non-zero scale, unfolded. -/
theorem convert_eq {V : Type} [ValType V] (a : PhysicalUnit V) (G : Ratio)
    (hG : G.num ≠ 0) :
    ∃ q, ratio_divide a.Factor G = some q ∧ q.toRat = a.Factor.toRat / G.toRat ∧
      PhysicalUnit.convert G a = some ⟨G, a.dims,
        ValType.div (ValType.mul a.m_value (ValType.ofIntmax q.num)) (ValType.ofIntmax q.den),
        a.general⟩ := by
  obtain ⟨q, hq, hrat, -⟩ := ratio_divide_eq_some a.Factor G hG
  refine ⟨q, hq, hrat, ?_⟩
  unfold PhysicalUnit.convert
  rw [hq]
  rfl

/-- C6, as amended. For a quantity of non-zero scale `S1` and a non-zero scale `S2`,
converting to `S2` and back to `S1` yields a quantity of the first type; with the exact
rational raw value `r` it is the quantity itself, and with the integer raw value `z` its
raw value differs from `z` by less than `d / |n| + 1`, where `n / d` is `S1 / S2` in lowest
terms: what the two truncations can lose. -/
theorem convert_round_trip (S1 S2 : Ratio) (D : Dims) (hD : D ≠ Dims.zero)
    (hS1 : S1.num ≠ 0) (hS2 : S2.num ≠ 0) (r : ℚ) (z : Int) :
    (∃ x, PhysicalUnit.convert S2 (⟨S1, D, r, hD⟩ : PhysicalUnit ℚ) = some x ∧
      PhysicalUnit.convert S1 x = some ⟨S1, D, r, hD⟩) ∧
    (∃ x y, ∃ n d : Int,
      PhysicalUnit.convert S2 (⟨S1, D, z, hD⟩ : PhysicalUnit Int) = some x ∧
      PhysicalUnit.convert S1 x = some y ∧ y.Factor = S1 ∧ y.dims = D ∧
      0 < d ∧ Int.gcd n d = 1 ∧ (n : ℚ) / (d : ℚ) = S1.toRat / S2.toRat ∧
      |z - y.m_value| * |n| < d + |n|) := by
  have hS10 : S1.toRat ≠ 0 := fun h => hS1 ((Ratio.num_eq_zero_iff _).mpr h)
  have hS20 : S2.toRat ≠ 0 := fun h => hS2 ((Ratio.num_eq_zero_iff _).mpr h)
  constructor
  · obtain ⟨q, -, hq, hx⟩ := convert_eq (⟨S1, D, r, hD⟩ : PhysicalUnit ℚ) S2 hS2
    obtain ⟨q1, -, hq1, hy⟩ := convert_eq
      (⟨S2, D, ValType.div (ValType.mul r (ValType.ofIntmax q.num))
        (ValType.ofIntmax q.den), hD⟩ : PhysicalUnit ℚ) S1 hS1
    refine ⟨_, hx, ?_⟩
    rw [hy]
    have hval : ((r * (q.num : ℚ)) / (q.den : ℚ)) * (q1.num : ℚ) / (q1.den : ℚ) = r := by
      have e1 : ((r * (q.num : ℚ)) / (q.den : ℚ)) * (q1.num : ℚ) / (q1.den : ℚ) =
          r * (((q.num : ℚ) / (q.den : ℚ)) * ((q1.num : ℚ) / (q1.den : ℚ))) := by
        ring
      rw [e1, Ratio.num_div_den, Ratio.num_div_den, hq, hq1]
      show r * (S1.toRat / S2.toRat * (S2.toRat / S1.toRat)) = r
      field_simp
    exact congrArg (fun w => some (PhysicalUnit.mk S1 D w hD)) hval
  · obtain ⟨q, -, hq, hx⟩ := convert_eq (⟨S1, D, z, hD⟩ : PhysicalUnit Int) S2 hS2
    obtain ⟨q1, -, hq1, hy⟩ := convert_eq
      (⟨S2, D, ValType.div (ValType.mul z (ValType.ofIntmax q.num))
        (ValType.ofIntmax q.den), hD⟩ : PhysicalUnit Int) S1 hS1
    refine ⟨_, _, q.num, q.den, hx, hy, rfl, rfl, q.den_pos, q.coprime, ?_, ?_⟩
    · rw [Ratio.num_div_den, hq]
    · have hcross : q1.num * q.num = q1.den * q.den := by
        have hd : (q.den : ℚ) ≠ 0 := by exact_mod_cast ne_of_gt q.den_pos
        have hd1 : (q1.den : ℚ) ≠ 0 := by exact_mod_cast ne_of_gt q1.den_pos
        have hprod : ((q1.num : ℚ) / (q1.den : ℚ)) * ((q.num : ℚ) / (q.den : ℚ)) = 1 := by
          rw [Ratio.num_div_den, Ratio.num_div_den, hq, hq1]
          show S2.toRat / S1.toRat * (S1.toRat / S2.toRat) = 1
          field_simp
        have : (q1.num : ℚ) * (q.num : ℚ) = (q1.den : ℚ) * (q.den : ℚ) := by
          field_simp at hprod
          linarith
        exact_mod_cast this
      exact round_trip_bound z q.num q.den q1.num q1.den q.den_pos q1.den_pos hcross

/-- C6 as amended, at metres and centimetres: 4 m is 400 cm is 4 m, and 1350 cm is 13 m
is 1300 cm. -/
theorem convert_round_trip_witness :
    lengthDims ≠ Dims.zero ∧ centi.num ≠ 0 ∧ ratio1.num ≠ 0 ∧
    ((∃ x, PhysicalUnit.convert ratio1
        (⟨centi, lengthDims, 1350, by decide⟩ : PhysicalUnit ℚ) = some x ∧
      PhysicalUnit.convert centi x = some ⟨centi, lengthDims, 1350, by decide⟩) ∧
    (∃ x y, ∃ n d : Int,
      PhysicalUnit.convert ratio1
        (⟨centi, lengthDims, 1350, by decide⟩ : PhysicalUnit Int) = some x ∧
      PhysicalUnit.convert centi x = some y ∧ y.Factor = centi ∧ y.dims = lengthDims ∧
      0 < d ∧ Int.gcd n d = 1 ∧ (n : ℚ) / (d : ℚ) = centi.toRat / ratio1.toRat ∧
      |1350 - y.m_value| * |n| < d + |n|)) ∧
    PhysicalUnit.convert ratio1 (CentiMeter 1350) = some (Meter 13) ∧
    PhysicalUnit.convert centi (Meter 13) = some (CentiMeter 1300) ∧
    PhysicalUnit.convert centi (Meter 4) = some (CentiMeter 400) ∧
    PhysicalUnit.convert ratio1 (CentiMeter 400) = some (Meter 4) :=
  ⟨by decide, by decide, by decide,
    convert_round_trip centi ratio1 lengthDims (by decide) (by decide) (by decide) 1350 1350,
    by decide, by decide, by decide, by decide⟩

/-- C6 as stated fails for a source scale of zero: a length of scale `std::ratio<0>` is
converted to metres (raw value 0), and the conversion back divides by the source scale,
which `std::ratio_divide` rejects. -/
theorem convert_round_trip_counterexample :
    ratio1.num ≠ 0 ∧
    PhysicalUnit.convert ratio1 (ZeroScaleLength 5) = some (Meter 0) ∧
    PhysicalUnit.convert (ZeroScaleLength 5).Factor (Meter 0) = none ∧
    ¬ ∃ x y, PhysicalUnit.convert ratio1 (ZeroScaleLength 5) = some x ∧
      PhysicalUnit.convert (ZeroScaleLength 5).Factor x = some y := by
  have h1 : PhysicalUnit.convert ratio1 (ZeroScaleLength 5) = some (Meter 0) := by decide
  have h2 : PhysicalUnit.convert (ZeroScaleLength 5).Factor (Meter 0) = none := by decide
  refine ⟨by decide, h1, h2, ?_⟩
  rintro ⟨x, y, hx, hy⟩
  rw [h1] at hx
  cases hx
  rw [h2] at hy
  cases hy

/-! ## Which operand pairs are accepted -/

/-- C7, as amended. When at least one operand is a quantity of the primary template (some
exponent is not `std::ratio<0>`), each of `+`, `-`, `==`, `!=`, `<=`, `>=`, `<`, `>` is
defined exactly when both operands have the same scale and the same dimension pack, and is
rejected otherwise. -/
theorem same_type_only {V : Type} [ValType V] (a b : Instantiation V)
    (h : (∃ q, a = Instantiation.general q) ∨ (∃ q, b = Instantiation.general q)) :
    ((plusExpr a b).isSome ↔ (a.Factor = b.Factor ∧ a.dims = b.dims)) ∧
    ((minusExpr a b).isSome ↔ (a.Factor = b.Factor ∧ a.dims = b.dims)) ∧
    ((compareExpr ValType.eq a b).isSome ↔ (a.Factor = b.Factor ∧ a.dims = b.dims)) ∧
    ((compareExpr ValType.ne a b).isSome ↔ (a.Factor = b.Factor ∧ a.dims = b.dims)) ∧
    ((compareExpr ValType.le a b).isSome ↔ (a.Factor = b.Factor ∧ a.dims = b.dims)) ∧
    ((compareExpr ValType.ge a b).isSome ↔ (a.Factor = b.Factor ∧ a.dims = b.dims)) ∧
    ((compareExpr ValType.lt a b).isSome ↔ (a.Factor = b.Factor ∧ a.dims = b.dims)) ∧
    ((compareExpr ValType.gt a b).isSome ↔ (a.Factor = b.Factor ∧ a.dims = b.dims)) := by
  have hcmp : ∀ op : V → V → Bool,
      ((compareExpr op a b).isSome ↔ (a.Factor = b.Factor ∧ a.dims = b.dims)) := by
    intro op
    cases a with
    | general p =>
      cases b with
      | general q =>
        show (compareWith op p q).isSome ↔ (p.Factor = q.Factor ∧ p.dims = q.dims)
        unfold compareWith
        split_ifs with hc
        · simp [hc]
        · simp [hc]
      | scalar s =>
        show (none : Option Bool).isSome ↔ (p.Factor = s.Factor ∧ p.dims = Dims.zero)
        simp [p.general]
    | scalar s =>
      cases b with
      | general q =>
        show (none : Option Bool).isSome ↔ (s.Factor = q.Factor ∧ Dims.zero = q.dims)
        have hq : ¬ Dims.zero = q.dims := fun e => q.general e.symm
        simp [hq]
      | scalar t =>
        rcases h with ⟨q, hq⟩ | ⟨q, hq⟩ <;> cases hq
  refine ⟨?_, ?_, hcmp _, hcmp _, hcmp _, hcmp _, hcmp _, hcmp _⟩
  · cases a with
    | general p =>
      cases b with
      | general q =>
        show ((operator_plus p q).map Sum.inl).isSome ↔ (p.Factor = q.Factor ∧ p.dims = q.dims)
        unfold operator_plus
        split_ifs with hc
        · simp [hc]
        · simp [hc]
      | scalar s =>
        show (none : Option (PhysicalUnit V ⊕ V)).isSome ↔
          (p.Factor = s.Factor ∧ p.dims = Dims.zero)
        simp [p.general]
    | scalar s =>
      cases b with
      | general q =>
        show (none : Option (PhysicalUnit V ⊕ V)).isSome ↔
          (s.Factor = q.Factor ∧ Dims.zero = q.dims)
        have hq : ¬ Dims.zero = q.dims := fun e => q.general e.symm
        simp [hq]
      | scalar t =>
        rcases h with ⟨q, hq⟩ | ⟨q, hq⟩ <;> cases hq
  · cases a with
    | general p =>
      cases b with
      | general q =>
        show ((operator_minus p q).map Sum.inl).isSome ↔
          (p.Factor = q.Factor ∧ p.dims = q.dims)
        unfold operator_minus
        split_ifs with hc
        · simp [hc]
        · simp [hc]
      | scalar s =>
        show (none : Option (PhysicalUnit V ⊕ V)).isSome ↔
          (p.Factor = s.Factor ∧ p.dims = Dims.zero)
        simp [p.general]
    | scalar s =>
      cases b with
      | general q =>
        show (none : Option (PhysicalUnit V ⊕ V)).isSome ↔
          (s.Factor = q.Factor ∧ Dims.zero = q.dims)
        have hq : ¬ Dims.zero = q.dims := fun e => q.general e.symm
        simp [hq]
      | scalar t =>
        rcases h with ⟨q, hq⟩ | ⟨q, hq⟩ <;> cases hq

/-- C7 as amended, at a metre and a centimetre (same dimension, different scale: every
operator is rejected) and at two metres (every operator is defined). -/
theorem same_type_only_witness :
    ((∃ q, Instantiation.general (Meter 3) = Instantiation.general q) ∨
      (∃ q, Instantiation.general (CentiMeter 7) = Instantiation.general q)) ∧
    (((plusExpr (Instantiation.general (Meter 3))
        (Instantiation.general (CentiMeter 7))).isSome ↔
      ((Instantiation.general (Meter 3)).Factor = (Instantiation.general (CentiMeter 7)).Factor ∧
        (Instantiation.general (Meter 3)).dims = (Instantiation.general (CentiMeter 7)).dims)) ∧
    ((minusExpr (Instantiation.general (Meter 3))
        (Instantiation.general (CentiMeter 7))).isSome ↔
      ((Instantiation.general (Meter 3)).Factor = (Instantiation.general (CentiMeter 7)).Factor ∧
        (Instantiation.general (Meter 3)).dims = (Instantiation.general (CentiMeter 7)).dims)) ∧
    ((compareExpr ValType.eq (Instantiation.general (Meter 3))
        (Instantiation.general (CentiMeter 7))).isSome ↔
      ((Instantiation.general (Meter 3)).Factor = (Instantiation.general (CentiMeter 7)).Factor ∧
        (Instantiation.general (Meter 3)).dims = (Instantiation.general (CentiMeter 7)).dims)) ∧
    ((compareExpr ValType.ne (Instantiation.general (Meter 3))
        (Instantiation.general (CentiMeter 7))).isSome ↔
      ((Instantiation.general (Meter 3)).Factor = (Instantiation.general (CentiMeter 7)).Factor ∧
        (Instantiation.general (Meter 3)).dims = (Instantiation.general (CentiMeter 7)).dims)) ∧
    ((compareExpr ValType.le (Instantiation.general (Meter 3))
        (Instantiation.general (CentiMeter 7))).isSome ↔
      ((Instantiation.general (Meter 3)).Factor = (Instantiation.general (CentiMeter 7)).Factor ∧
        (Instantiation.general (Meter 3)).dims = (Instantiation.general (CentiMeter 7)).dims)) ∧
    ((compareExpr ValType.ge (Instantiation.general (Meter 3))
        (Instantiation.general (CentiMeter 7))).isSome ↔
      ((Instantiation.general (Meter 3)).Factor = (Instantiation.general (CentiMeter 7)).Factor ∧
        (Instantiation.general (Meter 3)).dims = (Instantiation.general (CentiMeter 7)).dims)) ∧
    ((compareExpr ValType.lt (Instantiation.general (Meter 3))
        (Instantiation.general (CentiMeter 7))).isSome ↔
      ((Instantiation.general (Meter 3)).Factor = (Instantiation.general (CentiMeter 7)).Factor ∧
        (Instantiation.general (Meter 3)).dims = (Instantiation.general (CentiMeter 7)).dims)) ∧
    ((compareExpr ValType.gt (Instantiation.general (Meter 3))
        (Instantiation.general (CentiMeter 7))).isSome ↔
      ((Instantiation.general (Meter 3)).Factor = (Instantiation.general (CentiMeter 7)).Factor ∧
        (Instantiation.general (Meter 3)).dims =
          (Instantiation.general (CentiMeter 7)).dims))) ∧
    plusExpr (Instantiation.general (Meter 3)) (Instantiation.general (CentiMeter 7)) = none ∧
    compareExpr ValType.lt (Instantiation.general (Meter 3))
      (Instantiation.general (CentiMeter 7)) = none ∧
    plusExpr (Instantiation.general (Meter 3)) (Instantiation.general (Meter 7)) =
      some (Sum.inl (Meter 10)) ∧
    compareExpr ValType.lt (Instantiation.general (Meter 3))
      (Instantiation.general (Meter 7)) = some true :=
  ⟨Or.inl ⟨Meter 3, rfl⟩,
    same_type_only (Instantiation.general (Meter 3)) (Instantiation.general (CentiMeter 7))
      (Or.inl ⟨Meter 3, rfl⟩),
    by decide, by decide, by decide, by decide⟩

/-- C7 as stated fails for two dimensionless quantities of different scale, raw value 1 of
scale 1 and raw value 100 of scale 1/100: no operator is rejected; each operand is
converted to its bare number (1 and 1) and the built-in operator is applied. -/
theorem same_type_only_counterexample :
    (Instantiation.scalar (⟨ratio1, 1⟩ : Dimensionless Int)).dims =
      (Instantiation.scalar (⟨centi, 100⟩ : Dimensionless Int)).dims ∧
    (Instantiation.scalar (⟨ratio1, 1⟩ : Dimensionless Int)).Factor ≠
      (Instantiation.scalar (⟨centi, 100⟩ : Dimensionless Int)).Factor ∧
    plusExpr (Instantiation.scalar (⟨ratio1, 1⟩ : Dimensionless Int))
      (Instantiation.scalar ⟨centi, 100⟩) = some (Sum.inr 2) ∧
    minusExpr (Instantiation.scalar (⟨ratio1, 1⟩ : Dimensionless Int))
      (Instantiation.scalar ⟨centi, 100⟩) = some (Sum.inr 0) ∧
    compareExpr ValType.eq (Instantiation.scalar (⟨ratio1, 1⟩ : Dimensionless Int))
      (Instantiation.scalar ⟨centi, 100⟩) = some true ∧
    compareExpr ValType.ne (Instantiation.scalar (⟨ratio1, 1⟩ : Dimensionless Int))
      (Instantiation.scalar ⟨centi, 100⟩) = some false ∧
    compareExpr ValType.le (Instantiation.scalar (⟨ratio1, 1⟩ : Dimensionless Int))
      (Instantiation.scalar ⟨centi, 100⟩) = some true ∧
    compareExpr ValType.ge (Instantiation.scalar (⟨ratio1, 1⟩ : Dimensionless Int))
      (Instantiation.scalar ⟨centi, 100⟩) = some true ∧
    compareExpr ValType.lt (Instantiation.scalar (⟨ratio1, 1⟩ : Dimensionless Int))
      (Instantiation.scalar ⟨centi, 100⟩) = some false ∧
    compareExpr ValType.gt (Instantiation.scalar (⟨ratio1, 1⟩ : Dimensionless Int))
      (Instantiation.scalar ⟨centi, 100⟩) = some false := by
  decide

/-! ## A bare number divided by a quantity -/

/-- C8. For a bare number `k` and a quantity `b` of non-zero scale, `k / b` has the scale
`ratio_divide<ratio<1>, F2>`, which denotes `1 / F2`, in each of the eight positions the
exponent `ratio_subtract<ratio<0>, D2>`, which denotes the negated exponent, and the raw
value `k / b.raw` in the arithmetic of the raw type. -/
theorem operator_div_number_spec {V : Type} [ValType V] (k : V) (b : PhysicalUnit V)
    (hb : b.Factor.num ≠ 0) :
    ∃ r F, operator_div_number k b = some r ∧ ratio_divide ratio1 b.Factor = some F ∧
      r.Factor = F ∧ r.Factor.toRat = 1 / b.Factor.toRat ∧
      (∀ i : Fin 8, r.dims.get i = ratio_subtract ratio0 (b.dims.get i) ∧
        (r.dims.get i).toRat = -(b.dims.get i).toRat) ∧
      r.m_value = ValType.div k b.m_value := by
  obtain ⟨F, hF, hrat, hdiv⟩ := operator_div_number_eq k b hb
  refine ⟨_, F, hdiv, hF, construct_Factor _ _ _, ?_, ?_, construct_m_value _ _ _⟩
  · rw [construct_Factor, hrat]
  · intro i
    rw [construct_dims, get_map, toRat_ratio_subtract, toRat_ratio0]
    exact ⟨rfl, by ring⟩

/-- C8, at `1.0 / Seconds(20)` of the tests: a frequency (time exponent -1, scale 1) of raw
value 1/20, that is 0.05. -/
theorem operator_div_number_spec_witness :
    (Seconds (20 : ℚ)).Factor.num ≠ 0 ∧
    (∃ r F, operator_div_number (1 : ℚ) (Seconds 20) = some r ∧
      ratio_divide ratio1 (Seconds (20 : ℚ)).Factor = some F ∧
      r.Factor = F ∧ r.Factor.toRat = 1 / (Seconds (20 : ℚ)).Factor.toRat ∧
      (∀ i : Fin 8, r.dims.get i = ratio_subtract ratio0 ((Seconds (20 : ℚ)).dims.get i) ∧
        (r.dims.get i).toRat = -((Seconds (20 : ℚ)).dims.get i).toRat) ∧
      r.m_value = ValType.div (1 : ℚ) (Seconds (20 : ℚ)).m_value) ∧
    operator_div_number (1 : ℚ) (Seconds 20) =
      some (Instantiation.general (Herz ((1 : ℚ) / 20))) ∧
    ((1 : ℚ) / 20 = 5 / 100) :=
  ⟨by decide, operator_div_number_spec (1 : ℚ) (Seconds 20) (by decide),
    by
      have hF : ratio_divide ratio1 (Seconds (20 : ℚ)).Factor = some ratio1 := by decide
      have hd : Dims.map (ratio_subtract ratio0) (Seconds (20 : ℚ)).dims = perTimeDims := by
        decide
      unfold operator_div_number
      rw [hF, hd]
      rfl,
    by norm_num⟩

/-! ## Dimensionless quantities -/

theorem type_ratio0 : ratio0.type = ratio0 := by decide

/-- The difference of a ratio type and itself is `std::ratio<0>`. -/
theorem ratio_subtract_self (r : Ratio) : ratio_subtract r r = ratio0 := by
  unfold ratio_subtract
  rw [← type_ratio0]
  apply Ratio.type_eq_of_toRat_eq
  rw [toRat_ratio0]
  simp [Ratio.toRat]

theorem zipWith_subtract_self (d : Dims) : Dims.zipWith ratio_subtract d d = Dims.zero := by
  unfold Dims.zipWith Dims.zero
  simp only [ratio_subtract_self]

/-- C9. A dimensionless quantity of raw value `r` and scale `n / d` (the members `num` and
`den` of its scale factor, in lowest terms) converts to the bare number `(r * n) / d`; and
for two integer quantities `a`, `b` of one type and non-zero scale, `a / b` is a
dimensionless quantity of scale 1 that converts to the bare number `a.raw / b.raw`. -/
theorem dimensionless_to_number (a b : PhysicalUnit Int) (hF : a.Factor = b.Factor)
    (hd : a.dims = b.dims) (hs : b.Factor.num ≠ 0) :
    (∀ (V : Type) [ValType V] (q : Dimensionless V),
      q.toValType = ValType.div (ValType.mul q.m_value (ValType.ofIntmax q.Factor.num))
        (ValType.ofIntmax q.Factor.den) ∧
      0 < q.Factor.den ∧ Int.gcd q.Factor.num q.Factor.den = 1 ∧
      (q.Factor.num : ℚ) / (q.Factor.den : ℚ) = q.Factor.toRat) ∧
    (∀ q : Dimensionless Int,
      q.toValType = Int.tdiv (q.m_value * q.Factor.num) q.Factor.den) ∧
    (∃ s : Dimensionless Int, operator_div a b = some (Instantiation.scalar s) ∧
      s.Factor.toRat = 1 ∧ s.Factor.num = 1 ∧ s.Factor.den = 1 ∧
      s.m_value = Int.tdiv a.m_value b.m_value ∧
      s.toValType = Int.tdiv a.m_value b.m_value) := by
  refine ⟨fun V _ q => ⟨rfl, q.Factor.den_pos, q.Factor.coprime, q.Factor.num_div_den⟩,
    fun q => rfl, ?_⟩
  obtain ⟨F, -, hrat, hdiv⟩ := operator_div_eq a b hs
  have hb0 : b.Factor.toRat ≠ 0 := fun h => hs ((Ratio.num_eq_zero_iff _).mpr h)
  have hone : F.toRat = 1 := by rw [hrat, hF, div_self hb0]
  obtain ⟨hn, hden⟩ := num_den_of_toRat_one F hone
  refine ⟨⟨F, Int.tdiv a.m_value b.m_value⟩, ?_, hone, hn, hden, rfl, ?_⟩
  · rw [hdiv, hd, zipWith_subtract_self]
    rfl
  · show Int.tdiv (Int.tdiv a.m_value b.m_value * F.num) F.den = _
    rw [hn, hden]
    simp

/-- C9, at `Meter(6) / Meter(3) == 2` of the tests. -/
theorem dimensionless_to_number_witness :
    (Meter 6).Factor = (Meter 3).Factor ∧ (Meter 6).dims = (Meter 3).dims ∧
    (Meter 3).Factor.num ≠ 0 ∧
    ((∀ (V : Type) [ValType V] (q : Dimensionless V),
      q.toValType = ValType.div (ValType.mul q.m_value (ValType.ofIntmax q.Factor.num))
        (ValType.ofIntmax q.Factor.den) ∧
      0 < q.Factor.den ∧ Int.gcd q.Factor.num q.Factor.den = 1 ∧
      (q.Factor.num : ℚ) / (q.Factor.den : ℚ) = q.Factor.toRat) ∧
    (∀ q : Dimensionless Int,
      q.toValType = Int.tdiv (q.m_value * q.Factor.num) q.Factor.den) ∧
    (∃ s : Dimensionless Int,
      operator_div (Meter 6) (Meter 3) = some (Instantiation.scalar s) ∧
      s.Factor.toRat = 1 ∧ s.Factor.num = 1 ∧ s.Factor.den = 1 ∧
      s.m_value = Int.tdiv (Meter 6).m_value (Meter 3).m_value ∧
      s.toValType = Int.tdiv (Meter 6).m_value (Meter 3).m_value)) ∧
    operator_div (Meter 6) (Meter 3) = some (Instantiation.scalar ⟨ratio1, 2⟩) ∧
    (⟨ratio1, 2⟩ : Dimensionless Int).toValType = 2 ∧
    (⟨centi, 250⟩ : Dimensionless Int).toValType = 2 :=
  ⟨by decide, by decide, by decide,
    dimensionless_to_number (Meter 6) (Meter 3) (by decide) (by decide) (by decide),
    by decide, by decide, by decide⟩

/-- C10, as amended. Building a dimensionless quantity of scale `S` from a bare number
stores the number unchanged as the raw value, and converting back multiplies by `S`: the
round trip returns `(x * n) / d` on integers and `y * S` on exact rationals, which is the
number itself when `S` is 1. -/
theorem dimensionless_round_trip (S : Ratio) (x : Int) (y : ℚ) :
    (Dimensionless.ofValType S x).m_value = x ∧
    (Dimensionless.ofValType S y).m_value = y ∧
    (Dimensionless.ofValType S x).toValType = Int.tdiv (x * S.num) S.den ∧
    (Dimensionless.ofValType S y).toValType = y * S.toRat ∧
    (S.toRat = 1 → (Dimensionless.ofValType S x).toValType = x ∧
      (Dimensionless.ofValType S y).toValType = y) := by
  have hy : (Dimensionless.ofValType S y).toValType = y * S.toRat := by
    show y * (S.num : ℚ) / (S.den : ℚ) = y * S.toRat
    rw [← Ratio.num_div_den]
    ring
  refine ⟨rfl, rfl, rfl, hy, fun h => ⟨?_, ?_⟩⟩
  · obtain ⟨hn, hd⟩ := num_den_of_toRat_one S h
    show Int.tdiv (x * S.num) S.den = x
    rw [hn, hd]
    simp
  · rw [hy, h, mul_one]

/-- C10 as amended, at scale 1. -/
theorem dimensionless_round_trip_witness :
    ratio1.toRat = 1 ∧
    ((Dimensionless.ofValType ratio1 (7 : Int)).m_value = 7 ∧
    (Dimensionless.ofValType ratio1 ((7 : ℚ) / 2)).m_value = (7 : ℚ) / 2 ∧
    (Dimensionless.ofValType ratio1 (7 : Int)).toValType =
      Int.tdiv (7 * ratio1.num) ratio1.den ∧
    (Dimensionless.ofValType ratio1 ((7 : ℚ) / 2)).toValType = (7 : ℚ) / 2 * ratio1.toRat ∧
    (ratio1.toRat = 1 → (Dimensionless.ofValType ratio1 (7 : Int)).toValType = 7 ∧
      (Dimensionless.ofValType ratio1 ((7 : ℚ) / 2)).toValType = (7 : ℚ) / 2)) :=
  ⟨toRat_ratio1, dimensionless_round_trip ratio1 7 ((7 : ℚ) / 2)⟩

/-- C10 as stated fails at scale 1/100 and the bare number 100: the constructor stores 100
(it does not divide by the scale, which would give 10000), and the conversion back
returns 100 * 1 / 100 = 1, not 100. -/
theorem dimensionless_round_trip_counterexample :
    (Dimensionless.ofValType centi (100 : Int)).m_value = 100 ∧
    (Dimensionless.ofValType centi (100 : Int)).toValType = 1 ∧
    (Dimensionless.ofValType centi (100 : Int)).toValType ≠ 100 := by
  decide

/-! ## Comparisons -/

/-- The comparison operators on quantities of one type, unfolded. -/
theorem compareWith_same {V : Type} (op : V → V → Bool) (a b : PhysicalUnit V)
    (hF : a.Factor = b.Factor) (hd : a.dims = b.dims) :
    compareWith op a b = some (op a.m_value b.m_value) := by
  unfold compareWith
  rw [if_pos ⟨hF, hd⟩]
  rfl

/-- The comparison operators on affine quantities of one type, unfolded. -/
theorem abs_compareWith_same {V : Type} (op : V → V → Bool) (p q : AbsolutePhysicalUnit V)
    (hF : p.Factor = q.Factor) (hO : p.Offset = q.Offset) (hd : p.dims = q.dims) :
    AbsolutePhysicalUnit.compareWith op p q = some (op p.m_value q.m_value) := by
  unfold AbsolutePhysicalUnit.compareWith
  rw [if_pos ⟨hF, hO, hd⟩]
  rfl

/-- On integers exactly one of `<`, `==`, `>` is true. -/
theorem int_trichotomy (x y : Int) :
    (decide (x < y) = true ∧ decide (x = y) = false ∧ decide (x > y) = false) ∨
    (decide (x < y) = false ∧ decide (x = y) = true ∧ decide (x > y) = false) ∨
    (decide (x < y) = false ∧ decide (x = y) = false ∧ decide (x > y) = true) := by
  rcases lt_trichotomy x y with h | h | h
  · left
    simp only [decide_eq_true_eq, decide_eq_false_iff_not]
    omega
  · right; left
    simp only [decide_eq_true_eq, decide_eq_false_iff_not]
    omega
  · right; right
    simp only [decide_eq_true_eq, decide_eq_false_iff_not]
    omega

/-- On integers `<=` is the negation of `>`. -/
theorem int_le_not_gt (x y : Int) : decide (x ≤ y) = !decide (x > y) := by
  by_cases h : x ≤ y
  · have h2 : ¬ x > y := by omega
    simp [h, h2]
  · have h2 : x > y := by omega
    simp [h, h2]

/-- C11. For integer quantities `a`, `b` of one scale and one dimension pack, each of `==`,
`!=`, `<=`, `>=`, `<`, `>` returns the result of that comparison on the raw values; exactly
one of `a < b`, `a == b`, `a > b` is true, `a != b` is the negation of `a == b` and
`a <= b` is the negation of `a > b`. The same holds for integer affine quantities `p`, `q`
of one type. -/
theorem comparisons_on_raw (a b : PhysicalUnit Int) (p q : AbsolutePhysicalUnit Int)
    (hF : a.Factor = b.Factor) (hd : a.dims = b.dims)
    (hpF : p.Factor = q.Factor) (hpO : p.Offset = q.Offset) (hpd : p.dims = q.dims) :
    (operator_eq a b = some (decide (a.m_value = b.m_value)) ∧
      operator_ne a b = some (decide (a.m_value ≠ b.m_value)) ∧
      operator_le a b = some (decide (a.m_value ≤ b.m_value)) ∧
      operator_ge a b = some (decide (a.m_value ≥ b.m_value)) ∧
      operator_lt a b = some (decide (a.m_value < b.m_value)) ∧
      operator_gt a b = some (decide (a.m_value > b.m_value)) ∧
      (∃ l e g, operator_lt a b = some l ∧ operator_eq a b = some e ∧
        operator_gt a b = some g ∧
        ((l = true ∧ e = false ∧ g = false) ∨ (l = false ∧ e = true ∧ g = false) ∨
          (l = false ∧ e = false ∧ g = true))) ∧
      operator_ne a b = (operator_eq a b).map not ∧
      operator_le a b = (operator_gt a b).map not) ∧
    (AbsolutePhysicalUnit.operator_eq p q = some (decide (p.m_value = q.m_value)) ∧
      AbsolutePhysicalUnit.operator_ne p q = some (decide (p.m_value ≠ q.m_value)) ∧
      AbsolutePhysicalUnit.operator_le p q = some (decide (p.m_value ≤ q.m_value)) ∧
      AbsolutePhysicalUnit.operator_ge p q = some (decide (p.m_value ≥ q.m_value)) ∧
      AbsolutePhysicalUnit.operator_lt p q = some (decide (p.m_value < q.m_value)) ∧
      AbsolutePhysicalUnit.operator_gt p q = some (decide (p.m_value > q.m_value)) ∧
      (∃ l e g, AbsolutePhysicalUnit.operator_lt p q = some l ∧
        AbsolutePhysicalUnit.operator_eq p q = some e ∧
        AbsolutePhysicalUnit.operator_gt p q = some g ∧
        ((l = true ∧ e = false ∧ g = false) ∨ (l = false ∧ e = true ∧ g = false) ∨
          (l = false ∧ e = false ∧ g = true))) ∧
      AbsolutePhysicalUnit.operator_ne p q = (AbsolutePhysicalUnit.operator_eq p q).map not ∧
      AbsolutePhysicalUnit.operator_le p q =
        (AbsolutePhysicalUnit.operator_gt p q).map not) := by
  have hc : ∀ op : Int → Int → Bool, compareWith op a b = some (op a.m_value b.m_value) :=
    fun op => compareWith_same op a b hF hd
  have hpc : ∀ op : Int → Int → Bool,
      AbsolutePhysicalUnit.compareWith op p q = some (op p.m_value q.m_value) :=
    fun op => abs_compareWith_same op p q hpF hpO hpd
  refine ⟨⟨hc _, hc _, hc _, hc _, hc _, hc _, ?_, ?_, ?_⟩,
    ⟨hpc _, hpc _, hpc _, hpc _, hpc _, hpc _, ?_, ?_, ?_⟩⟩
  · exact ⟨_, _, _, hc _, hc _, hc _, int_trichotomy a.m_value b.m_value⟩
  · unfold operator_ne operator_eq
    rw [hc, hc]
    simp [ValType.ne, ValType.eq]
  · unfold operator_le operator_gt
    rw [hc, hc]
    exact congrArg some (int_le_not_gt a.m_value b.m_value)
  · exact ⟨_, _, _, hpc _, hpc _, hpc _, int_trichotomy p.m_value q.m_value⟩
  · unfold AbsolutePhysicalUnit.operator_ne AbsolutePhysicalUnit.operator_eq
    rw [hpc, hpc]
    simp [ValType.ne, ValType.eq]
  · unfold AbsolutePhysicalUnit.operator_le AbsolutePhysicalUnit.operator_gt
    rw [hpc, hpc]
    exact congrArg some (int_le_not_gt p.m_value q.m_value)

/-- C11, at `Meter(3)`, `Meter(7)` and at the timestamps 5000 s, 4856 s of the tests. -/
theorem comparisons_on_raw_witness :
    (Meter 3).Factor = (Meter 7).Factor ∧ (Meter 3).dims = (Meter 7).dims ∧
    (TimeStampSeconds 5000).Factor = (TimeStampSeconds 4856).Factor ∧
    (TimeStampSeconds 5000).Offset = (TimeStampSeconds 4856).Offset ∧
    (TimeStampSeconds 5000).dims = (TimeStampSeconds 4856).dims ∧
    operator_lt (Meter 3) (Meter 7) = some true ∧
    operator_gt (Meter 3) (Meter 7) = some false ∧
    operator_le (Meter 3) (Meter 7) = some true ∧
    operator_ne (Meter 3) (Meter 7) = some true ∧
    operator_eq (Meter 3) (Meter 7) = some false ∧
    operator_eq (Meter 3) (Meter 3) = some true ∧
    operator_ge (Meter 7) (Meter 3) = some true ∧
    AbsolutePhysicalUnit.operator_eq (TimeStampSeconds 5000) (TimeStampSeconds 4856) =
      some false ∧
    AbsolutePhysicalUnit.operator_gt (TimeStampSeconds 5000) (TimeStampSeconds 4856) =
      some true ∧
    AbsolutePhysicalUnit.operator_le (TimeStampSeconds 5000) (TimeStampSeconds 4856) =
      some false ∧
    operator_ne (Meter 3) (Meter 7) = (operator_eq (Meter 3) (Meter 7)).map not ∧
    AbsolutePhysicalUnit.operator_le (TimeStampSeconds 5000) (TimeStampSeconds 4856) =
      (AbsolutePhysicalUnit.operator_gt (TimeStampSeconds 5000)
        (TimeStampSeconds 4856)).map not :=
  have h := comparisons_on_raw (Meter 3) (Meter 7) (TimeStampSeconds 5000)
    (TimeStampSeconds 4856) (by decide) (by decide) (by decide) (by decide) (by decide)
  ⟨by decide, by decide, by decide, by decide, by decide, by decide, by decide, by decide,
    by decide, by decide, by decide, by decide, by decide, by decide, by decide,
    h.1.2.2.2.2.2.2.2.1, h.2.2.2.2.2.2.2.2.2⟩

/-! ## Conversion of affine quantities -/

/-- The affine converting constructor on a target of non-zero scale, unfolded. -/
theorem abs_convert_eq {V : Type} [ValType V] (a : AbsolutePhysicalUnit V) (G P : Ratio)
    (hG : G.num ≠ 0) :
    ∃ q o, ratio_divide a.Factor G = some q ∧ q.toRat = a.Factor.toRat / G.toRat ∧
      ratio_divide (ratio_subtract a.Offset P) G = some o ∧
      o.toRat = (a.Offset.toRat - P.toRat) / G.toRat ∧
      AbsolutePhysicalUnit.convert G P a = some ⟨G, P, a.dims,
        ValType.add
          (ValType.div (ValType.mul a.m_value (ValType.ofIntmax q.num))
            (ValType.ofIntmax q.den))
          (ValType.div (ValType.ofIntmax o.num) (ValType.ofIntmax o.den))⟩ := by
  obtain ⟨q, hq, hqr, -⟩ := ratio_divide_eq_some a.Factor G hG
  obtain ⟨o, ho, hor, -⟩ := ratio_divide_eq_some (ratio_subtract a.Offset P) G hG
  refine ⟨q, o, hq, hqr, ho, by rw [hor, toRat_ratio_subtract], ?_⟩
  unfold AbsolutePhysicalUnit.convert
  rw [hq, ho]
  rfl

/-- Over exact rationals the affine conversion is `r * (F / G) + (O - P) / G`. -/
theorem abs_convert_rat (a : AbsolutePhysicalUnit ℚ) (G P : Ratio) (hG : G.num ≠ 0) :
    AbsolutePhysicalUnit.convert G P a = some ⟨G, P, a.dims,
      a.m_value * (a.Factor.toRat / G.toRat) + (a.Offset.toRat - P.toRat) / G.toRat⟩ := by
  obtain ⟨q, o, -, hqr, -, hor, hc⟩ := abs_convert_eq a G P hG
  rw [hc]
  have hval : a.m_value * (q.num : ℚ) / (q.den : ℚ) + (o.num : ℚ) / (o.den : ℚ) =
      a.m_value * (a.Factor.toRat / G.toRat) + (a.Offset.toRat - P.toRat) / G.toRat := by
    rw [← hqr, ← hor, ← Ratio.num_div_den q, ← Ratio.num_div_den o]
    ring
  exact congrArg (fun w => some (AbsolutePhysicalUnit.mk G P a.dims w)) hval

/-- C12. For an integer affine quantity `a` (raw `r`, scale `F`, offset `O`) and a target
type of non-zero scale `G` and offset `P`, the converting constructor stores
`(r * n) / d + m / e`, where `n / d` is `F / G` and `m / e` is `(O - P) / G`, both in lowest
terms, each quotient truncated on its own; over exact rationals (raw `r'`) that is
`r' * (F / G) + (O - P) / G`; and for `O = P` the second term is 0 and the value is the one
of the conversion of a scaled quantity. -/
theorem abs_convert_raw (a : AbsolutePhysicalUnit Int) (G P : Ratio) (hG : G.num ≠ 0)
    (r' : ℚ) :
    (∃ n d m e : Int, 0 < d ∧ Int.gcd n d = 1 ∧
      (n : ℚ) / (d : ℚ) = a.Factor.toRat / G.toRat ∧
      0 < e ∧ Int.gcd m e = 1 ∧
      (m : ℚ) / (e : ℚ) = (a.Offset.toRat - P.toRat) / G.toRat ∧
      AbsolutePhysicalUnit.convert G P a =
        some ⟨G, P, a.dims, Int.tdiv (a.m_value * n) d + Int.tdiv m e⟩ ∧
      (a.Offset.toRat = P.toRat →
        Int.tdiv m e = 0 ∧
        AbsolutePhysicalUnit.convert G P a =
          some ⟨G, P, a.dims, Int.tdiv (a.m_value * n) d⟩ ∧
        ∀ s : PhysicalUnit Int, s.Factor = a.Factor → s.m_value = a.m_value →
          (PhysicalUnit.convert G s).map PhysicalUnit.m_value =
            some (Int.tdiv (a.m_value * n) d))) ∧
    AbsolutePhysicalUnit.convert G P (⟨a.Factor, a.Offset, a.dims, r'⟩ : AbsolutePhysicalUnit ℚ) =
      some ⟨G, P, a.dims,
        r' * (a.Factor.toRat / G.toRat) + (a.Offset.toRat - P.toRat) / G.toRat⟩ := by
  refine ⟨?_, abs_convert_rat ⟨a.Factor, a.Offset, a.dims, r'⟩ G P hG⟩
  obtain ⟨q, o, hq, hqr, -, hor, hc⟩ := abs_convert_eq a G P hG
  refine ⟨q.num, q.den, o.num, o.den, q.den_pos, q.coprime, ?_, o.den_pos, o.coprime, ?_,
    hc, ?_⟩
  · rw [Ratio.num_div_den, hqr]
  · rw [Ratio.num_div_den, hor]
  · intro hOP
    have ho0 : o.toRat = 0 := by rw [hor, hOP, sub_self, zero_div]
    have hn0 : o.num = 0 := (Ratio.num_eq_zero_iff o).mpr ho0
    have ht : Int.tdiv o.num o.den = 0 := by rw [hn0]; simp
    refine ⟨ht, ?_, ?_⟩
    · rw [hc]
      show some (AbsolutePhysicalUnit.mk G P a.dims
        (Int.tdiv (a.m_value * q.num) q.den + Int.tdiv o.num o.den)) = _
      rw [ht, add_zero]
    · intro s hsF hsv
      obtain ⟨q2, hq2, -, hs⟩ := convert_eq s G hG
      rw [hsF, hq] at hq2
      cases hq2
      rw [hs, hsv]
      rfl

/-- C12, at the timestamps of the tests: 4856 s is 4856000 ms. -/
theorem abs_convert_raw_witness :
    (Ratio.mk 1 1000).num ≠ 0 ∧
    (TimeStampSeconds 4856).Offset.toRat = ratio0.toRat ∧
    AbsolutePhysicalUnit.convert (Ratio.mk 1 1000) ratio0 (TimeStampSeconds 4856) =
      some (TimeStampMilliSeconds 4856000) ∧
    (∃ n d m e : Int, 0 < d ∧ Int.gcd n d = 1 ∧
      (n : ℚ) / (d : ℚ) = (TimeStampSeconds 4856).Factor.toRat / (Ratio.mk 1 1000).toRat ∧
      0 < e ∧ Int.gcd m e = 1 ∧
      (m : ℚ) / (e : ℚ) =
        ((TimeStampSeconds 4856).Offset.toRat - ratio0.toRat) / (Ratio.mk 1 1000).toRat ∧
      AbsolutePhysicalUnit.convert (Ratio.mk 1 1000) ratio0 (TimeStampSeconds 4856) =
        some ⟨Ratio.mk 1 1000, ratio0, (TimeStampSeconds 4856).dims,
          Int.tdiv ((TimeStampSeconds 4856).m_value * n) d + Int.tdiv m e⟩ ∧
      Int.tdiv m e = 0) :=
  have h := abs_convert_raw (TimeStampSeconds 4856) (Ratio.mk 1 1000) ratio0 (by decide) 0
  ⟨by decide, rfl, by decide,
    match h.1 with
    | ⟨n, d, m, e, h1, h2, h3, h4, h5, h6, h7, h8⟩ =>
      ⟨n, d, m, e, h1, h2, h3, h4, h5, h6, h7, (h8 rfl).1⟩⟩

/-- C13. Over exact rationals, with Kelvin (scale 1, offset 0), Celsius (scale 1, offset
27315/100) and Fahrenheit (scale 5/9, offset 229835/900), the affine conversion maps 0 K
to -273.15 C and to -459.67 F, and 0 C to 32 F and to 273.15 K. -/
theorem temperature_conversions :
    AbsolutePhysicalUnit.convert ratio1 (Ratio.mk 27315 100) (TempKelvin 0) =
      some (TempCelsius (-273.15)) ∧
    AbsolutePhysicalUnit.convert (Ratio.mk 5 9) (Ratio.mk 229835 900) (TempKelvin 0) =
      some (TempFahrenheit (-459.67)) ∧
    AbsolutePhysicalUnit.convert (Ratio.mk 5 9) (Ratio.mk 229835 900) (TempCelsius 0) =
      some (TempFahrenheit 32) ∧
    AbsolutePhysicalUnit.convert ratio1 ratio0 (TempCelsius 0) =
      some (TempKelvin 273.15) := by
  have h9 : (Ratio.mk 5 9).num ≠ 0 := by decide
  have h1 : ratio1.num ≠ 0 := by decide
  refine ⟨?_, ?_, ?_, ?_⟩
  · rw [abs_convert_rat _ _ _ h1]
    refine congrArg (fun w => some (AbsolutePhysicalUnit.mk ratio1 (Ratio.mk 27315 100)
      absTempDims w)) ?_
    simp only [TempKelvin, Ratio.toRat, ratio1, ratio0]
    norm_num
  · rw [abs_convert_rat _ _ _ h9]
    refine congrArg (fun w => some (AbsolutePhysicalUnit.mk (Ratio.mk 5 9)
      (Ratio.mk 229835 900) absTempDims w)) ?_
    simp only [TempKelvin, Ratio.toRat, ratio1, ratio0]
    norm_num
  · rw [abs_convert_rat _ _ _ h9]
    refine congrArg (fun w => some (AbsolutePhysicalUnit.mk (Ratio.mk 5 9)
      (Ratio.mk 229835 900) absTempDims w)) ?_
    simp only [TempCelsius, Ratio.toRat, ratio1, ratio0]
    norm_num
  · rw [abs_convert_rat _ _ _ h1]
    refine congrArg (fun w => some (AbsolutePhysicalUnit.mk ratio1 ratio0 absTempDims w)) ?_
    simp only [TempCelsius, Ratio.toRat, ratio1, ratio0]
    norm_num

/-! ## Points and differences -/

/-- C14, as amended. For integer affine quantities `a`, `b` of one type whose dimension
parameters are not all `std::ratio<0>`, `a - b` is a difference quantity of raw value
`a.raw - b.raw`, and `b + (a - b) == a` and `a - (a - b) == b`. -/
theorem point_minus_point (a b : AbsolutePhysicalUnit Int) (hF : a.Factor = b.Factor)
    (hO : a.Offset = b.Offset) (hd : a.dims = b.dims)
    (hdim : a.dims.diffDims ≠ Dims.zero) :
    ∃ d p q, AbsolutePhysicalUnit.operator_minus a b = some d ∧
      d.m_value = a.m_value - b.m_value ∧
      d.Factor = a.Factor ∧ d.dims = a.dims.diffDims ∧
      AbsolutePhysicalUnit.operator_plus b d = some p ∧
      AbsolutePhysicalUnit.operator_eq p a = some true ∧ p = a ∧
      AbsolutePhysicalUnit.operator_minus_diff a d = some q ∧
      AbsolutePhysicalUnit.operator_eq q b = some true ∧ q = b := by
  have hdiff : AbsolutePhysicalUnit.operator_minus a b = some (Instantiation.general
      ⟨a.Factor, a.dims.diffDims, a.m_value - b.m_value, hdim⟩) := by
    unfold AbsolutePhysicalUnit.operator_minus construct
    rw [if_pos ⟨hF, hO, hd⟩, dif_neg hdim]
    rfl
  have hp : AbsolutePhysicalUnit.operator_plus b (Instantiation.general
      ⟨a.Factor, a.dims.diffDims, a.m_value - b.m_value, hdim⟩) = some a := by
    show (if a.Factor = b.Factor ∧ a.dims.diffDims = b.dims.diffDims then _ else _) = _
    rw [if_pos ⟨hF, by rw [hd]⟩]
    cases a with
    | mk F O ds v =>
      simp only at hF hO hd
      subst hF; subst hO; subst hd
      show some (AbsolutePhysicalUnit.mk b.Factor b.Offset b.dims
        (b.m_value + (v - b.m_value))) = _
      rw [add_sub_cancel]
  have hq : AbsolutePhysicalUnit.operator_minus_diff a (Instantiation.general
      ⟨a.Factor, a.dims.diffDims, a.m_value - b.m_value, hdim⟩) = some b := by
    show (if a.Factor = a.Factor ∧ a.dims.diffDims = a.dims.diffDims then _ else _) = _
    rw [if_pos ⟨rfl, rfl⟩]
    cases b with
    | mk F O ds v =>
      simp only at hF hO hd
      subst hF; subst hO; subst hd
      show some (AbsolutePhysicalUnit.mk a.Factor a.Offset a.dims
        (a.m_value - (a.m_value - v))) = _
      rw [sub_sub_cancel]
  refine ⟨_, a, b, hdiff, rfl, rfl, rfl, hp, ?_, rfl, hq, ?_, rfl⟩
  · unfold AbsolutePhysicalUnit.operator_eq
    rw [abs_compareWith_same _ a a rfl rfl rfl]
    simp [ValType.eq]
  · unfold AbsolutePhysicalUnit.operator_eq
    rw [abs_compareWith_same _ b b rfl rfl rfl]
    simp [ValType.eq]

/-- C14 as amended, at the timestamps of the tests: 5000 s - 4856 s is 144 s, and
4856 s + 144 s is 5000 s. -/
theorem point_minus_point_witness :
    (TimeStampSeconds 5000).Factor = (TimeStampSeconds 4856).Factor ∧
    (TimeStampSeconds 5000).Offset = (TimeStampSeconds 4856).Offset ∧
    (TimeStampSeconds 5000).dims = (TimeStampSeconds 4856).dims ∧
    (TimeStampSeconds 5000).dims.diffDims ≠ Dims.zero ∧
    (∃ d p q,
      AbsolutePhysicalUnit.operator_minus (TimeStampSeconds 5000) (TimeStampSeconds 4856) =
        some d ∧
      d.m_value = (TimeStampSeconds 5000).m_value - (TimeStampSeconds 4856).m_value ∧
      d.Factor = (TimeStampSeconds 5000).Factor ∧
      d.dims = (TimeStampSeconds 5000).dims.diffDims ∧
      AbsolutePhysicalUnit.operator_plus (TimeStampSeconds 4856) d = some p ∧
      AbsolutePhysicalUnit.operator_eq p (TimeStampSeconds 5000) = some true ∧
      p = TimeStampSeconds 5000 ∧
      AbsolutePhysicalUnit.operator_minus_diff (TimeStampSeconds 5000) d = some q ∧
      AbsolutePhysicalUnit.operator_eq q (TimeStampSeconds 4856) = some true ∧
      q = TimeStampSeconds 4856) ∧
    AbsolutePhysicalUnit.operator_minus (TimeStampSeconds 5000) (TimeStampSeconds 4856) =
      some (Instantiation.general (Seconds 144)) ∧
    AbsolutePhysicalUnit.operator_plus (TimeStampSeconds 4856)
      (Instantiation.general (Seconds 144)) = some (TimeStampSeconds 5000) :=
  ⟨by decide, by decide, by decide, by decide,
    point_minus_point (TimeStampSeconds 5000) (TimeStampSeconds 4856) (by decide)
      (by decide) (by decide) (by decide),
    by decide, by decide⟩

/-- C14 as stated fails for an affine type without dimensions, `AbsolutePhysicalUnit<int>`:
the difference of 5000 and 4856 is an object of the dimensionless specialization (raw value
144), which has no `value()`, so neither `b + (a - b)` nor `a - (a - b)` yields a point. -/
theorem point_minus_point_counterexample :
    (PlainPoint 5000).Factor = (PlainPoint 4856).Factor ∧
    (PlainPoint 5000).Offset = (PlainPoint 4856).Offset ∧
    (PlainPoint 5000).dims = (PlainPoint 4856).dims ∧
    AbsolutePhysicalUnit.operator_minus (PlainPoint 5000) (PlainPoint 4856) =
      some (Instantiation.scalar ⟨ratio1, 144⟩) ∧
    AbsolutePhysicalUnit.operator_plus (PlainPoint 4856)
      (Instantiation.scalar ⟨ratio1, 144⟩) = none ∧
    AbsolutePhysicalUnit.operator_minus_diff (PlainPoint 5000)
      (Instantiation.scalar ⟨ratio1, 144⟩) = none ∧
    ¬ ∃ d p, AbsolutePhysicalUnit.operator_minus (PlainPoint 5000) (PlainPoint 4856) =
        some d ∧ AbsolutePhysicalUnit.operator_plus (PlainPoint 4856) d = some p := by
  have h1 : AbsolutePhysicalUnit.operator_minus (PlainPoint 5000) (PlainPoint 4856) =
      some (Instantiation.scalar ⟨ratio1, 144⟩) := by decide
  refine ⟨by decide, by decide, by decide, h1, rfl, rfl, ?_⟩
  rintro ⟨d, p, hd, hp⟩
  rw [h1] at hd
  cases hd
  cases hp

/-! ## Normalisation of angles -/

/-- The remainder of the truncating division by a positive number: smaller than the divisor
in magnitude, congruent to the dividend, and of the sign of the dividend. -/
theorem tmod_facts (x t : Int) (ht : 0 < t) :
    -t < Int.tmod x t ∧ Int.tmod x t < t ∧ t ∣ (Int.tmod x t - x) ∧
    (0 ≤ x → 0 ≤ Int.tmod x t) ∧ (x ≤ 0 → Int.tmod x t ≤ 0) := by
  have hdef : Int.tmod x t = x - t * Int.tdiv x t := Int.tmod_def x t
  obtain ⟨-, hlt⟩ := tdiv_toward_zero x t ht
  have habs : |Int.tmod x t| < t := by
    rw [hdef]
    have e : x - t * Int.tdiv x t = x - Int.tdiv x t * t := by ring
    rw [e]
    exact hlt
  rw [abs_lt] at habs
  refine ⟨habs.1, habs.2, ?_, fun hx => Int.tmod_nonneg t hx, ?_⟩
  · rw [hdef]
    exact ⟨-(Int.tdiv x t), by ring⟩
  · intro hx
    have h0 : 0 ≤ Int.tmod (-x) t := Int.tmod_nonneg t (by omega)
    have hneg : Int.tmod (-x) t = -Int.tmod x t := by
      rw [Int.tmod_def, Int.tmod_def, Int.neg_tdiv]
      ring
    omega

/-- A number in `[0, t)` that is congruent to `x` modulo `t` is the Euclidean remainder. -/
theorem eq_emod_of_range (x t v : Int) (h0 : 0 ≤ v) (h1 : v < t) (hdvd : t ∣ (v - x)) :
    v = x % t := by
  have h := (Int.emod_eq_emod_iff_emod_sub_eq_zero).mpr (Int.emod_eq_zero_of_dvd hdvd)
  rw [Int.emod_eq_of_lt h0 h1] at h
  exact h

/-- The ratio `fullCircle` of an angle type whose turn is the integer `turn`. -/
theorem fullCircle_of_turn (T : AngleType) (turn : Int)
    (hturn : (turn : ℚ) = 360 / T.Factor.toRat) :
    T.fullCircle.num = turn ∧ T.fullCircle.den = 1 := by
  obtain ⟨q, hq, hqr, -⟩ := ratio_divide_eq_some ratio1 T.Factor T.scaled
  have hget : (ratio_divide ratio1 T.Factor).get
      (ratio_divide_isSome ratio1 T.Factor T.scaled) = q := Option.get_of_mem _ hq
  have hrat : T.fullCircle.toRat = (turn : ℚ) := by
    have h360 : (Ratio.mk 360 1).toRat = 360 := by
      show ((360 : Int) : ℚ) / ((1 : Int) : ℚ) = 360
      norm_num
    unfold AngleType.fullCircle
    rw [hget, toRat_ratio_multiply, hqr, toRat_ratio1, hturn, h360]
    ring
  constructor
  · rw [Ratio.num_eq, hrat]
    exact Rat.intCast_num turn
  · rw [Ratio.den_eq, hrat, Rat.intCast_den turn]
    rfl

/-- The value `setValue` stores for an integer input, for an angle type of turn `turn`. -/
theorem setValue_int (T : AngleType) (turn : Int)
    (hturn : (turn : ℚ) = 360 / T.Factor.toRat) (x : Int) :
    AbsoluteAngle.setValue T x =
      if T.HalfInterval = true then
        (if Int.tdiv turn 2 ≤ Int.tmod x turn then Int.tmod x turn - turn
          else Int.tmod x turn)
      else (if Int.tmod x turn < 0 then Int.tmod x turn + turn else Int.tmod x turn) := by
  obtain ⟨hn, hd⟩ := fullCircle_of_turn T turn hturn
  have hfactor : (ValType.div (ValType.ofIntmax T.fullCircle.num : Int)
      (ValType.ofIntmax T.fullCircle.den)) = turn := by
    show Int.tdiv T.fullCircle.num T.fullCircle.den = turn
    rw [hn, hd]
    simp
  unfold AbsoluteAngle.setValue
  simp only [hfactor]
  cases hH : T.HalfInterval
  · simp only [Bool.false_and, Bool.not_false, Bool.true_and]
    show (if decide (Int.tmod x turn < 0) = true then Int.tmod x turn + turn
      else Int.tmod x turn) = _
    simp
  · simp only [Bool.true_and, Bool.not_true, Bool.false_and]
    show (if decide (Int.tmod x turn ≥ Int.tdiv turn 2) = true then Int.tmod x turn - turn
      else if false = true then Int.tmod x turn + turn else Int.tmod x turn) = _
    simp

/-- The value a full-interval angle type stores is the Euclidean remainder by the turn. -/
theorem setValue_full (T : AngleType) (hfull : T.HalfInterval = false) (turn : Int)
    (hpos : 0 < turn) (hturn : (turn : ℚ) = 360 / T.Factor.toRat) (x : Int) :
    AbsoluteAngle.setValue T x = x % turn := by
  rw [setValue_int T turn hturn x, hfull]
  obtain ⟨h1, h2, h3, -, -⟩ := tmod_facts x turn hpos
  simp only [Bool.false_eq_true, if_false]
  apply eq_emod_of_range
  · split_ifs <;> omega
  · split_ifs <;> omega
  · split_ifs with h
    · obtain ⟨c, hc⟩ := h3
      exact ⟨c + 1, by rw [mul_add, ← hc]; ring⟩
    · exact h3

/-- C15. For a full-interval integer angle type whose turn `360 / Factor` is the positive
integer `turn`, the value stored for the raw input `x` lies in `[0, turn)`, is congruent to
`x` modulo `turn`, is the only such number, and is the Euclidean remainder `x % turn`. -/
theorem setValue_full_interval (T : AngleType) (hfull : T.HalfInterval = false)
    (turn : Int) (hpos : 0 < turn) (hturn : (turn : ℚ) = 360 / T.Factor.toRat) (x : Int) :
    0 ≤ (AbsoluteAngle.ofValue T x).m_value ∧
    (AbsoluteAngle.ofValue T x).m_value < turn ∧
    turn ∣ ((AbsoluteAngle.ofValue T x).m_value - x) ∧
    (AbsoluteAngle.ofValue T x).m_value = x % turn ∧
    (∀ w : Int, 0 ≤ w → w < turn → turn ∣ (w - x) →
      w = (AbsoluteAngle.ofValue T x).m_value) := by
  have hv : (AbsoluteAngle.ofValue T x).m_value = x % turn :=
    setValue_full T hfull turn hpos hturn x
  rw [hv]
  refine ⟨Int.emod_nonneg x (ne_of_gt hpos), Int.emod_lt_of_pos x hpos, ?_, rfl, ?_⟩
  · exact ⟨-(x / turn), by have := Int.emod_add_ediv x turn; linarith⟩
  · intro w h0 h1 hdvd
    exact eq_emod_of_range x turn w h0 h1 hdvd

/-- C15, at degrees: 390 gives 30, -30 gives 330, 360 gives 0 and -270 gives 90. -/
theorem setValue_full_interval_witness :
    degreesFull.HalfInterval = false ∧ (0 : Int) < 360 ∧
    (((360 : Int) : ℚ) = 360 / degreesFull.Factor.toRat) ∧
    (0 ≤ (AbsoluteAngle.ofValue degreesFull (-30 : Int)).m_value ∧
    (AbsoluteAngle.ofValue degreesFull (-30 : Int)).m_value < 360 ∧
    (360 : Int) ∣ ((AbsoluteAngle.ofValue degreesFull (-30 : Int)).m_value - (-30)) ∧
    (AbsoluteAngle.ofValue degreesFull (-30 : Int)).m_value = (-30) % 360 ∧
    (∀ w : Int, 0 ≤ w → w < 360 → (360 : Int) ∣ (w - (-30)) →
      w = (AbsoluteAngle.ofValue degreesFull (-30 : Int)).m_value)) ∧
    (AbsoluteAngle.ofValue degreesFull (390 : Int)).m_value = 30 ∧
    (AbsoluteAngle.ofValue degreesFull (-30 : Int)).m_value = 330 ∧
    (AbsoluteAngle.ofValue degreesFull (360 : Int)).m_value = 0 ∧
    (AbsoluteAngle.ofValue degreesFull (-270 : Int)).m_value = 90 :=
  ⟨rfl, by decide, by simp [degreesFull, ratio1, Ratio.toRat],
    setValue_full_interval degreesFull rfl 360 (by decide)
      (by simp [degreesFull, ratio1, Ratio.toRat]) (-30),
    by decide, by decide, by decide, by decide⟩

/-- C16, the code at the failing input. A half-interval angle in degrees built from the
raw value -270 stores -270, which is below -180: `setValue` folds a remainder of at least
half a turn down by a turn, and has no branch that folds a remainder below minus half a
turn up. The inputs 270 and 180 give -90 and -180, as claimed; the number in
`[-180, 180)` that is congruent to -270 is 90. -/
theorem setValue_half_interval_gap :
    degreesHalf.HalfInterval = true ∧ degreesHalf.fullCircle = Ratio.mk 360 1 ∧
    (AbsoluteAngle.ofValue degreesHalf (-270 : Int)).m_value = -270 ∧
    ¬ (-(360 / 2) ≤ (AbsoluteAngle.ofValue degreesHalf (-270 : Int)).m_value) ∧
    (AbsoluteAngle.ofValue degreesHalf (-270 : Int)).m_value ≠ 90 ∧
    (AbsoluteAngle.ofValue degreesHalf (270 : Int)).m_value = -90 ∧
    (AbsoluteAngle.ofValue degreesHalf (180 : Int)).m_value = -180 ∧
    (AbsoluteAngle.ofValue degreesHalf (-181 : Int)).m_value = -181 := by
  decide

/-- C17, the code at the failing input. For a full-interval angle of 350 degrees and a
difference of 20 degrees, `operator+` and `operator-` yield no angle (their bodies name the
member function `value` without calling it), while `+=` and `-=` store the normalised
values 10 and 330. -/
theorem angle_plus_ill_formed :
    AbsoluteAngle.operator_plus (AbsoluteAngle.ofValue degreesFull (350 : Int))
      (AngleInDegrees 20) = none ∧
    AbsoluteAngle.operator_minus_diff (AbsoluteAngle.ofValue degreesFull (350 : Int))
      (AngleInDegrees 20) = none ∧
    AbsoluteAngle.plus_assign (AbsoluteAngle.ofValue degreesFull (350 : Int))
      (AngleInDegrees 20) = some ⟨degreesFull, 10⟩ ∧
    AbsoluteAngle.minus_assign (AbsoluteAngle.ofValue degreesFull (350 : Int))
      (AngleInDegrees 20) = some ⟨degreesFull, 330⟩ := by
  decide

/-- C18. Assigning a full-interval integer angle of raw value `s` in `[0, turn)` to a
half-interval angle of the same scale, the turn being positive and even, stores `s` when
`s < turn / 2` and `s - turn` otherwise; the stored value lies in `[-turn/2, turn/2)` and is
congruent to `s` modulo the turn. -/
theorem assign_full_to_half (self val : AbsoluteAngle Int)
    (hself : self.type.HalfInterval = true) (hval : val.type.HalfInterval = false)
    (hF : val.type.Factor = self.type.Factor) (turn : Int) (hpos : 0 < turn)
    (heven : 2 ∣ turn) (hturn : (turn : ℚ) = 360 / self.type.Factor.toRat)
    (h0 : 0 ≤ val.m_value) (h1 : val.m_value < turn) :
    ∃ r, AbsoluteAngle.assign self val = some r ∧ r.type = self.type ∧
      r.m_value = (if val.m_value < turn / 2 then val.m_value else val.m_value - turn) ∧
      -(turn / 2) ≤ r.m_value ∧ r.m_value < turn / 2 ∧
      turn ∣ (r.m_value - val.m_value) := by
  have hne : val.type ≠ self.type := by
    intro h
    rw [h, hself] at hval
    exact Bool.noConfusion hval
  have hassign : AbsoluteAngle.assign self val =
      some ⟨self.type, AbsoluteAngle.setValue self.type val.m_value⟩ := by
    unfold AbsoluteAngle.assign
    rw [if_neg hne, if_pos hF]
    rfl
  have htmod : Int.tmod val.m_value turn = val.m_value := Int.tmod_eq_of_lt h0 h1
  have hhalf : Int.tdiv turn 2 = turn / 2 :=
    Int.tdiv_eq_ediv (le_of_lt hpos) (by decide)
  have hset : AbsoluteAngle.setValue self.type val.m_value =
      (if val.m_value < turn / 2 then val.m_value else val.m_value - turn) := by
    rw [setValue_int self.type turn hturn val.m_value, hself, htmod, hhalf]
    simp only [if_true]
    by_cases h : val.m_value < turn / 2
    · rw [if_pos h, if_neg (by omega)]
    · rw [if_neg h, if_pos (by omega)]
  obtain ⟨k, hk⟩ := heven
  refine ⟨_, hassign, rfl, hset, ?_, ?_, ?_⟩
  · show -(turn / 2) ≤ AbsoluteAngle.setValue self.type val.m_value
    rw [hset]
    split_ifs <;> omega
  · show AbsoluteAngle.setValue self.type val.m_value < turn / 2
    rw [hset]
    split_ifs <;> omega
  · show turn ∣ (AbsoluteAngle.setValue self.type val.m_value - val.m_value)
    rw [hset]
    split_ifs
    · exact ⟨0, by ring⟩
    · exact ⟨-1, by ring⟩

/-- C18, at the assignments of the tests to a half-interval angle in degrees: the
full-interval angles built from 180, 270, 360, 390 and -270 hold 180, 270, 0, 30 and 90 and
are stored as -180, -90, 0, 30 and 90. -/
theorem assign_full_to_half_witness :
    degreesHalf.HalfInterval = true ∧ degreesFull.HalfInterval = false ∧
    degreesFull.Factor = degreesHalf.Factor ∧ (0 : Int) < 360 ∧ (2 : Int) ∣ 360 ∧
    (((360 : Int) : ℚ) = 360 / degreesHalf.Factor.toRat) ∧
    0 ≤ (AbsoluteAngle.ofValue degreesFull (270 : Int)).m_value ∧
    (AbsoluteAngle.ofValue degreesFull (270 : Int)).m_value < 360 ∧
    (∃ r, AbsoluteAngle.assign (AbsoluteAngle.ofValue degreesHalf (45 : Int))
        (AbsoluteAngle.ofValue degreesFull (270 : Int)) = some r ∧
      r.type = (AbsoluteAngle.ofValue degreesHalf (45 : Int)).type ∧
      r.m_value = (if (AbsoluteAngle.ofValue degreesFull (270 : Int)).m_value < 360 / 2
        then (AbsoluteAngle.ofValue degreesFull (270 : Int)).m_value
        else (AbsoluteAngle.ofValue degreesFull (270 : Int)).m_value - 360) ∧
      -(360 / 2) ≤ r.m_value ∧ r.m_value < 360 / 2 ∧
      (360 : Int) ∣ (r.m_value - (AbsoluteAngle.ofValue degreesFull (270 : Int)).m_value)) ∧
    AbsoluteAngle.assign (AbsoluteAngle.ofValue degreesHalf (45 : Int))
      (AbsoluteAngle.ofValue degreesFull (180 : Int)) = some ⟨degreesHalf, -180⟩ ∧
    AbsoluteAngle.assign (AbsoluteAngle.ofValue degreesHalf (45 : Int))
      (AbsoluteAngle.ofValue degreesFull (270 : Int)) = some ⟨degreesHalf, -90⟩ ∧
    AbsoluteAngle.assign (AbsoluteAngle.ofValue degreesHalf (45 : Int))
      (AbsoluteAngle.ofValue degreesFull (360 : Int)) = some ⟨degreesHalf, 0⟩ ∧
    AbsoluteAngle.assign (AbsoluteAngle.ofValue degreesHalf (45 : Int))
      (AbsoluteAngle.ofValue degreesFull (390 : Int)) = some ⟨degreesHalf, 30⟩ ∧
    AbsoluteAngle.assign (AbsoluteAngle.ofValue degreesHalf (45 : Int))
      (AbsoluteAngle.ofValue degreesFull (-270 : Int)) = some ⟨degreesHalf, 90⟩ :=
  ⟨rfl, rfl, rfl, by decide, by decide, by simp [degreesHalf, ratio1, Ratio.toRat],
    by decide, by decide,
    assign_full_to_half (AbsoluteAngle.ofValue degreesHalf (45 : Int))
      (AbsoluteAngle.ofValue degreesFull (270 : Int)) rfl rfl rfl 360 (by decide)
      (by decide) (by simp [AbsoluteAngle.ofValue, degreesHalf, ratio1, Ratio.toRat])
      (by decide) (by decide),
    by decide, by decide, by decide, by decide, by decide⟩

/-- C19. Constructing an integer angle of the type `T` (scale `G`, either interval kind)
from an angle of raw value `v` and scale `F` stores what constructing it from the raw value
`c = (v * n) / d` stores, that is the normalisation of `c` for `T`, where `n / d` is
`F / G` in lowest terms; 90 degrees become 5400 arc-minutes, and 270 degrees become -5400
arc-minutes in the half interval. -/
theorem angle_from_angle (T : AngleType) (val : AbsoluteAngle Int) :
    (∃ n d : Int, 0 < d ∧ Int.gcd n d = 1 ∧
      (n : ℚ) / (d : ℚ) = val.type.Factor.toRat / T.Factor.toRat ∧
      AbsoluteAngle.convert T val =
        AbsoluteAngle.ofValue T (Int.tdiv (val.m_value * n) d) ∧
      AbsoluteAngle.ofAngle T val =
        AbsoluteAngle.ofValue T (Int.tdiv (val.m_value * n) d) ∧
      (AbsoluteAngle.ofAngle T val).type = T ∧
      (AbsoluteAngle.ofAngle T val).m_value =
        AbsoluteAngle.setValue T (Int.tdiv (val.m_value * n) d)) ∧
    AbsoluteAngle.ofAngle minutesFull (AbsoluteAngle.ofValue degreesFull (90 : Int)) =
      ⟨minutesFull, 5400⟩ ∧
    AbsoluteAngle.ofAngle minutesHalf (AbsoluteAngle.ofValue degreesFull (270 : Int)) =
      ⟨minutesHalf, -5400⟩ := by
  refine ⟨?_, by decide, by decide⟩
  obtain ⟨q, hq, hqr, -⟩ := ratio_divide_eq_some val.type.Factor T.Factor T.scaled
  have hget : (ratio_divide val.type.Factor T.Factor).get
      (ratio_divide_isSome val.type.Factor T.Factor T.scaled) = q := Option.get_of_mem _ hq
  have hconv : AbsoluteAngle.convert T val =
      AbsoluteAngle.ofValue T (Int.tdiv (val.m_value * q.num) q.den) := by
    unfold AbsoluteAngle.convert AbsoluteAngle.ofValue
    rw [hget]
    rfl
  have hof : AbsoluteAngle.ofAngle T val =
      AbsoluteAngle.ofValue T (Int.tdiv (val.m_value * q.num) q.den) := by
    unfold AbsoluteAngle.ofAngle
    split_ifs with hsame
    · -- the copy constructor: one type, and `F / F` is `1 / 1`
      obtain ⟨q1, hq1, hn, hd⟩ := ratio_divide_self T.Factor T.scaled
      rw [hsame, hq1] at hq
      cases hq
      rw [hn, hd]
      unfold AbsoluteAngle.copy AbsoluteAngle.ofValue AbsoluteAngle.value
      rw [hsame]
      simp
    · exact hconv
  refine ⟨q.num, q.den, q.den_pos, q.coprime, ?_, hconv, hof, ?_, ?_⟩
  · rw [Ratio.num_div_den, hqr]
  · rw [hof]; rfl
  · rw [hof]; rfl

/-! ## The square-root table -/

/-- C20, the code at the failing inputs. The entries of `num_sqrt` for the keys 360 and
100000000 are 60 and 1000, whose squares are 3600 and 1000000; the entries for 0, 1, 100,
10000 and 1000000 are integer square roots. The scale of the square root of a quantity of
scale 360 is therefore 60, whose square is not 360. -/
theorem num_sqrt_table :
    num_sqrt 360 = some 60 ∧ (60 : Int) * 60 = 3600 ∧ (60 : Int) * 60 ≠ 360 ∧
    num_sqrt 100000000 = some 1000 ∧ (1000 : Int) * 1000 = 1000000 ∧
    (1000 : Int) * 1000 ≠ 100000000 ∧
    num_sqrt 0 = some 0 ∧ num_sqrt 1 = some 1 ∧ num_sqrt 100 = some 10 ∧
    num_sqrt 10000 = some 100 ∧ num_sqrt 1000000 = some 1000 ∧
    (0 : Int) * 0 = 0 ∧ (1 : Int) * 1 = 1 ∧ (10 : Int) * 10 = 100 ∧
    (100 : Int) * 100 = 10000 ∧ (1000 : Int) * 1000 = 1000000 ∧
    ratio_sqrt (Ratio.mk 360 1) = some (Ratio.mk 60 1) ∧
    ratio_sqrt (Ratio.mk 1 100000000) = some (Ratio.mk 1 1000) := by
  decide

/-! ## The cube-root table -/

/-- An entry of `num_cbrt` is an integer cube root of its key. -/
theorem num_cbrt_cube (n r : Int) (h : num_cbrt n = some r) : r ^ 3 = n := by
  unfold num_cbrt at h
  split_ifs at h with h0 h1 h2 h3 h4 h5 <;>
    (injection h with h; subst h; subst_vars; rfl)

/-- The members of `ratio_cbrt<R>` are the entries of `num_cbrt` for the members of `R`. -/
theorem ratio_cbrt_some (R Q : Ratio) (h : ratio_cbrt R = some Q) :
    num_cbrt R.num = some Q.N ∧ num_cbrt R.den = some Q.D := by
  unfold ratio_cbrt at h
  cases hn : num_cbrt R.num with
  | none => rw [hn] at h; simp at h
  | some n =>
    cases hd : num_cbrt R.den with
    | none => rw [hn, hd] at h; simp at h
    | some d =>
      rw [hn, hd] at h
      simp only at h
      split_ifs at h with h0
      injection h with h
      subst h
      exact ⟨rfl, rfl⟩

/-- C21. Every entry of the cube-root lookup is an integer cube root of its key: the
entries for 0, 1, 8, 27, 1000 and 1000000 are 0, 1, 2, 3, 10 and 100, and whenever
`num_cbrt` has an entry `r` for `n`, `r ^ 3 = n`. Hence when the scale `ratio_cbrt<R>` of
a cube root is defined, its numerator and denominator are the cube roots of `R::num` and
`R::den`, and its cube is `R` as a rational. -/
theorem num_cbrt_table (R Q : Ratio) (h : ratio_cbrt R = some Q) :
    (num_cbrt 0 = some 0 ∧ num_cbrt 1 = some 1 ∧ num_cbrt 8 = some 2 ∧
      num_cbrt 27 = some 3 ∧ num_cbrt 1000 = some 10 ∧ num_cbrt 1000000 = some 100) ∧
    ((0 : Int) ^ 3 = 0 ∧ (1 : Int) ^ 3 = 1 ∧ (2 : Int) ^ 3 = 8 ∧ (3 : Int) ^ 3 = 27 ∧
      (10 : Int) ^ 3 = 1000 ∧ (100 : Int) ^ 3 = 1000000) ∧
    (∀ n r : Int, num_cbrt n = some r → r ^ 3 = n) ∧
    num_cbrt R.num = some Q.N ∧ num_cbrt R.den = some Q.D ∧
    Q.N ^ 3 = R.num ∧ Q.D ^ 3 = R.den ∧ Q.toRat ^ 3 = R.toRat := by
  obtain ⟨hn, hd⟩ := ratio_cbrt_some R Q h
  have h1 := num_cbrt_cube _ _ hn
  have h2 := num_cbrt_cube _ _ hd
  refine ⟨by decide, by decide, num_cbrt_cube, hn, hd, h1, h2, ?_⟩
  rw [← R.num_div_den, ← h1, ← h2]
  simp only [Ratio.toRat]
  push_cast
  rw [div_pow]

/-- C21 at the scale of the cubic decimetre of `math_test.cpp`: the cube root of
`1 / 1000` is `1 / 10`. -/
theorem num_cbrt_table_witness :
    ratio_cbrt (Ratio.mk 1 1000) = some (Ratio.mk 1 10) ∧
    (Ratio.mk 1 10).N ^ 3 = (Ratio.mk 1 1000).num ∧
    (Ratio.mk 1 10).D ^ 3 = (Ratio.mk 1 1000).den ∧
    (Ratio.mk 1 10).toRat ^ 3 = (Ratio.mk 1 1000).toRat :=
  have h := num_cbrt_table (Ratio.mk 1 1000) (Ratio.mk 1 10) (by decide)
  ⟨by decide, h.2.2.2.2.2.1, h.2.2.2.2.2.2.1, h.2.2.2.2.2.2.2⟩

/-! ## Dimension vectors of roots -/

/-- The alias `ratio_divide<D, ratio<2>>` denotes `D / 2` and is in lowest terms. -/
theorem halfDim_spec (D : Ratio) :
    (halfDim D).toRat = D.toRat / 2 ∧ (halfDim D).type = halfDim D := by
  obtain ⟨q, hq, hrat, htype⟩ := ratio_divide_eq_some D ratio2 (by decide)
  have h1 : some (halfDim D) = some q := by
    rw [← hq]; exact Option.some_get _
  rw [Option.some.inj h1]
  refine ⟨?_, htype⟩
  rw [hrat]
  simp [ratio2, Ratio.toRat]

/-- The alias `ratio_divide<D, ratio<3>>` denotes `D / 3` and is in lowest terms. -/
theorem thirdDim_spec (D : Ratio) :
    (thirdDim D).toRat = D.toRat / 3 ∧ (thirdDim D).type = thirdDim D := by
  obtain ⟨q, hq, hrat, htype⟩ := ratio_divide_eq_some D ratio3 (by decide)
  have h1 : some (thirdDim D) = some q := by
    rw [← hq]; exact Option.some_get _
  rw [Option.some.inj h1]
  refine ⟨?_, htype⟩
  rw [hrat]
  simp [ratio3, Ratio.toRat]

/-- The square root of a quantity, unfolded. -/
theorem sqrt_eq {V : Type} (q : PhysicalUnit V) (r : Instantiation (Rooted V))
    (h : q.sqrt = some r) :
    ∃ F, ratio_sqrt q.Factor = some F ∧
      r = construct F (Dims.map halfDim q.dims) (Rooted.sqrt q.m_value) := by
  unfold PhysicalUnit.sqrt at h
  cases hF : ratio_sqrt q.Factor with
  | none => rw [hF] at h; simp at h
  | some F =>
    rw [hF] at h
    exact ⟨F, rfl, (Option.some.inj h).symm⟩

/-- The cube root of a quantity, unfolded. -/
theorem cbrt_eq {V : Type} (q : PhysicalUnit V) (r : Instantiation (Rooted V))
    (h : q.cbrt = some r) :
    ∃ F, ratio_cbrt q.Factor = some F ∧
      r = construct F (Dims.map thirdDim q.dims) (Rooted.cbrt q.m_value) := by
  unfold PhysicalUnit.cbrt at h
  cases hF : ratio_cbrt q.Factor with
  | none => rw [hF] at h; simp at h
  | some F =>
    rw [hF] at h
    exact ⟨F, rfl, (Option.some.inj h).symm⟩

/-- A root of a quantity is defined exactly when the root of its scale is. -/
theorem sqrt_isSome {V : Type} (q : PhysicalUnit V) :
    q.sqrt.isSome = (ratio_sqrt q.Factor).isSome := by
  unfold PhysicalUnit.sqrt
  cases ratio_sqrt q.Factor <;> rfl

theorem cbrt_isSome {V : Type} (q : PhysicalUnit V) :
    q.cbrt.isSome = (ratio_cbrt q.Factor).isSome := by
  unfold PhysicalUnit.cbrt
  cases ratio_cbrt q.Factor <;> rfl

/-- The dimension pack of a product that is an object of the primary template. -/
theorem operator_mul_dims {V : Type} [ValType V] (a b m : PhysicalUnit V)
    (h : operator_mul a b = Instantiation.general m) :
    m.dims = Dims.zipWith ratio_add a.dims b.dims ∧
    m.Factor = ratio_multiply a.Factor b.Factor := by
  have h1 := construct_dims (ratio_multiply a.Factor b.Factor)
    (Dims.zipWith ratio_add a.dims b.dims) (ValType.mul a.value b.value)
  have h2 := construct_Factor (ratio_multiply a.Factor b.Factor)
    (Dims.zipWith ratio_add a.dims b.dims) (ValType.mul a.value b.value)
  unfold operator_mul at h
  rw [h] at h1 h2
  exact ⟨h1, h2⟩

/-- C22, as amended. For every quantity `q` whose scale the lookup of the root supports
(the root is defined exactly then), `sqrt(q)` has in each of the eight positions the
exponent `ratio_divide<D, ratio<2>>`, which denotes `D / 2`, and `cbrt(q)` the exponent
`ratio_divide<D, ratio<3>>`, which denotes `D / 3`; hence whenever `a * a`, or
`a * a * a`, is a quantity with a dimension whose root is defined, `sqrt(a * a)` and
`cbrt(a * a * a)` have exactly the exponents of `a`, in lowest terms. -/
theorem root_dims {V : Type} [ValType V] (q a : PhysicalUnit V) :
    q.sqrt.isSome = (ratio_sqrt q.Factor).isSome ∧
    q.cbrt.isSome = (ratio_cbrt q.Factor).isSome ∧
    (∀ r, q.sqrt = some r → ∀ i : Fin 8,
      r.dims.get i = halfDim (q.dims.get i) ∧
      (r.dims.get i).toRat = (q.dims.get i).toRat / 2) ∧
    (∀ r, q.cbrt = some r → ∀ i : Fin 8,
      r.dims.get i = thirdDim (q.dims.get i) ∧
      (r.dims.get i).toRat = (q.dims.get i).toRat / 3) ∧
    (∀ m r, operator_mul a a = Instantiation.general m → m.sqrt = some r →
      ∀ i : Fin 8, (r.dims.get i).toRat = (a.dims.get i).toRat ∧
        r.dims.get i = (a.dims.get i).type) ∧
    (∀ m c r, operator_mul a a = Instantiation.general m →
      operator_mul m a = Instantiation.general c → c.cbrt = some r →
      ∀ i : Fin 8, (r.dims.get i).toRat = (a.dims.get i).toRat ∧
        r.dims.get i = (a.dims.get i).type) := by
  refine ⟨sqrt_isSome q, cbrt_isSome q, ?_, ?_, ?_, ?_⟩
  · intro r hr i
    obtain ⟨F, -, rfl⟩ := sqrt_eq q r hr
    rw [construct_dims, get_map]
    exact ⟨rfl, (halfDim_spec _).1⟩
  · intro r hr i
    obtain ⟨F, -, rfl⟩ := cbrt_eq q r hr
    rw [construct_dims, get_map]
    exact ⟨rfl, (thirdDim_spec _).1⟩
  · intro m r hm hr i
    obtain ⟨F, -, rfl⟩ := sqrt_eq m r hr
    rw [construct_dims, get_map, (operator_mul_dims a a m hm).1, get_zipWith]
    have hrat : (halfDim (ratio_add (a.dims.get i) (a.dims.get i))).toRat =
        (a.dims.get i).toRat := by
      rw [(halfDim_spec _).1, toRat_ratio_add]; ring
    refine ⟨hrat, ?_⟩
    rw [← (halfDim_spec _).2]
    exact Ratio.type_eq_of_toRat_eq hrat
  · intro m c r hm hc hr i
    obtain ⟨F, -, rfl⟩ := cbrt_eq c r hr
    rw [construct_dims, get_map, (operator_mul_dims m a c hc).1, get_zipWith,
      (operator_mul_dims a a m hm).1, get_zipWith]
    have hrat : (thirdDim (ratio_add (ratio_add (a.dims.get i) (a.dims.get i))
        (a.dims.get i))).toRat = (a.dims.get i).toRat := by
      rw [(thirdDim_spec _).1, toRat_ratio_add, toRat_ratio_add]; ring
    refine ⟨hrat, ?_⟩
    rw [← (thirdDim_spec _).2]
    exact Ratio.type_eq_of_toRat_eq hrat

/-- C22, as amended, on the types of `math_test.cpp`: the square root of `MeterSquared(49)`
and the cube root of `MeterCubed(343)` are lengths, both being powers of `Meter(7)`. -/
theorem root_dims_witness :
    (MeterSquared 49).sqrt =
      some (Instantiation.general ⟨ratio1, lengthDims, Rooted.sqrt 49, by decide⟩) ∧
    (∀ i : Fin 8, lengthDims.get i = halfDim (areaDims.get i) ∧
      (lengthDims.get i).toRat = (areaDims.get i).toRat / 2) ∧
    operator_mul (Meter 7) (Meter 7) = Instantiation.general (MeterSquared 49) ∧
    operator_mul (MeterSquared 49) (Meter 7) = Instantiation.general (MeterCubed 343) ∧
    (MeterCubed 343).cbrt =
      some (Instantiation.general ⟨ratio1, lengthDims, Rooted.cbrt 343, by decide⟩) ∧
    (∀ i : Fin 8, (lengthDims.get i).toRat = ((Meter 7).dims.get i).toRat ∧
      lengthDims.get i = ((Meter 7).dims.get i).type) :=
  ⟨by decide,
    (root_dims (MeterSquared 49) (Meter 7)).2.2.1
      (Instantiation.general ⟨ratio1, lengthDims, Rooted.sqrt 49, by decide⟩) (by decide),
    by decide, by decide, by decide,
    (root_dims (MeterSquared 49) (Meter 7)).2.2.2.2.2 (MeterSquared 49) (MeterCubed 343)
      (Instantiation.general ⟨ratio1, lengthDims, Rooted.cbrt 343, by decide⟩)
      (by decide) (by decide) (by decide)⟩

/-- C22 as stated fails: an angle in arc-minutes, of scale `1 / 60`, has neither a square
root nor a cube root, 60 being no key of either lookup, and neither has its square, of
scale `1 / 3600`, nor its cube, of scale `1 / 216000`; no dimension vector results. -/
theorem root_dims_counterexample :
    (AngleInMinutes 4).sqrt = none ∧ (AngleInMinutes 4).cbrt = none ∧
    (∃ m, operator_mul (AngleInMinutes 4) (AngleInMinutes 4) = Instantiation.general m ∧
      m.Factor = Ratio.mk 1 3600 ∧ m.sqrt = none ∧
      ∃ c, operator_mul m (AngleInMinutes 4) = Instantiation.general c ∧
        c.Factor = Ratio.mk 1 216000 ∧ c.cbrt = none) := by
  refine ⟨by decide, by decide,
    ⟨Ratio.mk 1 3600, ⟨ratio0, ratio0, ratio0, ratio0, ratio0, ratio0, ratio0, Ratio.mk 2 1⟩,
      16, by decide⟩, by decide, rfl, by decide,
    ⟨Ratio.mk 1 216000,
      ⟨ratio0, ratio0, ratio0, ratio0, ratio0, ratio0, ratio0, Ratio.mk 3 1⟩, 64, by decide⟩,
    by decide, rfl, by decide⟩

/-! ## The scale of the root of a square -/

/-- The square of a scale has the squares of its members as members: they have no
common factor. -/
theorem ratio_multiply_self (F : Ratio) :
    (ratio_multiply F F).num = F.num * F.num ∧ (ratio_multiply F F).den = F.den * F.den := by
  have hpos : 0 < F.den * F.den := mul_pos F.den_pos F.den_pos
  have hco : Nat.Coprime (F.num * F.num).natAbs (F.den * F.den).natAbs := by
    rw [Int.natAbs_mul, Int.natAbs_mul]
    exact Nat.Coprime.mul (Nat.Coprime.mul_right F.coprime F.coprime)
      (Nat.Coprime.mul_right F.coprime F.coprime)
  have hrat : (ratio_multiply F F).toRat =
      ((F.num * F.num : Int) : ℚ) / ((F.den * F.den : Int) : ℚ) := by
    rw [toRat_ratio_multiply, ← F.num_div_den]
    push_cast
    rw [div_mul_div_comm]
  constructor
  · rw [Ratio.num_eq, hrat]
    exact Rat.num_div_eq_of_coprime hpos hco
  · rw [Ratio.den_eq, hrat]
    exact Rat.den_div_eq_of_coprime hpos hco

/-- The entry of `num_sqrt` for the square of a non-negative number, when that square is
a key other than 100000000, is the number. -/
theorem num_sqrt_sq (p : Int) (hp : 0 ≤ p)
    (hk : p * p ∈ [(0 : Int), 1, 100, 360, 10000, 1000000]) : num_sqrt (p * p) = some p := by
  have key : ∀ c : Int, 0 ≤ c → p * p = c * c → p = c := by
    intro c hc h
    have h0 : (p - c) * (p + c) = 0 := by linear_combination h
    rcases mul_eq_zero.mp h0 with h1 | h1 <;> omega
  simp only [List.mem_cons, List.mem_singleton, List.not_mem_nil, or_false] at hk
  rcases hk with h | h | h | h | h | h
  · have := key 0 (by decide) (by rw [h]; rfl); subst this; rfl
  · have := key 1 (by decide) (by rw [h]; rfl); subst this; rfl
  · have := key 10 (by decide) (by rw [h]; rfl); subst this; rfl
  · exfalso
    rcases le_or_lt p 18 with h1 | h1
    · nlinarith
    · nlinarith
  · have := key 100 (by decide) (by rw [h]; rfl); subst this; rfl
  · have := key 1000 (by decide) (by rw [h]; rfl); subst this; rfl

/-- C23, as amended. For every quantity `a` with a non-negative scale `F`, with `a * a` a
quantity with a dimension, such that the numerator and the denominator of `F * F` in
lowest terms are both keys of the square-root lookup other than 100000000,
`sqrt(a * a)` is defined and has scale exactly `F`: the type `ratio<F::num, F::den>`,
which denotes `F`. -/
theorem sqrt_square_scale {V : Type} [ValType V] (a m : PhysicalUnit V)
    (hm : operator_mul a a = Instantiation.general m)
    (hF : 0 ≤ a.Factor.num)
    (hn : (ratio_multiply a.Factor a.Factor).num ∈ [(0 : Int), 1, 100, 360, 10000, 1000000])
    (hd : (ratio_multiply a.Factor a.Factor).den ∈ [(0 : Int), 1, 100, 360, 10000, 1000000]) :
    ∃ r, m.sqrt = some r ∧ r.Factor = a.Factor.type ∧ r.Factor.toRat = a.Factor.toRat := by
  obtain ⟨h1, h2⟩ := ratio_multiply_self a.Factor
  rw [h1] at hn
  rw [h2] at hd
  have hsn := num_sqrt_sq _ hF hn
  have hsd := num_sqrt_sq _ (le_of_lt a.Factor.den_pos) hd
  have hs : ratio_sqrt m.Factor = some a.Factor.type := by
    rw [(operator_mul_dims a a m hm).2]
    unfold ratio_sqrt
    rw [h1, h2, hsn, hsd]
    simp only
    rw [dif_neg (ne_of_gt a.Factor.den_pos)]
    rfl
  refine ⟨construct a.Factor.type (Dims.map halfDim m.dims) (Rooted.sqrt m.value), ?_, ?_, ?_⟩
  · unfold PhysicalUnit.sqrt
    rw [hs]
  · rw [construct_Factor]
  · rw [construct_Factor, Ratio.toRat_type]

/-- C23, as amended, on the types of `math_test.cpp`: `sqrt(DeciMeter(3) * DeciMeter(3))`
has scale `1 / 10`, and `sqrt(Meter(7) * Meter(7))` scale 1. -/
theorem sqrt_square_scale_witness :
    (∃ r, (DeciMeterSquared 9).sqrt = some r ∧ r.Factor = (DeciMeter 3).Factor.type ∧
      r.Factor.toRat = (DeciMeter 3).Factor.toRat) ∧
    (DeciMeter 3).Factor.type = Ratio.mk 1 10 ∧
    (∃ r, (MeterSquared 49).sqrt = some r ∧ r.Factor = (Meter 7).Factor.type ∧
      r.Factor.toRat = (Meter 7).Factor.toRat) ∧
    (Meter 7).Factor.type = Ratio.mk 1 1 :=
  ⟨sqrt_square_scale (DeciMeter 3) (DeciMeterSquared 9) (by decide) (by decide) (by decide)
      (by decide),
    by decide,
    sqrt_square_scale (Meter 7) (MeterSquared 49) (by decide) (by decide) (by decide)
      (by decide),
    by decide⟩

/-- C23 as stated fails for a negative scale: for a length of scale `-10` the square has
scale `100 / 1`, both members keys of the lookup, and its square root has scale `10`. -/
theorem sqrt_square_scale_counterexample :
    (ratio_multiply (NegScaleLength 3).Factor (NegScaleLength 3).Factor).num = 100 ∧
    (ratio_multiply (NegScaleLength 3).Factor (NegScaleLength 3).Factor).den = 1 ∧
    num_sqrt 100 = some 10 ∧ num_sqrt 1 = some 1 ∧
    (∃ m r, operator_mul (NegScaleLength 3) (NegScaleLength 3) = Instantiation.general m ∧
      m.sqrt = some r ∧ r.Factor = Ratio.mk 10 1 ∧ r.dims = lengthDims ∧
      r.Factor.num = 10 ∧ (NegScaleLength 3).Factor.num = -10 ∧
      r.Factor.toRat ≠ (NegScaleLength 3).Factor.toRat) := by
  refine ⟨by decide, by decide, by decide, by decide,
    ⟨Ratio.mk 100 1, areaDims, 9, by decide⟩,
    Instantiation.general ⟨Ratio.mk 10 1, lengthDims, Rooted.sqrt 9, by decide⟩,
    by decide, by decide, rfl, rfl, by decide, by decide, ?_⟩
  show (Ratio.mk 10 1).toRat ≠ (Ratio.mk (-10) 1).toRat
  simp only [Ratio.toRat]
  norm_num

/-! ## Which scales have a root -/

/-- The keys of `num_sqrt`. -/
theorem num_sqrt_isSome (n : Int) :
    (num_sqrt n).isSome = true ↔
      n ∈ [(0 : Int), 1, 100, 360, 10000, 1000000, 100000000] := by
  unfold num_sqrt
  simp only [List.mem_cons, List.mem_singleton, List.not_mem_nil, or_false]
  split_ifs <;> simp [*]

/-- The keys of `num_cbrt`. -/
theorem num_cbrt_isSome (n : Int) :
    (num_cbrt n).isSome = true ↔ n ∈ [(0 : Int), 1, 8, 27, 1000, 1000000] := by
  unfold num_cbrt
  simp only [List.mem_cons, List.mem_singleton, List.not_mem_nil, or_false]
  split_ifs <;> simp [*]

/-- Only the key 0 has the entry 0 in `num_sqrt`. -/
theorem num_sqrt_zero (n : Int) (h : num_sqrt n = some 0) : n = 0 := by
  unfold num_sqrt at h
  split_ifs at h with h0 <;> first | exact h0 | simp at h

/-- Only the key 0 has the entry 0 in `num_cbrt`. -/
theorem num_cbrt_zero (n : Int) (h : num_cbrt n = some 0) : n = 0 := by
  unfold num_cbrt at h
  split_ifs at h with h0 <;> first | exact h0 | simp at h

/-- The alias `ratio_sqrt<R>` is well-formed exactly when `num_sqrt` has a member `value`
for both members of `R`: the denominator it names is then not zero. -/
theorem ratio_sqrt_isSome (R : Ratio) :
    (ratio_sqrt R).isSome = true ↔
      ((num_sqrt R.num).isSome = true ∧ (num_sqrt R.den).isSome = true) := by
  unfold ratio_sqrt
  cases hn : num_sqrt R.num with
  | none => simp
  | some n =>
    cases hd : num_sqrt R.den with
    | none => simp
    | some d =>
      have hd0 : d ≠ 0 := by
        intro h0
        rw [h0] at hd
        exact absurd (num_sqrt_zero _ hd) (ne_of_gt R.den_pos)
      simp [hd0]

/-- The alias `ratio_cbrt<R>` is well-formed exactly when `num_cbrt` has a member `value`
for both members of `R`. -/
theorem ratio_cbrt_isSome (R : Ratio) :
    (ratio_cbrt R).isSome = true ↔
      ((num_cbrt R.num).isSome = true ∧ (num_cbrt R.den).isSome = true) := by
  unfold ratio_cbrt
  cases hn : num_cbrt R.num with
  | none => simp
  | some n =>
    cases hd : num_cbrt R.den with
    | none => simp
    | some d =>
      have hd0 : d ≠ 0 := by
        intro h0
        rw [h0] at hd
        exact absurd (num_cbrt_zero _ hd) (ne_of_gt R.den_pos)
      simp [hd0]

/-- C24, as amended. The scale `ratio_sqrt<R>` of a square root is defined if and only if
both `R::num` and `R::den` are keys of the square-root lookup (cube root: of the cube-root
lookup), and for a quantity with a dimension `std::sqrt(q)` (`std::cbrt(q)`) is accepted
exactly then and rejected for any other scale. A dimensionless quantity is not given to
the lookup: it converts to its bare number, and the numeric root of that number is taken
whatever the scale when the raw type is a floating-point type. -/
theorem root_scale_defined {V : Type} [ValType V] (R : Ratio) (q : PhysicalUnit V)
    (s : Dimensionless V) :
    ((ratio_sqrt R).isSome = true ↔
      (R.num ∈ [(0 : Int), 1, 100, 360, 10000, 1000000, 100000000] ∧
        R.den ∈ [(0 : Int), 1, 100, 360, 10000, 1000000, 100000000])) ∧
    ((ratio_cbrt R).isSome = true ↔
      (R.num ∈ [(0 : Int), 1, 8, 27, 1000, 1000000] ∧
        R.den ∈ [(0 : Int), 1, 8, 27, 1000, 1000000])) ∧
    ((sqrtExpr (Instantiation.general q)).isSome = true ↔
      (q.Factor.num ∈ [(0 : Int), 1, 100, 360, 10000, 1000000, 100000000] ∧
        q.Factor.den ∈ [(0 : Int), 1, 100, 360, 10000, 1000000, 100000000])) ∧
    ((cbrtExpr (Instantiation.general q)).isSome = true ↔
      (q.Factor.num ∈ [(0 : Int), 1, 8, 27, 1000, 1000000] ∧
        q.Factor.den ∈ [(0 : Int), 1, 8, 27, 1000, 1000000])) ∧
    (sqrtExpr (Instantiation.general q) = none ↔
      ¬ (q.Factor.num ∈ [(0 : Int), 1, 100, 360, 10000, 1000000, 100000000] ∧
        q.Factor.den ∈ [(0 : Int), 1, 100, 360, 10000, 1000000, 100000000])) ∧
    (cbrtExpr (Instantiation.general q) = none ↔
      ¬ (q.Factor.num ∈ [(0 : Int), 1, 8, 27, 1000, 1000000] ∧
        q.Factor.den ∈ [(0 : Int), 1, 8, 27, 1000, 1000000])) ∧
    sqrtExpr (Instantiation.scalar s) =
      (if ValType.floating V then some (Sum.inr (Rooted.sqrt s.toValType)) else none) ∧
    cbrtExpr (Instantiation.scalar s) =
      (if ValType.floating V then some (Sum.inr (Rooted.cbrt s.toValType)) else none) := by
  have h2 : ∀ R : Ratio, (ratio_sqrt R).isSome = true ↔
      (R.num ∈ [(0 : Int), 1, 100, 360, 10000, 1000000, 100000000] ∧
        R.den ∈ [(0 : Int), 1, 100, 360, 10000, 1000000, 100000000]) := by
    intro R
    rw [ratio_sqrt_isSome, num_sqrt_isSome, num_sqrt_isSome]
  have h3 : ∀ R : Ratio, (ratio_cbrt R).isSome = true ↔
      (R.num ∈ [(0 : Int), 1, 8, 27, 1000, 1000000] ∧
        R.den ∈ [(0 : Int), 1, 8, 27, 1000, 1000000]) := by
    intro R
    rw [ratio_cbrt_isSome, num_cbrt_isSome, num_cbrt_isSome]
  have e2 : (sqrtExpr (Instantiation.general q)).isSome = (ratio_sqrt q.Factor).isSome := by
    rw [← sqrt_isSome]
    show (q.sqrt.map Sum.inl).isSome = q.sqrt.isSome
    cases q.sqrt <;> rfl
  have e3 : (cbrtExpr (Instantiation.general q)).isSome = (ratio_cbrt q.Factor).isSome := by
    rw [← cbrt_isSome]
    show (q.cbrt.map Sum.inl).isSome = q.cbrt.isSome
    cases q.cbrt <;> rfl
  refine ⟨h2 R, h3 R, ?_, ?_, ?_, ?_, rfl, rfl⟩
  · rw [e2]; exact h2 _
  · rw [e3]; exact h3 _
  · rw [← h2, ← e2]
    cases sqrtExpr (Instantiation.general q) <;> simp
  · rw [← h3, ← e3]
    cases cbrtExpr (Instantiation.general q) <;> simp

/-- C24, as amended, on the types of the tests: a squared decimetre, of scale `1 / 100`,
has a square root and no cube root, and an angle in arc-minutes, of scale `1 / 60`, has
neither. -/
theorem root_scale_defined_witness :
    ((ratio_sqrt (Ratio.mk 1 100)).isSome = true ↔
      ((Ratio.mk 1 100).num ∈ [(0 : Int), 1, 100, 360, 10000, 1000000, 100000000] ∧
        (Ratio.mk 1 100).den ∈ [(0 : Int), 1, 100, 360, 10000, 1000000, 100000000])) ∧
    (sqrtExpr (Instantiation.general (DeciMeterSquared 9))).isSome = true ∧
    cbrtExpr (Instantiation.general (DeciMeterSquared 9)) = none ∧
    sqrtExpr (Instantiation.general (AngleInMinutes 4)) = none ∧
    cbrtExpr (Instantiation.general (AngleInMinutes 4)) = none :=
  ⟨(root_scale_defined (Ratio.mk 1 100) (DeciMeterSquared 9) ⟨ratio1, 2⟩).1,
    by decide, by decide, by decide, by decide⟩

/-- C24 as stated fails for a dimensionless quantity: with raw type `double` (modelled by
exact rationals) and scale `1 / 60`, which has no root in either lookup, `std::sqrt` and
`std::cbrt` of the quantity `15` are accepted and are the numeric roots of the bare number
`15 * 1 / 60 = 1 / 4`. -/
theorem root_scale_defined_counterexample :
    ratio_sqrt (Ratio.mk 1 60) = none ∧ ratio_cbrt (Ratio.mk 1 60) = none ∧
    (60 : Int) ∉ [(0 : Int), 1, 100, 360, 10000, 1000000, 100000000] ∧
    (60 : Int) ∉ [(0 : Int), 1, 8, 27, 1000, 1000000] ∧
    sqrtExpr (construct (Ratio.mk 1 60) Dims.zero (15 : ℚ)) =
      some (Sum.inr (Rooted.sqrt ((1 : ℚ) / 4))) ∧
    cbrtExpr (construct (Ratio.mk 1 60) Dims.zero (15 : ℚ)) =
      some (Sum.inr (Rooted.cbrt ((1 : ℚ) / 4))) := by
  have hv : Dimensionless.toValType (⟨Ratio.mk 1 60, 15⟩ : Dimensionless ℚ) = (1 : ℚ) / 4 := by
    have hn : (Ratio.mk 1 60).num = 1 := by decide
    have hd : (Ratio.mk 1 60).den = 60 := by decide
    show (15 : ℚ) * (((Ratio.mk 1 60).num : Int) : ℚ) / (((Ratio.mk 1 60).den : Int) : ℚ) = 1 / 4
    rw [hn, hd]
    norm_num
  refine ⟨by decide, by decide, by decide, by decide, ?_, ?_⟩
  · show some (Sum.inr (Rooted.sqrt
      (Dimensionless.toValType (⟨Ratio.mk 1 60, 15⟩ : Dimensionless ℚ)))) = _
    rw [hv]
  · show some (Sum.inr (Rooted.cbrt
      (Dimensionless.toValType (⟨Ratio.mk 1 60, 15⟩ : Dimensionless ℚ)))) = _
    rw [hv]

/-! ## Formatting of dimensions and scales -/

/-- C25, the code at the failing inputs. For length 1 and mass 1 the suffix is `mkg`, with
no space before the second symbol: a space is written only after a symbol that has an
exponent other than 1 (`m^2 kg`, but `mkg^2 s`). For an exponent with a denominator other
than 1 line 81 has no defined result. Length 2 gives `m^2`, and the volt pack `V`. -/
theorem dim_to_string_spacing :
    dim_to_string 0 false (MeterKilogram 3).dims.toList = some "mkg" ∧
    dim_to_string 0 false (MeterKilogram 3).dims.toList ≠ some "m kg" ∧
    (MeterKilogram 3).to_string = some "3mkg" ∧
    dim_to_string 0 false areaDims.toList = some "m^2" ∧
    dim_to_string 0 false
      [Ratio.mk 2 1, ratio1, ratio0, ratio0, ratio0, ratio0, ratio0, ratio0] =
        some "m^2 kg" ∧
    dim_to_string 0 false
      [ratio1, Ratio.mk 2 1, ratio1, ratio0, ratio0, ratio0, ratio0, ratio0] =
        some "mkg^2 s" ∧
    dim_to_string 0 false
      [Ratio.mk 1 2, ratio0, ratio0, ratio0, ratio0, ratio0, ratio0, ratio0] = none ∧
    dim_to_string 0 false voltDims = some "V" := by
  decide

/-- C26, the code at the failing input. A millisecond timestamp (scale `1 / 1000`, offset
0) is formatted with the text `0/1` of its offset where the scaled quantity of the same
scale has the letter `m`, and so is a timestamp in seconds, of scale 1; for every affine
quantity the text between the value and the suffix is `unit_prefix` of the offset. -/
theorem abs_to_string_offset :
    (TimeStampMilliSeconds 5).to_string = some "50/1s" ∧
    (MilliSeconds 5).to_string = some "5ms" ∧
    (TimeStampMilliSeconds 5).Factor = (MilliSeconds 5).Factor ∧
    unit_prefix (TimeStampMilliSeconds 5).Factor = "m" ∧
    unit_prefix (TimeStampMilliSeconds 5).Offset = "0/1" ∧
    (TimeStampSeconds 5).to_string = some "50/1s" ∧
    (Seconds (5 : Int)).to_string = some "5s" ∧
    (∀ val : AbsolutePhysicalUnit Int, val.to_string =
      (dim_to_string 0 false val.dims.toList).map (fun suffix =>
        toString val.value ++ unit_prefix val.Offset ++ suffix)) := by
  refine ⟨by decide, by decide, by decide, by decide, by decide, by decide, by decide, ?_⟩
  intro val
  rfl

/-! ## The duration bridge, there and back -/

/-- C27. For every pure-time quantity `q` with raw `r` and scale `P`, `duration_cast(q)`
is the duration with count `r` and period `P`; `unit_cast` of a duration with count `c`
and period `P` is the pure-time quantity with raw `c` and scale `P`;
`unit_cast(duration_cast(q))` is `q` and compares equal to it (for a raw type whose `==`
is reflexive), and `duration_cast(unit_cast(d))` is `d`. -/
theorem duration_bridge {V : Type} [ValType V] (q : PhysicalUnit V) (d : duration V)
    (hq : q.dims = timeDims) (hrefl : ∀ v : V, ValType.eq v v = true) :
    duration_cast q = some ⟨q.Factor, q.m_value⟩ ∧
    (d.unit_cast.Factor = d.Period ∧ d.unit_cast.dims = timeDims ∧
      d.unit_cast.m_value = d.count) ∧
    (∃ c, duration_cast q = some c ∧ c.unit_cast = q ∧
      operator_eq c.unit_cast q = some true) ∧
    duration_cast d.unit_cast = some d := by
  have h1 : duration_cast q = some ⟨q.Factor, q.m_value⟩ := by
    unfold duration_cast
    rw [if_pos hq]
    rfl
  have h2 : (duration.mk q.Factor q.m_value).unit_cast = q := by
    cases q with
    | mk F D v g =>
      simp only at hq
      subst hq
      rfl
  refine ⟨h1, ⟨rfl, rfl, rfl⟩, ⟨_, h1, h2, ?_⟩, ?_⟩
  · rw [h2]
    unfold operator_eq
    rw [compareWith_same _ q q rfl rfl]
    exact congrArg some (hrefl _)
  · unfold duration_cast
    have hd : d.unit_cast.dims = timeDims := rfl
    rw [if_pos hd]
    rfl

/-- C27 on the types of `chrono_test.cpp`: one second, there and back. -/
theorem duration_bridge_witness :
    (Seconds (1 : Int)).dims = timeDims ∧
    duration_cast (Seconds (1 : Int)) = some ⟨ratio1, 1⟩ ∧
    (duration.mk ratio1 (1 : Int)).unit_cast = Seconds 1 ∧
    (∃ c, duration_cast (Seconds (1 : Int)) = some c ∧ c.unit_cast = Seconds 1 ∧
      operator_eq c.unit_cast (Seconds 1) = some true) ∧
    duration_cast (duration.mk ratio1 (1 : Int)).unit_cast = some ⟨ratio1, 1⟩ :=
  have h := duration_bridge (Seconds (1 : Int)) ⟨ratio1, 1⟩ rfl (fun v => decide_eq_true rfl)
  ⟨rfl, h.1, by decide, h.2.2.1, h.2.2.2⟩

/-! ## Conversions along a chain -/

/-- C28. Over exact rationals, for a point `x` and two affine types `B` and `C` of its
dimension with non-zero scales, converting `x` to `B` and then to `C` gives the point that
converting `x` directly to `C` gives, and each conversion preserves the absolute value
`raw * Scale + Offset`. -/
theorem abs_convert_path_independent (x : AbsolutePhysicalUnit ℚ) (FB OB FC OC : Ratio)
    (hB : FB.num ≠ 0) (hC : FC.num ≠ 0) :
    ∃ b c, AbsolutePhysicalUnit.convert FB OB x = some b ∧
      AbsolutePhysicalUnit.convert FC OC b = some c ∧
      AbsolutePhysicalUnit.convert FC OC x = some c ∧
      b.m_value * FB.toRat + OB.toRat = x.m_value * x.Factor.toRat + x.Offset.toRat ∧
      c.m_value * FC.toRat + OC.toRat = x.m_value * x.Factor.toRat + x.Offset.toRat := by
  have hB0 : FB.toRat ≠ 0 := fun h => hB ((Ratio.num_eq_zero_iff FB).mpr h)
  have hC0 : FC.toRat ≠ 0 := fun h => hC ((Ratio.num_eq_zero_iff FC).mpr h)
  have h1 := abs_convert_rat x FB OB hB
  have h2 := abs_convert_rat (⟨FB, OB, x.dims,
    x.m_value * (x.Factor.toRat / FB.toRat) + (x.Offset.toRat - OB.toRat) / FB.toRat⟩ :
      AbsolutePhysicalUnit ℚ) FC OC hC
  have h3 := abs_convert_rat x FC OC hC
  have hval : (x.m_value * (x.Factor.toRat / FB.toRat) +
      (x.Offset.toRat - OB.toRat) / FB.toRat) * (FB.toRat / FC.toRat) +
      (OB.toRat - OC.toRat) / FC.toRat =
      x.m_value * (x.Factor.toRat / FC.toRat) + (x.Offset.toRat - OC.toRat) / FC.toRat := by
    field_simp
    ring
  refine ⟨_, _, h1, h2, ?_, ?_, ?_⟩
  · rw [h3]
    exact congrArg (fun w => some (AbsolutePhysicalUnit.mk FC OC x.dims w)) hval.symm
  · show (x.m_value * (x.Factor.toRat / FB.toRat) +
      (x.Offset.toRat - OB.toRat) / FB.toRat) * FB.toRat + OB.toRat = _
    field_simp
    ring
  · show ((x.m_value * (x.Factor.toRat / FB.toRat) +
      (x.Offset.toRat - OB.toRat) / FB.toRat) * (FB.toRat / FC.toRat) +
      (OB.toRat - OC.toRat) / FC.toRat) * FC.toRat + OC.toRat = _
    field_simp
    ring

/-- C28 on the temperatures of `basic_test.cpp`: 0 K by way of Celsius, and directly, to
Fahrenheit. -/
theorem abs_convert_path_independent_witness :
    ratio1.num ≠ 0 ∧ (Ratio.mk 5 9).num ≠ 0 ∧
    ∃ b c, AbsolutePhysicalUnit.convert ratio1 (Ratio.mk 27315 100) (TempKelvin 0) = some b ∧
      AbsolutePhysicalUnit.convert (Ratio.mk 5 9) (Ratio.mk 229835 900) b = some c ∧
      AbsolutePhysicalUnit.convert (Ratio.mk 5 9) (Ratio.mk 229835 900) (TempKelvin 0) =
        some c ∧
      b.m_value * ratio1.toRat + (Ratio.mk 27315 100).toRat =
        (TempKelvin 0).m_value * (TempKelvin 0).Factor.toRat +
          (TempKelvin 0).Offset.toRat ∧
      c.m_value * (Ratio.mk 5 9).toRat + (Ratio.mk 229835 900).toRat =
        (TempKelvin 0).m_value * (TempKelvin 0).Factor.toRat +
          (TempKelvin 0).Offset.toRat :=
  ⟨by decide, by decide,
    abs_convert_path_independent (TempKelvin 0) ratio1 (Ratio.mk 27315 100) (Ratio.mk 5 9)
      (Ratio.mk 229835 900) (by decide) (by decide)⟩

/-- The converting constructor on integers when the source scale is a whole multiple `k`
of the target scale: the raw value is multiplied by `k`. -/
theorem convert_int_whole (a : PhysicalUnit Int) (G : Ratio) (k : Int) (hG : G.num ≠ 0)
    (hk : a.Factor.toRat / G.toRat = (k : ℚ)) :
    PhysicalUnit.convert G a = some ⟨G, a.dims, a.m_value * k, a.general⟩ := by
  obtain ⟨q, -, hrat, hc⟩ := convert_eq a G hG
  have hq : q.toRat = (k : ℚ) := by rw [hrat, hk]
  have hn : q.num = k := by rw [Ratio.num_eq, hq]; exact Rat.num_intCast k
  have hd : q.den = 1 := by rw [Ratio.den_eq, hq, Rat.den_intCast]; rfl
  rw [hc]
  have hval : Int.tdiv (a.m_value * q.num) q.den = a.m_value * k := by
    rw [hn, hd, Int.tdiv_one]
  exact congrArg (fun w => some (PhysicalUnit.mk G a.dims w a.general)) hval

/-- C29. For an integer quantity `a` of scale `F1` and non-zero scales `F2` and `F3` such
that `F1 / F2` and `F2 / F3` are whole numbers `k` and `m`, converting `a` to `F2` and then
to `F3` gives exactly the quantity that converting `a` directly to `F3` gives, of raw
value `a.raw * k * m`. -/
theorem convert_chain (a : PhysicalUnit Int) (F2 F3 : Ratio) (k m : Int)
    (h2 : F2.num ≠ 0) (h3 : F3.num ≠ 0)
    (hk : a.Factor.toRat / F2.toRat = (k : ℚ)) (hm : F2.toRat / F3.toRat = (m : ℚ)) :
    ∃ b c, PhysicalUnit.convert F2 a = some b ∧ PhysicalUnit.convert F3 b = some c ∧
      PhysicalUnit.convert F3 a = some c ∧
      b.m_value = a.m_value * k ∧ c.m_value = a.m_value * k * m := by
  have h20 : F2.toRat ≠ 0 := fun h => h2 ((Ratio.num_eq_zero_iff F2).mpr h)
  have h30 : F3.toRat ≠ 0 := fun h => h3 ((Ratio.num_eq_zero_iff F3).mpr h)
  have hkm : a.Factor.toRat / F3.toRat = ((k * m : Int) : ℚ) := by
    push_cast
    rw [← hk, ← hm]
    field_simp
  have e1 := convert_int_whole a F2 k h2 hk
  have e2 := convert_int_whole (⟨F2, a.dims, a.m_value * k, a.general⟩ : PhysicalUnit Int)
    F3 m h3 hm
  have e3 := convert_int_whole a F3 (k * m) h3 hkm
  refine ⟨_, _, e1, e2, ?_, rfl, rfl⟩
  rw [e3]
  exact congrArg (fun w => some (PhysicalUnit.mk F3 a.dims w a.general))
    (mul_assoc a.m_value k m).symm

/-- C29 on the angles of `angle_test.cpp`: 90 degrees are 5400 arc-minutes and 324000
arc-seconds, by either way. -/
theorem convert_chain_witness :
    (Ratio.mk 1 60).num ≠ 0 ∧ (Ratio.mk 1 3600).num ≠ 0 ∧
    (AngleInDegrees 90).Factor.toRat / (Ratio.mk 1 60).toRat = ((60 : Int) : ℚ) ∧
    (Ratio.mk 1 60).toRat / (Ratio.mk 1 3600).toRat = ((60 : Int) : ℚ) ∧
    (∃ b c, PhysicalUnit.convert (Ratio.mk 1 60) (AngleInDegrees 90) = some b ∧
      PhysicalUnit.convert (Ratio.mk 1 3600) b = some c ∧
      PhysicalUnit.convert (Ratio.mk 1 3600) (AngleInDegrees 90) = some c ∧
      b.m_value = (AngleInDegrees 90).m_value * 60 ∧
      c.m_value = (AngleInDegrees 90).m_value * 60 * 60) ∧
    PhysicalUnit.convert (Ratio.mk 1 60) (AngleInDegrees 90) = some (AngleInMinutes 5400) ∧
    PhysicalUnit.convert (Ratio.mk 1 3600) (AngleInMinutes 5400) =
      some (AngleInSeconds 324000) ∧
    PhysicalUnit.convert (Ratio.mk 1 3600) (AngleInDegrees 90) =
      some (AngleInSeconds 324000) :=
  have hk : (AngleInDegrees 90).Factor.toRat / (Ratio.mk 1 60).toRat = ((60 : Int) : ℚ) := by
    simp only [AngleInDegrees, ratio1, Ratio.toRat]; norm_num
  have hm : (Ratio.mk 1 60).toRat / (Ratio.mk 1 3600).toRat = ((60 : Int) : ℚ) := by
    simp only [Ratio.toRat]; norm_num
  ⟨by decide, by decide, hk, hm,
    convert_chain (AngleInDegrees 90) (Ratio.mk 1 60) (Ratio.mk 1 3600) 60 60
      (by decide) (by decide) hk hm,
    by decide, by decide, by decide⟩

/-- C30. For an integer quantity `a` whose scale `S1` is a non-zero whole multiple `k` of
a non-zero scale `S2`, converting `a` to `S2` multiplies the raw value by `k`, and
converting the result back to `S1` returns exactly `a`. -/
theorem convert_finer_and_back (a : PhysicalUnit Int) (S2 : Ratio) (k : Int)
    (hk : k ≠ 0) (h2 : S2.num ≠ 0) (hS : a.Factor.toRat = (k : ℚ) * S2.toRat) :
    ∃ b, PhysicalUnit.convert S2 a = some b ∧ b.m_value = a.m_value * k ∧
      PhysicalUnit.convert a.Factor b = some a := by
  have h20 : S2.toRat ≠ 0 := fun h => h2 ((Ratio.num_eq_zero_iff S2).mpr h)
  have hk0 : (k : ℚ) ≠ 0 := by exact_mod_cast hk
  have h10 : a.Factor.toRat ≠ 0 := by rw [hS]; exact mul_ne_zero hk0 h20
  have h1 : a.Factor.num ≠ 0 := fun h => h10 ((Ratio.num_eq_zero_iff a.Factor).mp h)
  have hdiv : a.Factor.toRat / S2.toRat = (k : ℚ) := by
    rw [hS]; field_simp
  have e1 := convert_int_whole a S2 k h2 hdiv
  obtain ⟨q, -, hrat, hc⟩ := convert_eq (⟨S2, a.dims, a.m_value * k, a.general⟩ :
    PhysicalUnit Int) a.Factor h1
  have hq : q.toRat = 1 / (k : ℚ) := by
    rw [hrat]
    show S2.toRat / a.Factor.toRat = 1 / (k : ℚ)
    rw [hS]
    field_simp
    ring
  have hdq : (q.den : ℚ) ≠ 0 := by exact_mod_cast ne_of_gt q.den_pos
  have hnk : q.num * k = q.den := by
    have h := q.num_div_den
    rw [hq, div_eq_div_iff hdq hk0] at h
    have h' : ((q.num * k : Int) : ℚ) = ((q.den : Int) : ℚ) := by
      push_cast; linarith
    exact_mod_cast h'
  have hval : Int.tdiv (a.m_value * k * q.num) q.den = a.m_value := by
    have hr : a.m_value * k * q.num = a.m_value * q.den := by
      rw [← hnk]; ring
    rw [hr]
    exact Int.mul_tdiv_cancel _ (ne_of_gt q.den_pos)
  refine ⟨_, e1, rfl, ?_⟩
  rw [hc]
  cases a with
  | mk F D v g =>
    exact congrArg (fun w => some (PhysicalUnit.mk F D w g)) hval

/-- C30 on the lengths of `basic_test.cpp`: 4 m are 400 cm, and 400 cm are 4 m. -/
theorem convert_finer_and_back_witness :
    (100 : Int) ≠ 0 ∧ centi.num ≠ 0 ∧ (Meter 4).Factor.toRat = ((100 : Int) : ℚ) * centi.toRat ∧
    (∃ b, PhysicalUnit.convert centi (Meter 4) = some b ∧ b.m_value = (Meter 4).m_value * 100 ∧
      PhysicalUnit.convert (Meter 4).Factor b = some (Meter 4)) ∧
    PhysicalUnit.convert centi (Meter 4) = some (CentiMeter 400) ∧
    PhysicalUnit.convert ratio1 (CentiMeter 400) = some (Meter 4) :=
  have hS : (Meter 4).Factor.toRat = ((100 : Int) : ℚ) * centi.toRat := by
    simp only [Meter, ratio1, centi, Ratio.toRat]; norm_num
  ⟨by decide, by decide, hS,
    convert_finer_and_back (Meter 4) centi 100 (by decide) (by decide) hS,
    by decide, by decide⟩

/-! ## To a coarser unit and back -/

/-- The converting constructor on integers when the target scale is `d` times the source
scale, `d` positive: the raw value is divided by `d`, toward zero. -/
theorem convert_int_coarser (a : PhysicalUnit Int) (G : Ratio) (d : Int) (hd : 0 < d)
    (hG : G.num ≠ 0) (hk : a.Factor.toRat / G.toRat = 1 / (d : ℚ)) :
    PhysicalUnit.convert G a = some ⟨G, a.dims, Int.tdiv a.m_value d, a.general⟩ := by
  obtain ⟨q, -, hrat, hc⟩ := convert_eq a G hG
  have hq : q.toRat = ((1 : Int) : ℚ) / ((d : Int) : ℚ) := by
    rw [hrat, hk]; norm_num
  have hco : Nat.Coprime (1 : Int).natAbs d.natAbs := by simp
  have hn : q.num = 1 := by
    rw [Ratio.num_eq, hq]; exact Rat.num_div_eq_of_coprime hd hco
  have hden : q.den = d := by
    rw [Ratio.den_eq, hq]; exact Rat.den_div_eq_of_coprime hd hco
  rw [hc]
  have hval : Int.tdiv (a.m_value * q.num) q.den = Int.tdiv a.m_value d := by
    rw [hn, hden, mul_one]
  exact congrArg (fun w => some (PhysicalUnit.mk G a.dims w a.general)) hval

/-- C31, as amended. For an integer quantity `a` of non-zero scale `S1` and a scale `S2`
that is `d` times `S1`, `d` a positive integer, converting `a` to `S2` stores `a.raw / d`,
rounded toward zero, and converting the result back to `S1` gives the quantity of the type
of `a` with raw value `(a.raw / d) * d`, which is `a.raw` minus the truncated remainder, a
multiple of `d`, of magnitude at most `|a.raw|`, and less than `d` away from `a.raw`. -/
theorem convert_coarser_and_back (a : PhysicalUnit Int) (S2 : Ratio) (d : Int)
    (hd : 0 < d) (h1 : a.Factor.num ≠ 0) (hS : S2.toRat = (d : ℚ) * a.Factor.toRat) :
    ∃ b c, PhysicalUnit.convert S2 a = some b ∧ b.m_value = Int.tdiv a.m_value d ∧
      PhysicalUnit.convert a.Factor b = some c ∧
      c.Factor = a.Factor ∧ c.dims = a.dims ∧
      c.m_value = Int.tdiv a.m_value d * d ∧
      c.m_value = a.m_value - Int.tmod a.m_value d ∧
      d ∣ c.m_value ∧ |c.m_value| ≤ |a.m_value| ∧ |a.m_value - c.m_value| < d := by
  have h10 : a.Factor.toRat ≠ 0 := fun h => h1 ((Ratio.num_eq_zero_iff a.Factor).mpr h)
  have hd0 : (d : ℚ) ≠ 0 := by exact_mod_cast ne_of_gt hd
  have h20 : S2.toRat ≠ 0 := by rw [hS]; exact mul_ne_zero hd0 h10
  have h2 : S2.num ≠ 0 := fun h => h20 ((Ratio.num_eq_zero_iff S2).mp h)
  have hdiv : a.Factor.toRat / S2.toRat = 1 / (d : ℚ) := by
    rw [hS]; field_simp; ring
  have hback : S2.toRat / a.Factor.toRat = (d : ℚ) := by
    rw [hS]; field_simp
  have e1 := convert_int_coarser a S2 d hd h2 hdiv
  have e2 := convert_int_whole
    (⟨S2, a.dims, Int.tdiv a.m_value d, a.general⟩ : PhysicalUnit Int) a.Factor d h1 hback
  obtain ⟨hle, hlt⟩ := tdiv_toward_zero a.m_value d hd
  refine ⟨_, _, e1, rfl, e2, rfl, rfl, rfl, ?_, ⟨Int.tdiv a.m_value d, mul_comm _ _⟩,
    hle, hlt⟩
  show Int.tdiv a.m_value d * d = a.m_value - Int.tmod a.m_value d
  rw [Int.tmod_def]
  ring

/-- C31, as amended, on the lengths of `basic_test.cpp`: 1350 cm are 13 m, and 13 m are
1300 cm. -/
theorem convert_coarser_and_back_witness :
    (0 : Int) < 100 ∧ (CentiMeter 1350).Factor.num ≠ 0 ∧
    ratio1.toRat = ((100 : Int) : ℚ) * (CentiMeter 1350).Factor.toRat ∧
    (∃ b c, PhysicalUnit.convert ratio1 (CentiMeter 1350) = some b ∧
      b.m_value = Int.tdiv (CentiMeter 1350).m_value 100 ∧
      PhysicalUnit.convert (CentiMeter 1350).Factor b = some c ∧
      c.Factor = (CentiMeter 1350).Factor ∧ c.dims = (CentiMeter 1350).dims ∧
      c.m_value = Int.tdiv (CentiMeter 1350).m_value 100 * 100 ∧
      c.m_value = (CentiMeter 1350).m_value - Int.tmod (CentiMeter 1350).m_value 100 ∧
      (100 : Int) ∣ c.m_value ∧ |c.m_value| ≤ |(CentiMeter 1350).m_value| ∧
      |(CentiMeter 1350).m_value - c.m_value| < 100) ∧
    PhysicalUnit.convert ratio1 (CentiMeter 1350) = some (Meter 13) ∧
    PhysicalUnit.convert centi (Meter 13) = some (CentiMeter 1300) ∧
    PhysicalUnit.convert ratio1 (CentiMeter (-1350)) = some (Meter (-13)) ∧
    PhysicalUnit.convert centi (Meter (-13)) = some (CentiMeter (-1300)) :=
  have hS : ratio1.toRat = ((100 : Int) : ℚ) * (CentiMeter 1350).Factor.toRat := by
    simp only [CentiMeter, ratio1, centi, Ratio.toRat]; norm_num
  ⟨by decide, by decide, hS,
    convert_coarser_and_back (CentiMeter 1350) ratio1 100 (by decide) (by decide) hS,
    by decide, by decide, by decide, by decide⟩

/-- C31 as stated fails for a source scale of zero, of which every scale of zero is `d`
times, for every `d`: the converting constructor to another type of scale zero is
ill-formed, and the conversion to the type itself is a copy, which returns 1350 where
`(1350 / 100) * 100` is 1300. -/
theorem convert_coarser_and_back_counterexample :
    (Ratio.mk 0 2).toRat = ((100 : Int) : ℚ) * (ZeroScaleLength 1350).Factor.toRat ∧
    ratio0.toRat = ((100 : Int) : ℚ) * (ZeroScaleLength 1350).Factor.toRat ∧
    PhysicalUnit.convert (Ratio.mk 0 2) (ZeroScaleLength 1350) = none ∧
    unit_cast (Ratio.mk 0 2) lengthDims (ZeroScaleLength 1350) = none ∧
    unit_cast ratio0 lengthDims (ZeroScaleLength 1350) = some (ZeroScaleLength 1350) ∧
    (ZeroScaleLength 1350).m_value ≠ Int.tdiv 1350 100 * 100 := by
  refine ⟨?_, ?_, by decide, by decide, by decide, by decide⟩
  · simp only [ZeroScaleLength, ratio0, Ratio.toRat]; norm_num
  · simp only [ZeroScaleLength, ratio0, Ratio.toRat]; norm_num

/-! ## Conversion keeps the order -/

/-- The quotient rounded toward zero by a positive divisor is monotone in the dividend. -/
theorem tdiv_mono (x y d : Int) (hd : 0 < d) (hxy : x ≤ y) : Int.tdiv x d ≤ Int.tdiv y d := by
  have hpos : ∀ z : Int, 0 ≤ z → Int.tdiv z d = z / d := fun z hz =>
    Int.tdiv_eq_ediv hz (le_of_lt hd)
  have hneg : ∀ z : Int, z ≤ 0 → Int.tdiv z d = -((-z) / d) := by
    intro z hz
    have h := Int.neg_tdiv (-z) d
    rw [neg_neg] at h
    rw [h, hpos (-z) (by omega)]
  rcases le_or_lt 0 x with hx | hx
  · rw [hpos x hx, hpos y (le_trans hx hxy)]
    exact Int.ediv_le_ediv hd hxy
  · rcases le_or_lt 0 y with hy | hy
    · rw [hneg x (le_of_lt hx), hpos y hy]
      have h1 : 0 ≤ (-x) / d := Int.ediv_nonneg (by omega) (le_of_lt hd)
      have h2 : 0 ≤ y / d := Int.ediv_nonneg hy (le_of_lt hd)
      omega
    · rw [hneg x (le_of_lt hx), hneg y (le_of_lt hy)]
      have h := Int.ediv_le_ediv hd (show -y ≤ -x by omega)
      omega

/-- C32. For integer quantities `a` and `b` of one type, of scale `F`, and a target scale
`G` with `F / G > 0`, both conversions are defined and `a.raw <= b.raw` gives
`convert(a).raw <= convert(b).raw`: when `a <= b` holds, `convert(a) <= convert(b)` holds
and `convert(a) > convert(b)` does not. -/
theorem convert_monotone (a b : PhysicalUnit Int) (G : Ratio)
    (hF : a.Factor = b.Factor) (hD : a.dims = b.dims)
    (hpos : 0 < a.Factor.toRat / G.toRat) (hle : a.m_value ≤ b.m_value) :
    ∃ a1 b1, PhysicalUnit.convert G a = some a1 ∧ PhysicalUnit.convert G b = some b1 ∧
      a1.m_value ≤ b1.m_value ∧
      operator_le a b = some true ∧ operator_le a1 b1 = some true ∧
      operator_gt a1 b1 = some false := by
  have hG0 : G.toRat ≠ 0 := by
    intro h
    rw [h, div_zero] at hpos
    exact lt_irrefl _ hpos
  have hG : G.num ≠ 0 := fun h => hG0 ((Ratio.num_eq_zero_iff G).mp h)
  obtain ⟨q, hq, hrat, hca⟩ := convert_eq a G hG
  obtain ⟨q1, hq1, -, hcb⟩ := convert_eq b G hG
  rw [← hF, hq] at hq1
  have hqq : q = q1 := Option.some.inj hq1
  subst hqq
  have hqpos : 0 < q.toRat := by rw [hrat]; exact hpos
  have hn : 0 < q.num := by
    rw [Ratio.num_eq]; exact Rat.num_pos.mpr hqpos
  have hval : Int.tdiv (a.m_value * q.num) q.den ≤ Int.tdiv (b.m_value * q.num) q.den :=
    tdiv_mono _ _ _ q.den_pos (mul_le_mul_of_nonneg_right hle (le_of_lt hn))
  refine ⟨_, _, hca, hcb, hval, ?_, ?_, ?_⟩
  · unfold operator_le
    rw [compareWith_same _ a b hF hD]
    exact congrArg some (decide_eq_true hle)
  · unfold operator_le
    rw [compareWith_same ValType.le (PhysicalUnit.mk G a.dims _ a.general)
      (PhysicalUnit.mk G b.dims _ b.general) rfl hD]
    exact congrArg some (decide_eq_true hval)
  · unfold operator_gt
    rw [compareWith_same ValType.gt (PhysicalUnit.mk G a.dims _ a.general)
      (PhysicalUnit.mk G b.dims _ b.general) rfl hD]
    exact congrArg some (decide_eq_false (not_lt.mpr hval))

/-- C32 on the lengths of `basic_test.cpp`: 1350 cm and 1399 cm are both 13 m, and -1 cm
and 1 cm are both 0 m; the order is kept, not strictly. -/
theorem convert_monotone_witness :
    (CentiMeter 1350).Factor = (CentiMeter 1399).Factor ∧
    (CentiMeter 1350).dims = (CentiMeter 1399).dims ∧
    0 < (CentiMeter 1350).Factor.toRat / ratio1.toRat ∧
    (CentiMeter 1350).m_value ≤ (CentiMeter 1399).m_value ∧
    (∃ a1 b1, PhysicalUnit.convert ratio1 (CentiMeter 1350) = some a1 ∧
      PhysicalUnit.convert ratio1 (CentiMeter 1399) = some b1 ∧
      a1.m_value ≤ b1.m_value ∧
      operator_le (CentiMeter 1350) (CentiMeter 1399) = some true ∧
      operator_le a1 b1 = some true ∧ operator_gt a1 b1 = some false) ∧
    PhysicalUnit.convert ratio1 (CentiMeter 1350) = some (Meter 13) ∧
    PhysicalUnit.convert ratio1 (CentiMeter 1399) = some (Meter 13) ∧
    PhysicalUnit.convert ratio1 (CentiMeter (-1)) = some (Meter 0) ∧
    PhysicalUnit.convert ratio1 (CentiMeter 1) = some (Meter 0) :=
  have hpos : 0 < (CentiMeter 1350).Factor.toRat / ratio1.toRat := by
    simp only [CentiMeter, ratio1, centi, Ratio.toRat]; norm_num
  ⟨rfl, rfl, hpos, by decide,
    convert_monotone (CentiMeter 1350) (CentiMeter 1399) ratio1 rfl rfl hpos (by decide),
    by decide, by decide, by decide, by decide⟩

/-! ## Normalisation adds or removes whole turns -/

/-- C33. For an integer angle type of either interval kind whose turn `360 / Factor` is
the positive integer `turn`, the value stored for the raw input `x` differs from `x` by a
whole multiple of `turn`. -/
theorem setValue_congruent (T : AngleType) (turn : Int) (hpos : 0 < turn)
    (hturn : (turn : ℚ) = 360 / T.Factor.toRat) (x : Int) :
    turn ∣ ((AbsoluteAngle.ofValue T x).m_value - x) ∧
    turn ∣ (AbsoluteAngle.setValue T x - x) ∧
    (∃ k : Int, AbsoluteAngle.setValue T x = x + k * turn) := by
  have hdvd : turn ∣ (AbsoluteAngle.setValue T x - x) := by
    rw [setValue_int T turn hturn x]
    obtain ⟨-, -, ⟨c, hc⟩, -, -⟩ := tmod_facts x turn hpos
    split_ifs
    · exact ⟨c - 1, by rw [mul_sub, ← hc]; ring⟩
    · exact ⟨c, hc⟩
    · exact ⟨c + 1, by rw [mul_add, ← hc]; ring⟩
    · exact ⟨c, hc⟩
  refine ⟨hdvd, hdvd, ?_⟩
  obtain ⟨k, hk⟩ := hdvd
  exact ⟨k, by linarith⟩

/-- C33 at degrees, half interval and full interval: -270 is stored as -270 and as 90, 270
as -90 and as 270, each a whole number of turns away from the input. -/
theorem setValue_congruent_witness :
    (0 : Int) < 360 ∧ (((360 : Int) : ℚ) = 360 / degreesHalf.Factor.toRat) ∧
    ((360 : Int) ∣ ((AbsoluteAngle.ofValue degreesHalf (-270 : Int)).m_value - (-270)) ∧
      (360 : Int) ∣ (AbsoluteAngle.setValue degreesHalf (-270 : Int) - (-270)) ∧
      (∃ k : Int, AbsoluteAngle.setValue degreesHalf (-270 : Int) = -270 + k * 360)) ∧
    AbsoluteAngle.setValue degreesHalf (-270 : Int) = -270 ∧
    AbsoluteAngle.setValue degreesFull (-270 : Int) = 90 ∧
    AbsoluteAngle.setValue degreesHalf (270 : Int) = -90 ∧
    AbsoluteAngle.setValue degreesFull (270 : Int) = 270 :=
  ⟨by decide, by simp [degreesHalf, ratio1, Ratio.toRat],
    setValue_congruent degreesHalf 360 (by decide)
      (by simp [degreesHalf, ratio1, Ratio.toRat]) (-270),
    by decide, by decide, by decide, by decide⟩

/-! ## Normalising twice -/

/-- The remainder of the truncating division of a number smaller in magnitude than the
divisor is the number. -/
theorem tmod_small (v t : Int) (h1 : -t < v) (h2 : v < t) : Int.tmod v t = v := by
  rcases le_or_lt 0 v with h | h
  · exact Int.tmod_eq_of_lt h h2
  · have h3 : Int.tmod (-v) t = -v := Int.tmod_eq_of_lt (by omega) (by omega)
    have h4 : Int.tmod (-v) t = -Int.tmod v t := by
      rw [Int.tmod_def, Int.tmod_def, Int.neg_tdiv]
      ring
    omega

/-- The value that `setValue` stores is stored unchanged when given to `setValue` again. -/
theorem setValue_fixed (T : AngleType) (turn : Int) (hpos : 0 < turn)
    (hturn : (turn : ℚ) = 360 / T.Factor.toRat) (x : Int) :
    AbsoluteAngle.setValue T (AbsoluteAngle.setValue T x) = AbsoluteAngle.setValue T x := by
  obtain ⟨h1, h2, -, -, -⟩ := tmod_facts x turn hpos
  have hh : Int.tdiv turn 2 = turn / 2 := Int.tdiv_eq_ediv (le_of_lt hpos) (by decide)
  rw [setValue_int T turn hturn (AbsoluteAngle.setValue T x), setValue_int T turn hturn x]
  generalize Int.tmod x turn = r at h1 h2
  rw [hh]
  cases T.HalfInterval
  · simp only [Bool.false_eq_true, if_false]
    by_cases ha : r < 0
    · have e : Int.tmod (r + turn) turn = r + turn := tmod_small _ _ (by omega) (by omega)
      rw [if_pos ha, e, if_neg (show ¬ (r + turn < 0) by omega)]
    · have e : Int.tmod r turn = r := tmod_small _ _ (by omega) (by omega)
      rw [if_neg ha, e, if_neg ha]
  · simp only [if_true]
    by_cases ha : turn / 2 ≤ r
    · rw [if_pos ha]
      rcases eq_or_lt_of_le (show 0 ≤ r by omega) with h0 | h0
      · subst h0
        have e : Int.tmod (0 - turn) turn = 0 := by
          rw [zero_sub, Int.tmod_def, Int.neg_tdiv, Int.tdiv_self (ne_of_gt hpos)]
          ring
        rw [e, if_pos ha]
      · have e : Int.tmod (r - turn) turn = r - turn :=
          tmod_small _ _ (by omega) (by omega)
        rw [e, if_neg (show ¬ (turn / 2 ≤ r - turn) by omega)]
    · have e : Int.tmod r turn = r := tmod_small _ _ (by omega) (by omega)
      rw [if_neg ha, e, if_neg ha]

/-- C34, as amended. For an integer angle type of either interval kind whose turn is the
positive integer `turn`, normalising the normalised value of any `x` returns it unchanged;
so the copy of an angle built from a raw value has the raw value of the original, the
assignment of an angle to one of its own type copies the raw value, whatever it is, and
the copy of a default-constructed angle has its raw value 0 when the type is full-interval
or the turn is at least 2. -/
theorem setValue_idempotent (T : AngleType) (turn : Int) (hpos : 0 < turn)
    (hturn : (turn : ℚ) = 360 / T.Factor.toRat) (x : Int) (self val : AbsoluteAngle Int) :
    AbsoluteAngle.setValue T (AbsoluteAngle.setValue T x) = AbsoluteAngle.setValue T x ∧
    AbsoluteAngle.copy (AbsoluteAngle.ofValue T x) = AbsoluteAngle.ofValue T x ∧
    AbsoluteAngle.assign (AbsoluteAngle.ofValue T x) (AbsoluteAngle.ofValue T x) =
      some (AbsoluteAngle.ofValue T x) ∧
    (val.type = self.type → AbsoluteAngle.assign self val = some val) ∧
    (T.HalfInterval = false ∨ 2 ≤ turn →
      AbsoluteAngle.copy (AbsoluteAngle.zero T : AbsoluteAngle Int) = AbsoluteAngle.zero T) := by
  have hfix := setValue_fixed T turn hpos hturn x
  refine ⟨hfix, ?_, ?_, ?_, ?_⟩
  · show AbsoluteAngle.mk T (AbsoluteAngle.setValue T (AbsoluteAngle.setValue T x)) =
      AbsoluteAngle.mk T (AbsoluteAngle.setValue T x)
    rw [hfix]
  · unfold AbsoluteAngle.assign
    rw [if_pos rfl]
  · intro h
    unfold AbsoluteAngle.assign
    rw [if_pos h, ← h]
  · intro h
    have h0 : AbsoluteAngle.setValue T (0 : Int) = 0 := by
      rw [setValue_int T turn hturn 0,
        Int.tdiv_eq_ediv (le_of_lt hpos) (by decide : (0 : Int) ≤ 2)]
      have e : Int.tmod 0 turn = 0 := tmod_small _ _ (by omega) (by omega)
      rw [e]
      rcases h with h | h
      · rw [h]; simp
      · rw [if_neg (show ¬ (turn / 2 ≤ 0) by omega)]
        simp
    show AbsoluteAngle.mk T (AbsoluteAngle.setValue T (0 : Int)) = AbsoluteAngle.mk T 0
    rw [h0]

/-- C34, as amended, at degrees, half interval: -270 is stored as -270 and stays so, and
so does the -90 stored for 270. -/
theorem setValue_idempotent_witness :
    (0 : Int) < 360 ∧ (((360 : Int) : ℚ) = 360 / degreesHalf.Factor.toRat) ∧
    (AbsoluteAngle.setValue degreesHalf (AbsoluteAngle.setValue degreesHalf (-270 : Int)) =
        AbsoluteAngle.setValue degreesHalf (-270 : Int) ∧
      AbsoluteAngle.copy (AbsoluteAngle.ofValue degreesHalf (-270 : Int)) =
        AbsoluteAngle.ofValue degreesHalf (-270) ∧
      AbsoluteAngle.assign (AbsoluteAngle.ofValue degreesHalf (-270 : Int))
          (AbsoluteAngle.ofValue degreesHalf (-270)) =
        some (AbsoluteAngle.ofValue degreesHalf (-270)) ∧
      ((AbsoluteAngle.ofValue degreesHalf (270 : Int)).type =
          (AbsoluteAngle.ofValue degreesHalf (20 : Int)).type →
        AbsoluteAngle.assign (AbsoluteAngle.ofValue degreesHalf (20 : Int))
            (AbsoluteAngle.ofValue degreesHalf (270 : Int)) =
          some (AbsoluteAngle.ofValue degreesHalf (270 : Int))) ∧
      (degreesHalf.HalfInterval = false ∨ (2 : Int) ≤ 360 →
        AbsoluteAngle.copy (AbsoluteAngle.zero degreesHalf : AbsoluteAngle Int) =
          AbsoluteAngle.zero degreesHalf)) ∧
    (AbsoluteAngle.ofValue degreesHalf (270 : Int)).m_value = -90 ∧
    (AbsoluteAngle.copy (AbsoluteAngle.ofValue degreesHalf (270 : Int))).m_value = -90 ∧
    (AbsoluteAngle.copy (AbsoluteAngle.zero degreesHalf : AbsoluteAngle Int)).m_value = 0 :=
  ⟨by decide, by simp [degreesHalf, ratio1, Ratio.toRat],
    setValue_idempotent degreesHalf 360 (by decide)
      (by simp [degreesHalf, ratio1, Ratio.toRat]) (-270)
      (AbsoluteAngle.ofValue degreesHalf 20) (AbsoluteAngle.ofValue degreesHalf 270),
    by decide, by decide, by decide⟩

/-- C34 as stated fails for the half-interval angle type in whole turns, of turn 1: a
default-constructed angle has the raw value 0, and its copy, which the copy constructor
gives to `setValue`, has the raw value -1. -/
theorem setValue_idempotent_counterexample :
    (0 : Int) < 1 ∧ (((1 : Int) : ℚ) = 360 / turnsHalf.Factor.toRat) ∧
    (AbsoluteAngle.zero turnsHalf : AbsoluteAngle Int).m_value = 0 ∧
    (AbsoluteAngle.copy (AbsoluteAngle.zero turnsHalf : AbsoluteAngle Int)).m_value = -1 ∧
    AbsoluteAngle.copy (AbsoluteAngle.zero turnsHalf : AbsoluteAngle Int) ≠
      AbsoluteAngle.zero turnsHalf := by
  refine ⟨by decide, ?_, by decide, by decide, by decide⟩
  simp only [turnsHalf, Ratio.toRat]
  norm_num

end units
